import Mathlib

/-!
# DataStructures: stacks over a storage-agnostic iteration protocol

A shallow embedding of the C++ templates under `src/headers/dstructs`
(`datastructure.h`, `slinearstructure.h`, `sstack.h`, `sstackpair.h`,
`dlinearstructure.h`, `dstack.h`, `stack.h`, `dlinkedlist.h`, and `isFull` of
`dstack2.h`) together with the loops of `example/testdatastructures.cpp`.

Conventions of the embedding.

* A method of the source is a function from the object's state to an outcome and the
  state in which the call leaves the object, so that "the call failed and left the
  object unchanged" is a statement about the returned state.
* An outcome is a normal return or a fault.  The faults are: a C++ exception that
  propagates to the caller (`raised`), a failed `assert` or an exception that leaves a
  function against its exception specification (`aborted`, the source is embedded
  with its assertions compiled in), a dereference of a null or dangling node
  pointer or an out-of-range array index (`undefined`), and a loop that was cut off by
  the step bound of the embedding (`timeout`).
* `unsigned int` and `size_t` values are natural numbers.  Every subtraction and
  decrement of the source that the embedding performs comes after a test or an
  assertion that makes it exact (where the source would wrap around below zero and
  index the array with the result, the embedding reports `undefined`).  A counter is
  raised by one per stored element; the embedding is about structures with fewer
  elements than the range of `unsigned int`, where no counter wraps around.
* `SStack<T>` derives from `SLinearStruct<T>`, whose declaration, constructor and
  `assertInvariants` stand in `slinearstructure.h` between `#if 0` and `#endif`; the
  repository has no other definition of that class, and the embedding takes the members
  (`_maxElements`, `_elements`, `_iterCurrent`), the constructor and the assertion
  from there.
* The exception specifications `throw (...)` of `Stack<T>::operator<<` and `operator>>`
  and of `DStack<T>::operator=` and `operator+=` are embedded with `Fault.throwSpec`:
  these functions pass on the outcome of a virtual call, or of a loop over a source of
  any class, which may raise an exception that the specification does not list.
* The element type `T` is arbitrary.  Copying an element (copy constructor or
  assignment operator of `T`) either yields the element or throws, as decided by
  `Env.copyThrows`; a `new` expression for a node yields storage, null, or throws, as
  decided by `Env.newNode`.
* A node pointer is an `Option Nat`: `none` is `NULL`, `some a` is the address `a` of
  the free store of the structure.
-/

namespace DStructs

/-! ## Outcomes -/

/-- Error numbers carried by `ExceptionErrno`. -/
inductive Errno
  | EINVAL
  | ENOMEM
  deriving DecidableEq, Repr

/-- The exceptions of the library (`DataStructure_::OperationFailed`, `Empty`, `Full`,
`SStackPair::BadSelection`, `ExceptionErrno`), and `Foreign` for an exception that
comes from outside the library: one thrown by an operation of the element type `T`
or by the allocator. -/
inductive Exn
  | OperationFailed
  | Empty
  | Full
  | BadSelection
  | ExceptionErrno (errno : Errno)
  | Foreign
  deriving DecidableEq, Repr

/-- The ways in which a call does not return normally. -/
inductive Fault
  | raised (e : Exn)
  | aborted
  | undefined
  | timeout
  deriving DecidableEq, Repr

/-- The outcome of a call: a normal return with a value, or a fault. -/
inductive Outcome (α : Type)
  | ok (a : α)
  | fail (f : Fault)
  deriving DecidableEq, Repr

/-- What `catch (...) { throw OperationFailed(...); }` makes of the fault of a `try`
block: every exception becomes `OperationFailed`; an abort, an undefined operation
and a cut-off loop are not exceptions and are not caught. -/
def Fault.catchAll : Fault → Fault
  | .raised _ => .raised .OperationFailed
  | f => f

/-- What an exception specification `throw (allowed...)` on a function makes of the
fault of its body: an exception that the specification lists leaves the function; any
other exception calls `unexpected()`, which ends the process (`aborted`). -/
def Fault.throwSpec (allowed : List Exn) : Fault → Fault
  | .raised e => if e ∈ allowed then .raised e else .aborted
  | f => f

/-- The outcome of a function with the exception specification `throw (allowed...)`,
from the outcome of its body. -/
def Outcome.throwSpec {α : Type} (allowed : List Exn) : Outcome α → Outcome α
  | .ok a => .ok a
  | .fail f => .fail (f.throwSpec allowed)

/-- The result of a `new` expression. -/
inductive NewResult
  | storage
  | null
  | threw
  deriving DecidableEq, Repr

/-- The behaviour of the element type and of the allocator.  `copyThrows x` tells
whether copying the element `x` throws; `newNode a` is the result of the `new`
expression that would place a node at address `a`. -/
structure Env (T : Type) where
  copyThrows : T → Bool
  newNode : Nat → NewResult

/-- An environment in which no copy throws and every allocation yields storage. -/
def Env.reliable (T : Type) : Env T :=
  { copyThrows := fun _ => false, newNode := fun _ => .storage }

/-! ## The iteration protocol of `DataStructure<T>` -/

/-- The part of `DataStructure<T>` that generic code uses: `numElements()`, the four
protected iteration methods and `assertInvariants()`, for a structure whose state has
type `σ`.  The iteration cursor (`*_iterCurrent`) is part of the state: `iterStart`
and `iterNext` return the state with the cursor moved. -/
structure DataStructure (T : Type) (σ : Type) where
  numElements : σ → Nat
  assertInvariants : σ → Bool
  iterStart : σ → Outcome Unit × σ
  iterMore : σ → Outcome Bool
  iterNext : σ → Outcome Unit × σ
  iterCurrent : σ → Outcome T

/-- The loop `for (; source.iterMore(); source.iterNext()) body(source.iterCurrent())`
run for at most `fuel` tests of its condition.  `r` is the state that the body works
on. -/
def iterLoop {T σ ρ : Type} (D : DataStructure T σ) (body : ρ → T → Outcome Unit × ρ) :
    Nat → σ → ρ → Outcome Unit × σ × ρ
  | 0, s, r => (.fail .timeout, s, r)
  | fuel + 1, s, r =>
    match D.iterMore s with
    | .fail f => (.fail f, s, r)
    | .ok false => (.ok (), s, r)
    | .ok true =>
      match D.iterCurrent s with
      | .fail f => (.fail f, s, r)
      | .ok x =>
        match body r x with
        | (.fail f, r') => (.fail f, s, r')
        | (.ok _, r') =>
          match D.iterNext s with
          | (.fail f, s') => (.fail f, s', r')
          | (.ok _, s') => iterLoop D body fuel s' r'

/-- The loop `for (source.iterStart(); source.iterMore(); source.iterNext()) ...`. -/
def forLoop {T σ ρ : Type} (D : DataStructure T σ) (body : ρ → T → Outcome Unit × ρ)
    (fuel : Nat) (s : σ) (r : ρ) : Outcome Unit × σ × ρ :=
  match D.iterStart s with
  | (.fail f, s') => (.fail f, s', r)
  | (.ok _, s') => iterLoop D body fuel s' r

/-- `DataStructure<T>::forAll` with the operation "append the element to a list":
the sequence of elements that the iteration protocol visits. -/
def forAll {T σ : Type} (D : DataStructure T σ) (fuel : Nat) (s : σ) :
    Outcome Unit × σ × List T :=
  forLoop D (fun acc x => (.ok (), acc ++ [x])) fuel s []

/-- From the cursor position of `s`, the protocol yields exactly the elements `xs` and
then reports that there are no more; the steps do not change `numElements`. -/
def IterFrom {T σ : Type} (D : DataStructure T σ) : σ → List T → Prop
  | s, [] => D.iterMore s = .ok false
  | s, x :: xs =>
    D.iterMore s = .ok true ∧ D.iterCurrent s = .ok x ∧ (D.iterNext s).1 = .ok () ∧
      D.numElements (D.iterNext s).2 = D.numElements s ∧ IterFrom D (D.iterNext s).2 xs

/-- The iteration sequence of `s` is `xs`: after `iterStart` the protocol yields
exactly `xs`. -/
def Iterates {T σ : Type} (D : DataStructure T σ) (s : σ) (xs : List T) : Prop :=
  (D.iterStart s).1 = .ok () ∧ D.numElements (D.iterStart s).2 = D.numElements s ∧
    IterFrom D (D.iterStart s).2 xs

/-- The state `s` is a collection holding `xs`: its assertions pass, its iteration
sequence is `xs`, and `numElements()` is the number of elements of that sequence. -/
structure IsCollection {T σ : Type} (D : DataStructure T σ) (s : σ) (xs : List T) :
    Prop where
  inv : D.assertInvariants s = true
  count : D.numElements s = xs.length
  iter : Iterates D s xs

/-! ## `operator==` of `datastructure.h` -/

/-- The main loop of `operator==`:
`while (areEqual && lhs.iterMore()) { assert(rhs.iterMore()); areEqual =
lhs.iterCurrent() == rhs.iterCurrent(); lhs.iterNext(); rhs.iterNext(); }`.
`eq` is the equality operator of `T`. -/
def operatorEqLoop {T σ₁ σ₂ : Type} (L : DataStructure T σ₁) (R : DataStructure T σ₂)
    (eq : T → T → Outcome Bool) : Nat → Bool → σ₁ → σ₂ → Outcome Bool × σ₁ × σ₂
  | 0, _, l, r => (.fail .timeout, l, r)
  | fuel + 1, areEqual, l, r =>
    if areEqual = false then (.ok areEqual, l, r)
    else
      match L.iterMore l with
      | .fail f => (.fail f, l, r)
      | .ok false => (.ok areEqual, l, r)
      | .ok true =>
        match R.iterMore r with
        | .fail f => (.fail f, l, r)
        | .ok false => (.fail .aborted, l, r)
        | .ok true =>
          match L.iterCurrent l with
          | .fail f => (.fail f, l, r)
          | .ok a =>
            match R.iterCurrent r with
            | .fail f => (.fail f, l, r)
            | .ok b =>
              match eq a b with
              | .fail f => (.fail f, l, r)
              | .ok e =>
                match L.iterNext l with
                | (.fail f, l') => (.fail f, l', r)
                | (.ok _, l') =>
                  match R.iterNext r with
                  | (.fail f, r') => (.fail f, l', r')
                  | (.ok _, r') => operatorEqLoop L R eq fuel e l' r'

/-- The function `operator==(const DataStructure<T>& lhs, const DataStructure<T>& rhs)`. -/
def operatorEq {T σ₁ σ₂ : Type} (L : DataStructure T σ₁) (R : DataStructure T σ₂)
    (eq : T → T → Outcome Bool) (fuel : Nat) (lhs : σ₁) (rhs : σ₂) :
    Outcome Bool × σ₁ × σ₂ :=
  if L.assertInvariants lhs = false then (.fail .aborted, lhs, rhs)
  else if R.assertInvariants rhs = false then (.fail .aborted, lhs, rhs)
  else if L.numElements lhs = R.numElements rhs then
    match L.iterStart lhs with
    | (.fail f, l) => (.fail f, l, rhs)
    | (.ok _, l) =>
      match R.iterStart rhs with
      | (.fail f, r) => (.fail f, l, r)
      | (.ok _, r) =>
        match operatorEqLoop L R eq fuel true l r with
        | (.fail f, l', r') => (.fail f, l', r')
        | (.ok areEqual, l', r') =>
          if areEqual = false then (.ok areEqual, l', r')
          else
            match R.iterMore r' with
            | .fail f => (.fail f, l', r')
            | .ok true => (.fail .aborted, l', r')
            | .ok false => (.ok areEqual, l', r')
  else (.ok false, lhs, rhs)

/-! ## `SStack<T>`: the stack in an array of fixed size -/

/-- The state of an `SStack<T>`: the members that it gets from `SLinearStruct<T>`
(`_maxElements`, the array `_elements`, the cell `*_iterCurrent`) and `_numElements`.
The array is a map from indices to elements; a newly allocated array holds whatever
the allocation left in it. -/
structure SStack (T : Type) where
  _maxElements : Nat
  _elements : Nat → T
  _numElements : Nat
  _iterCurrent : Nat

namespace SStack

variable {T : Type}

/-- `SLinearStruct<T>::assertInvariants`: `assert(_numElements <= _maxElements)`. -/
def assertInvariants (s : SStack T) : Bool :=
  decide (s._numElements ≤ s._maxElements)

/-- The constructor `SStack(const unsigned int size)`, which is the constructor of
`SLinearStruct<T>` followed by `assertInvariants()`.  The class `SLinearStruct<T>` and
its constructor are declared and defined in `slinearstructure.h` only between `#if 0`
and `#endif`: that text is compiled out, and it is the only definition of the base
class of `SStack<T>` that the repository has.  The embedding takes it as the
constructor that `SStack(size)` delegates to: the size 0 is refused with
`ExceptionErrno(EINVAL)`, a failed allocation with `ExceptionErrno(ENOMEM)`.
`elements` is the result of `new T[initialSize]` and `iterCell` the result of
`new unsigned int` (`none` when the allocation yields null). -/
def construct (size : Nat) (elements : Option (Nat → T)) (iterCell : Option Nat) :
    Outcome (SStack T) :=
  if size = 0 then .fail (.raised (.ExceptionErrno .EINVAL))
  else
    match elements, iterCell with
    | some e, some i =>
      let s : SStack T :=
        { _maxElements := size, _elements := e, _numElements := 0, _iterCurrent := i }
      if s.assertInvariants = false then .fail .aborted else .ok s
    | _, _ => .fail (.raised (.ExceptionErrno .ENOMEM))

/-- `DataStructure_::numElements`. -/
def numElements (s : SStack T) : Nat := s._numElements

/-- `SStack<T>::isEmpty`. -/
def isEmpty (s : SStack T) : Outcome Bool :=
  if s.assertInvariants = false then .fail .aborted
  else .ok (decide (s._numElements = 0))

/-- `SStack<T>::isFull`. -/
def isFull (s : SStack T) : Outcome Bool :=
  if s.assertInvariants = false then .fail .aborted
  else .ok (decide (s._numElements = s._maxElements))

/-- `SStack<T>::empty`. -/
def empty (s : SStack T) : Outcome Unit × SStack T :=
  if s.assertInvariants = false then (.fail .aborted, s)
  else (.ok (), { s with _numElements := 0 })

/-- `SStack<T>::iterStart`. -/
def iterStart (s : SStack T) : Outcome Unit × SStack T :=
  if s.assertInvariants = false then (.fail .aborted, s)
  else (.ok (), { s with _iterCurrent := s._numElements })

/-- `SStack<T>::iterMore`. -/
def iterMore (s : SStack T) : Outcome Bool :=
  if s.assertInvariants = false then .fail .aborted
  else .ok (decide (s._iterCurrent > 0))

/-- `SStack<T>::iterNext`. -/
def iterNext (s : SStack T) : Outcome Unit × SStack T :=
  if s.assertInvariants = false then (.fail .aborted, s)
  else if s._iterCurrent = 0 then (.fail (.raised .OperationFailed), s)
  else (.ok (), { s with _iterCurrent := s._iterCurrent - 1 })

/-- `SStack<T>::iterCurrent`. -/
def iterCurrent (s : SStack T) : Outcome T :=
  if s.assertInvariants = false then .fail .aborted
  else if s._iterCurrent = 0 then .fail (.raised .OperationFailed)
  else .ok (s._elements (s._iterCurrent - 1))

/-- An `SStack<T>` seen as a `DataStructure<T>`. -/
def asDataStructure : DataStructure T (SStack T) :=
  { numElements := numElements
    assertInvariants := assertInvariants
    iterStart := iterStart
    iterMore := iterMore
    iterNext := iterNext
    iterCurrent := iterCurrent }

/-- `SStack<T>::push`. -/
def push (env : Env T) (s : SStack T) (elementToPush : T) : Outcome Unit × SStack T :=
  if s.assertInvariants = false then (.fail .aborted, s)
  else if s._numElements = s._maxElements then (.fail (.raised .Full), s)
  else if env.copyThrows elementToPush = true then (.fail (.raised .Foreign), s)
  else
    let s' : SStack T :=
      { s with
        _elements := Function.update s._elements s._numElements elementToPush
        _numElements := s._numElements + 1 }
    if s'.assertInvariants = false then (.fail .aborted, s') else (.ok (), s')

/-- `SStack<T>::pop`; the value of the outcome is what the call stores in
`poppedElement`. -/
def pop (env : Env T) (s : SStack T) : Outcome T × SStack T :=
  if s.assertInvariants = false then (.fail .aborted, s)
  else if s._numElements = 0 then (.fail (.raised .Empty), s)
  else if env.copyThrows (s._elements (s._numElements - 1)) = true then
    (.fail (.raised .Foreign), s)
  else
    let s' : SStack T := { s with _numElements := s._numElements - 1 }
    if s'.assertInvariants = false then (.fail .aborted, s')
    else (.ok (s._elements (s._numElements - 1)), s')

/-- `SStack<T>::peek`. -/
def peek (env : Env T) (s : SStack T) : Outcome T × SStack T :=
  if s.assertInvariants = false then (.fail .aborted, s)
  else if s._numElements = 0 then (.fail (.raised .Empty), s)
  else if env.copyThrows (s._elements (s._numElements - 1)) = true then
    (.fail (.raised .Foreign), s)
  else (.ok (s._elements (s._numElements - 1)), s)

/-- The body of the copy loop of `operator+=`:
`assert(source.iterCurrent() != NULL); _elements[--newHead] = *source.iterCurrent();`
on the pair of the stack and the local `newHead`. -/
def copyDown (env : Env T) (r : SStack T × Nat) (x : T) : Outcome Unit × (SStack T × Nat) :=
  if r.2 = 0 then (.fail .undefined, r)
  else if env.copyThrows x = true then (.fail (.raised .Foreign), (r.1, r.2 - 1))
  else (.ok (), ({ r.1 with _elements := Function.update r.1._elements (r.2 - 1) x }, r.2 - 1))

/-- The `try` block of `operator+=`. -/
def appendBlock {σ : Type} (env : Env T) (D : DataStructure T σ) (fuel : Nat) (s : SStack T)
    (source : σ) : Outcome Unit × SStack T × σ :=
  match forLoop D (copyDown env) fuel source (s, s._numElements + D.numElements source) with
  | (.fail f, src, r) => (.fail f, r.1, src)
  | (.ok _, src, r) =>
    if r.2 ≠ r.1._numElements then (.fail .aborted, r.1, src)
    else
      let s' : SStack T := { r.1 with _numElements := r.1._numElements + D.numElements src }
      if s'.assertInvariants = false then (.fail .aborted, s', src) else (.ok (), s', src)

/-- `SStack<T>::operator+=`. -/
def operatorPlusEq {σ : Type} (env : Env T) (D : DataStructure T σ) (fuel : Nat)
    (s : SStack T) (source : σ) : Outcome Unit × SStack T × σ :=
  if s.assertInvariants = false then (.fail .aborted, s, source)
  else if D.numElements source > s._maxElements - s._numElements then
    (.fail (.raised .OperationFailed), s, source)
  else if D.numElements source > 0 then
    match appendBlock env D fuel s source with
    | (.fail f, s', src) => (.fail f.catchAll, s', src)
    | (.ok _, s', src) => (.ok (), s', src)
  else (.ok (), s, source)

/-- `SStack<T>::operator=`. -/
def operatorAssign {σ : Type} (env : Env T) (D : DataStructure T σ) (fuel : Nat)
    (s : SStack T) (source : σ) : Outcome Unit × SStack T × σ :=
  if s.assertInvariants = false then (.fail .aborted, s, source)
  else operatorPlusEq env D fuel { s with _numElements := 0 } source

end SStack

/-! ## The loops of the test programme -/

/-- `Stack<T>::operator<<`: `push(elementToPush); return *this;`, for the `push` of
the class of the stack; the operator is declared `throw (Full, OperationFailed)`. -/
def Stack.shiftIn {T σ : Type} (push : σ → T → Outcome Unit × σ) (s : σ)
    (elementToPush : T) : Outcome Unit × σ :=
  ((push s elementToPush).1.throwSpec [.Full, .OperationFailed], (push s elementToPush).2)

/-- `Stack<T>::operator>>`: `pop(poppedElement); return *this;`, for the `pop` of the
class of the stack; the operator is declared `throw (Empty, OperationFailed)`. -/
def Stack.shiftOut {T σ : Type} (pop : σ → Outcome T × σ) (s : σ) : Outcome T × σ :=
  ((pop s).1.throwSpec [.Empty, .OperationFailed], (pop s).2)

/-- The loop `for (...) stack << elements[currentElement];` over the elements of a
list; the first fault ends the loop. -/
def pushAll {T σ : Type} (push : σ → T → Outcome Unit × σ) : List T → σ → Outcome Unit × σ
  | [], s => (.ok (), s)
  | x :: xs, s =>
    match Stack.shiftIn push s x with
    | (.fail f, s') => (.fail f, s')
    | (.ok _, s') => pushAll push xs s'

/-- The loop `for (...) stack >> poppedElement;` run `n` times, with the list of the
popped elements in the order in which they were popped. -/
def popN {T σ : Type} (pop : σ → Outcome T × σ) : Nat → σ → Outcome (List T) × σ
  | 0, s => (.ok [], s)
  | n + 1, s =>
    match Stack.shiftOut pop s with
    | (.fail f, s') => (.fail f, s')
    | (.ok x, s') =>
      match popN pop n s' with
      | (.fail f, s'') => (.fail f, s'')
      | (.ok xs, s'') => (.ok (x :: xs), s'')

/-- The same method called `n` times one after another, whatever the outcomes: the
outcomes in the order of the calls, and the state after the last call. -/
def callRepeatedly {σ α : Type} (m : σ → Outcome α × σ) : Nat → σ → List (Outcome α) × σ
  | 0, s => ([], s)
  | n + 1, s => ((m s).1 :: (callRepeatedly m n (m s).2).1, (callRepeatedly m n (m s).2).2)

/-- The statements of `body` run on the elements of `xs` in order, up to the first
fault: what a `for` loop over a source with the iteration sequence `xs` does to the
state that its body works on. -/
def foldBody {T ρ : Type} (body : ρ → T → Outcome Unit × ρ) : List T → ρ → Outcome Unit × ρ
  | [], r => (.ok (), r)
  | x :: xs, r =>
    match body r x with
    | (.fail f, r') => (.fail f, r')
    | (.ok _, r') => foldBody body xs r'

/-! ## `DLinearStructure<T>` and `DStack<T>`: the stack in the free store -/

/-- The class `DLinearStructure<T>::Node`. -/
structure Node (T : Type) where
  _element : T
  _next : Option Nat

/-- The state of a `DLinearStructure<T>` (a `DStack<T>` adds no member): the free
store with the nodes that are alive, the address at which the next node is placed,
the members `_first`, `_last`, `_numElements` and the cell `*_iterCurrent`. -/
structure DLinearStructure (T : Type) where
  store : Nat → Option (Node T)
  nextAddress : Nat
  _first : Option Nat
  _last : Option Nat
  _numElements : Nat
  _iterCurrent : Option Nat

/-- A `DStack<T>` is a `DLinearStructure<T>` with `push`, `pop` and `peek`. -/
abbrev DStack (T : Type) := DLinearStructure T

namespace DLinearStructure

variable {T : Type}

/-- The constructor `DLinearStructure()`; `iterCell` is the result of `new Node*`
(`none` when the allocation yields null, otherwise the content of the new cell). -/
def construct (iterCell : Option (Option Nat)) : Outcome (DLinearStructure T) :=
  match iterCell with
  | none => .fail (.raised .OperationFailed)
  | some c =>
    .ok { store := fun _ => none, nextAddress := 0, _first := none, _last := none,
          _numElements := 0, _iterCurrent := c }

/-- `DLinearStructure<T>::assertInvariants`:
`assert((_numElements > 1U) || (_first == _last));`
`assert(_numElements == 0U ? _first == NULL : _first != NULL);`. -/
def assertInvariants (s : DLinearStructure T) : Bool :=
  (decide (s._numElements > 1) || decide (s._first = s._last)) &&
    (if s._numElements = 0 then decide (s._first = none) else decide (s._first ≠ none))

/-- `DataStructure_::numElements`. -/
def numElements (s : DLinearStructure T) : Nat := s._numElements

/-- `DLinearStructure<T>::iterStart`. -/
def iterStart (s : DLinearStructure T) : Outcome Unit × DLinearStructure T :=
  (.ok (), { s with _iterCurrent := s._first })

/-- `DLinearStructure<T>::iterMore`. -/
def iterMore (s : DLinearStructure T) : Outcome Bool :=
  .ok (decide (s._iterCurrent ≠ none))

/-- `DLinearStructure<T>::iterNext`. -/
def iterNext (s : DLinearStructure T) : Outcome Unit × DLinearStructure T :=
  match s._iterCurrent with
  | none => (.fail .aborted, s)
  | some a =>
    match s.store a with
    | none => (.fail .undefined, s)
    | some nd => (.ok (), { s with _iterCurrent := nd._next })

/-- `DLinearStructure<T>::iterCurrent`. -/
def iterCurrent (s : DLinearStructure T) : Outcome T :=
  match s._iterCurrent with
  | none => .fail .aborted
  | some a =>
    match s.store a with
    | none => .fail .undefined
    | some nd => .ok nd._element

/-- A `DLinearStructure<T>` seen as a `DataStructure<T>`. -/
def asDataStructure : DataStructure T (DLinearStructure T) :=
  { numElements := numElements
    assertInvariants := assertInvariants
    iterStart := iterStart
    iterMore := iterMore
    iterNext := iterNext
    iterCurrent := iterCurrent }

/-- The expression `new Node(element, next)`: the pointer to the new node, or null. -/
def newNode (env : Env T) (s : DLinearStructure T) (element : T) (next : Option Nat) :
    Outcome (Option Nat) × DLinearStructure T :=
  match env.newNode s.nextAddress with
  | .threw => (.fail (.raised .Foreign), s)
  | .null => (.ok none, s)
  | .storage =>
    if env.copyThrows element = true then (.fail (.raised .Foreign), s)
    else
      (.ok (some s.nextAddress),
        { s with
          store := Function.update s.store s.nextAddress (some ⟨element, next⟩)
          nextAddress := s.nextAddress + 1 })

/-- The body of the loop of `concatenate`:
`newNode = new Node(source.iterCurrent(), NULL); if (newNode == NULL) throw Full(...);`
`if (_first == NULL) _first = newNode; if (_last != NULL) _last->setNext(newNode);`
`_last = newNode; ++_numElements;`. -/
def appendNode (env : Env T) (s : DLinearStructure T) (x : T) :
    Outcome Unit × DLinearStructure T :=
  match newNode env s x none with
  | (.fail f, s') => (.fail f, s')
  | (.ok none, s') => (.fail (.raised .Full), s')
  | (.ok (some a), s') =>
    let s₁ : DLinearStructure T :=
      if s'._first = none then { s' with _first := some a } else s'
    match s₁._last with
    | none => (.ok (), { s₁ with _last := some a, _numElements := s₁._numElements + 1 })
    | some l =>
      match s₁.store l with
      | none => (.fail .undefined, s₁)
      | some nd =>
        (.ok (),
          { s₁ with
            store := Function.update s₁.store l (some { nd with _next := some a })
            _last := some a
            _numElements := s₁._numElements + 1 })

/-- `DLinearStructure<T>::concatenate`. -/
def concatenate {σ : Type} (env : Env T) (D : DataStructure T σ) (fuel : Nat)
    (s : DLinearStructure T) (source : σ) : Outcome Unit × DLinearStructure T × σ :=
  if s.assertInvariants = false then (.fail .aborted, s, source)
  else
    match forLoop D (appendNode env) fuel source s with
    | (.fail f, src, s') => (.fail f, s', src)
    | (.ok _, src, s') =>
      if s'.assertInvariants = false then (.fail .aborted, s', src) else (.ok (), s', src)

end DLinearStructure

namespace DStack

variable {T : Type}

/-- The constructor `DStack()`. -/
def construct (iterCell : Option (Option Nat)) : Outcome (DStack T) :=
  DLinearStructure.construct iterCell

/-- `DStack<T>::push`. -/
def push (env : Env T) (s : DStack T) (elementToPush : T) : Outcome Unit × DStack T :=
  if s.assertInvariants = false then (.fail .aborted, s)
  else
    match DLinearStructure.newNode env s elementToPush s._first with
    | (.fail f, s') => (.fail f.catchAll, s')
    | (.ok none, s') => (.fail (.raised .Full), s')
    | (.ok (some a), s') =>
      let s₁ : DStack T := { s' with _first := some a }
      let s₂ : DStack T := if s₁._last = none then { s₁ with _last := some a } else s₁
      (.ok (), { s₂ with _numElements := s₂._numElements + 1 })

/-- `DStack<T>::pop`; the value of the outcome is what the call stores in
`poppedElement`. -/
def pop (env : Env T) (s : DStack T) : Outcome T × DStack T :=
  if s.assertInvariants = false then (.fail .aborted, s)
  else
    match s._first with
    | none => (.fail (.raised .Empty), s)
    | some a =>
      match s.store a with
      | none => (.fail .undefined, s)
      | some nd =>
        if env.copyThrows nd._element = true then (.fail (.raised .OperationFailed), s)
        else
          let s₁ : DStack T := { s with _first := nd._next }
          let s₂ : DStack T := if s₁._first = none then { s₁ with _last := none } else s₁
          (.ok nd._element,
            { s₂ with
              store := Function.update s₂.store a none
              _numElements := s₂._numElements - 1 })

/-- `DStack<T>::peek`. -/
def peek (env : Env T) (s : DStack T) : Outcome T × DStack T :=
  if s.assertInvariants = false then (.fail .aborted, s)
  else
    match s._first with
    | none => (.fail (.raised .Empty), s)
    | some a =>
      match s.store a with
      | none => (.fail .undefined, s)
      | some nd =>
        if env.copyThrows nd._element = true then (.fail (.raised .OperationFailed), s)
        else (.ok nd._element, s)

/-- `DStack<T>::operator+=`: `concatenate(source); return *this;`, declared
`throw (Full, OperationFailed)`. -/
def operatorPlusEq {σ : Type} (env : Env T) (D : DataStructure T σ) (fuel : Nat)
    (s : DStack T) (source : σ) : Outcome Unit × DStack T × σ :=
  ((DLinearStructure.concatenate env D fuel s source).1.throwSpec [.Full, .OperationFailed],
    (DLinearStructure.concatenate env D fuel s source).2)

end DStack

/-! ## `SStackPair<T>`: two stacks in one array -/

/-- The state of an `SStackPair<T>`: an `SStack<T>` (stack #0, whose `_numElements`,
`_maxElements`, `_elements` and `*_iterCurrent` the class calls `_top`, `_size`,
`_stackSpace` and `*_iterator`) with the members `_top1` and `_selectedStack`. -/
structure SStackPair (T : Type) extends SStack T where
  _top1 : Nat
  _selectedStack : Nat

namespace SStackPair

variable {T : Type}

/-- `SStackPair<T>::checkInvariants`: the assertions of the base class, then
`assert(_top1 >= 0 && _top1 <= _size); assert(_top < _top1);`
`assert(_selectedStack == 0 || _selectedStack == 1);`. -/
def checkInvariants (s : SStackPair T) : Bool :=
  s.toSStack.assertInvariants && decide (s._top1 ≤ s._maxElements) &&
    decide (s._numElements < s._top1) &&
    decide (s._selectedStack = 0 ∨ s._selectedStack = 1)

/-- The constructor `SStackPair(const size_t size)`: `SStack<T>(size)`, then
`_top1 = size; _selectedStack = 0; checkInvariants();`.  The constructor of the base
class takes an `unsigned int`; the embedding is about sizes in the range of
`unsigned int`, which the conversion leaves as they are. -/
def construct (size : Nat) (elements : Option (Nat → T)) (iterCell : Option Nat) :
    Outcome (SStackPair T) :=
  match SStack.construct size elements iterCell with
  | .fail f => .fail f
  | .ok b =>
    let s : SStackPair T := { toSStack := b, _top1 := size, _selectedStack := 0 }
    if s.checkInvariants = false then .fail .aborted else .ok s

/-- `SStackPair<T>::selected`. -/
def selected (s : SStackPair T) : Outcome Nat :=
  if s.checkInvariants = false then .fail .aborted else .ok s._selectedStack

/-- `SStackPair<T>::isFull`. -/
def isFull (s : SStackPair T) : Outcome Bool :=
  if s.checkInvariants = false then .fail .aborted
  else .ok (decide (s._numElements = s._top1))

/-- `SStackPair<T>::isEmpty`. -/
def isEmpty (s : SStackPair T) : Outcome Bool :=
  if s.checkInvariants = false then .fail .aborted
  else if s._selectedStack ≠ 0 then .ok (decide (s._top1 = s._maxElements))
  else s.toSStack.isEmpty

/-- `SStackPair<T>::select`. -/
def select (s : SStackPair T) (newStack : Nat) : Outcome Unit × SStackPair T :=
  if s.checkInvariants = false then (.fail .aborted, s)
  else if s._selectedStack ≠ 0 ∧ s._selectedStack ≠ 1 then (.fail (.raised .BadSelection), s)
  else
    let s' : SStackPair T := { s with _selectedStack := newStack }
    if s'.checkInvariants = false then (.fail .aborted, s') else (.ok (), s')

/-- `SStackPair<T>::push`.  On stack #1 the statement is
`_stackSpace[--_top1] = newElement;`: `_top1` is lowered before the element is
assigned. -/
def push (env : Env T) (s : SStackPair T) (newElement : T) : Outcome Unit × SStackPair T :=
  if s.checkInvariants = false then (.fail .aborted, s)
  else
    match s.isFull with
    | .fail f => (.fail f, s)
    | .ok true => (.fail (.raised .Full), s)
    | .ok false =>
      if s._selectedStack ≠ 0 then
        let s₁ : SStackPair T := { s with _top1 := s._top1 - 1 }
        if env.copyThrows newElement = true then (.fail (.raised .Foreign), s₁)
        else
          let s₂ : SStackPair T :=
            { s₁ with _elements := Function.update s₁._elements s₁._top1 newElement }
          if s₂.checkInvariants = false then (.fail .aborted, s₂) else (.ok (), s₂)
      else
        match SStack.push env s.toSStack newElement with
        | (.fail f, b) => (.fail f, { s with toSStack := b })
        | (.ok _, b) =>
          let s₂ : SStackPair T := { s with toSStack := b }
          if s₂.checkInvariants = false then (.fail .aborted, s₂) else (.ok (), s₂)

/-- `SStackPair<T>::pop`.  On stack #1 the statement is
`element = _stackSpace[_top1++];`: `_top1` is raised before the element is assigned. -/
def pop (env : Env T) (s : SStackPair T) : Outcome T × SStackPair T :=
  if s.checkInvariants = false then (.fail .aborted, s)
  else
    match s.isEmpty with
    | .fail f => (.fail f, s)
    | .ok true => (.fail (.raised .Empty), s)
    | .ok false =>
      if s._selectedStack ≠ 0 then
        let s₁ : SStackPair T := { s with _top1 := s._top1 + 1 }
        if env.copyThrows (s._elements s._top1) = true then (.fail (.raised .Foreign), s₁)
        else if s₁.checkInvariants = false then (.fail .aborted, s₁)
        else (.ok (s._elements s._top1), s₁)
      else
        match SStack.pop env s.toSStack with
        | (.fail f, b) => (.fail f, { s with toSStack := b })
        | (.ok x, b) =>
          let s₂ : SStackPair T := { s with toSStack := b }
          if s₂.checkInvariants = false then (.fail .aborted, s₂) else (.ok x, s₂)

end SStackPair

/-- A step of a client of an `SStackPair<T>`: `select(newStack)` or `push(newElement)`. -/
inductive PairOp (T : Type)
  | select (newStack : Nat)
  | push (newElement : T)

/-- A sequence of `select` and `push` calls on an `SStackPair<T>`; the first fault ends
the sequence. -/
def runPairOps {T : Type} (env : Env T) : List (PairOp T) → SStackPair T →
    Outcome Unit × SStackPair T
  | [], s => (.ok (), s)
  | .select n :: ops, s =>
    match s.select n with
    | (.fail f, s') => (.fail f, s')
    | (.ok _, s') => runPairOps env ops s'
  | .push x :: ops, s =>
    match s.push env x with
    | (.fail f, s') => (.fail f, s')
    | (.ok _, s') => runPairOps env ops s'

/-- The elements that a sequence of calls pushes while stack `side` is selected, in
the order of the calls; `current` is the stack that is selected at the start. -/
def pushedOn {T : Type} (side : Nat) : Nat → List (PairOp T) → List T
  | _, [] => []
  | _, .select n :: ops => pushedOn side n ops
  | current, .push x :: ops =>
    if current = side then x :: pushedOn side current ops else pushedOn side current ops

/-- Every `select` of the sequence names stack 0 or stack 1. -/
def validSelections {T : Type} : List (PairOp T) → Prop
  | [] => True
  | .select n :: ops => (n = 0 ∨ n = 1) ∧ validSelections ops
  | .push _ :: ops => validSelections ops

/-! ## Sequences of cells, and the stacks of the examples -/

/-- The cells `k - 1, ..., 0` of an array, the topmost first. -/
def cellsDown {T : Type} (f : Nat → T) : Nat → List T
  | 0 => []
  | k + 1 => f k :: cellsDown f k

/-- The cells `lo, lo + 1, ..., lo + k - 1` of an array, the lowest first. -/
def cellsUp {T : Type} (f : Nat → T) (lo : Nat) : Nat → List T
  | 0 => []
  | k + 1 => f lo :: cellsUp f (lo + 1) k

/-- A new `SStack` of numbers with room for `size` elements, in an array of zeros. -/
def SStack.fresh (size : Nat) : SStack Nat :=
  { _maxElements := size, _elements := fun _ => 0, _numElements := 0, _iterCurrent := 0 }

/-- The `SStack` of numbers with room for `size` elements onto which the elements of
`vs` have been pushed in order. -/
def SStack.built (size : Nat) (vs : List Nat) : SStack Nat :=
  (pushAll (SStack.push (Env.reliable Nat)) vs (SStack.fresh size)).2

/-- A new `DStack` of numbers. -/
def DStack.fresh : DStack Nat :=
  { store := fun _ => none, nextAddress := 0, _first := none, _last := none,
    _numElements := 0, _iterCurrent := none }

/-- The `DStack` of numbers onto which the elements of `vs` have been pushed in order. -/
def DStack.built (vs : List Nat) : DStack Nat :=
  (pushAll (DStack.push (Env.reliable Nat)) vs DStack.fresh).2

/-- A new `SStackPair` of numbers with room for `size` elements, in an array of zeros. -/
def SStackPair.fresh (size : Nat) : SStackPair Nat :=
  { toSStack := SStack.fresh size, _top1 := size, _selectedStack := 0 }

/-! ## The chain of nodes of a `DLinearStructure` -/

/-- The nodes listed in `nodes` (address and element, the first node first) are alive
in `store` and form the chain that starts at the pointer `p` and ends with a null
`_next`. -/
def Chain {T : Type} (store : Nat → Option (Node T)) : Option Nat → List (Nat × T) → Prop
  | p, [] => p = none
  | p, (a, x) :: rest =>
    p = some a ∧ store a = some ⟨x, rest.head?.map Prod.fst⟩ ∧
      Chain store (rest.head?.map Prod.fst) rest

/-- The invariant of a `DLinearStructure`: `_first` starts a chain of distinct nodes
that ends in null, `_last` points to the final node of the chain (and is null when
there is none), `_numElements` is the number of nodes of the chain, and every node of
the chain lies below the address at which the next node is placed. -/
structure DLinearStructure.Holds {T : Type} (s : DLinearStructure T)
    (nodes : List (Nat × T)) : Prop where
  chain : Chain s.store s._first nodes
  nodup : (nodes.map Prod.fst).Nodup
  below : ∀ a ∈ nodes.map Prod.fst, a < s.nextAddress
  last : s._last = nodes.getLast?.map Prod.fst
  count : s._numElements = nodes.length

/-! ## `empty` and `operator=` of the dynamic structures, `peek` of an `SStackPair` -/

/-- The loop of `DLinearStructure<T>::empty`:
`while (_first != NULL) { current = _first; _first = _first->next(); --_numElements;`
`delete current; }`, run for at most `fuel` tests of its condition.  (The decrement
can only pass below zero when the chain is longer than `_numElements`; the
assignment that follows the loop overwrites the counter.) -/
def DLinearStructure.emptyLoop {T : Type} :
    Nat → DLinearStructure T → Outcome Unit × DLinearStructure T
  | 0, s => (.fail .timeout, s)
  | fuel + 1, s =>
    match s._first with
    | none => (.ok (), s)
    | some a =>
      match s.store a with
      | none => (.fail .undefined, s)
      | some nd =>
        DLinearStructure.emptyLoop fuel
          { s with
            _first := nd._next
            _numElements := s._numElements - 1
            store := Function.update s.store a none }

/-- `DLinearStructure<T>::empty`.  After the loop the source has `_last = NULL;` and
`assert(_numElements = 0U);`: the argument of the assertion is an assignment, it sets
`_numElements` to 0 and its value, 0, is what the assertion tests. -/
def DLinearStructure.empty {T : Type} (fuel : Nat) (s : DLinearStructure T) :
    Outcome Unit × DLinearStructure T :=
  if s.assertInvariants = false then (.fail .aborted, s)
  else
    match DLinearStructure.emptyLoop fuel s with
    | (.fail f, s') => (.fail f, s')
    | (.ok _, s') =>
      let s₁ : DLinearStructure T := { s' with _last := none }
      let s₂ : DLinearStructure T := { s₁ with _numElements := 0 }
      if s₂._numElements = 0 then (.fail .aborted, s₂)
      else if s₂.assertInvariants = false then (.fail .aborted, s₂)
      else (.ok (), s₂)

/-- `DStack<T>::operator=`: `empty(); concatenate(source); return *this;`, declared
`throw (Full, OperationFailed)`. -/
def DStack.operatorAssign {T σ : Type} (env : Env T) (D : DataStructure T σ) (fuel : Nat)
    (s : DStack T) (source : σ) : Outcome Unit × DStack T × σ :=
  match DLinearStructure.empty fuel s with
  | (.fail f, s') => (.fail (f.throwSpec [.Full, .OperationFailed]), s', source)
  | (.ok _, s') =>
    ((DLinearStructure.concatenate env D fuel s' source).1.throwSpec [.Full, .OperationFailed],
      (DLinearStructure.concatenate env D fuel s' source).2)

/-- A call of `peek` on an `SStackPair<T>`: the class declares no `peek`, so the call
is `SStack<T>::peek` on the base object. -/
def SStackPair.peek {T : Type} (env : Env T) (s : SStackPair T) : Outcome T × SStackPair T :=
  ((SStack.peek env s.toSStack).1, { s with toSStack := (SStack.peek env s.toSStack).2 })

/-- An environment in which the copy of the number `bad` throws, no other copy
throws and every allocation yields storage. -/
def Env.failingOn (bad : Nat) : Env Nat :=
  { copyThrows := fun x => decide (x = bad), newNode := fun _ => .storage }

/-! ## Observation and assignment of an `SStackPair`, `isFull` of the dynamic structures -/

namespace SStackPair

variable {T : Type}

/-- `SStackPair<T>::numElements`:
`return (_selectedStack ? _size - _top1 : SStack<T>::numElements());`
(`_top1 <= _size` in every state that passes the assertions). -/
def numElements (s : SStackPair T) : Nat :=
  if s._selectedStack ≠ 0 then s._maxElements - s._top1 else s.toSStack.numElements

/-- `SStackPair<T>::iterStart`. -/
def iterStart (s : SStackPair T) : Outcome Unit × SStackPair T :=
  if s.checkInvariants = false then (.fail .aborted, s)
  else if s._selectedStack ≠ 0 then (.ok (), { s with _iterCurrent := s._top1 })
  else ((SStack.iterStart s.toSStack).1, { s with toSStack := (SStack.iterStart s.toSStack).2 })

/-- `SStackPair<T>::iterMore`. -/
def iterMore (s : SStackPair T) : Outcome Bool :=
  if s.checkInvariants = false then .fail .aborted
  else if s._selectedStack ≠ 0 then .ok (decide (s._iterCurrent < s._maxElements))
  else SStack.iterMore s.toSStack

/-- `SStackPair<T>::iterNext`. -/
def iterNext (s : SStackPair T) : Outcome Unit × SStackPair T :=
  if s.checkInvariants = false then (.fail .aborted, s)
  else if s._selectedStack ≠ 0 then (.ok (), { s with _iterCurrent := s._iterCurrent + 1 })
  else ((SStack.iterNext s.toSStack).1, { s with toSStack := (SStack.iterNext s.toSStack).2 })

/-- `SStackPair<T>::iterElement`; on stack #1 it is `_stackSpace[*_iterator]`, an access
outside the array when `*_iterator` is not below `_size`. -/
def iterElement (s : SStackPair T) : Outcome T :=
  if s.checkInvariants = false then .fail .aborted
  else if s._selectedStack ≠ 0 then
    if s._iterCurrent < s._maxElements then .ok (s._elements s._iterCurrent)
    else .fail .undefined
  else SStack.iterCurrent s.toSStack

/-- An `SStackPair<T>` seen through its own methods `numElements`, `iterStart`,
`iterMore`, `iterNext` and `iterElement`, called on the pair itself: the selected
stack.  (Code that holds the pair as a `DataStructure<T>&` reads
`DataStructure_::numElements`, which is not virtual and returns `_numElements`, the
count of stack #0; this record is not about such code.) -/
def asDataStructure : DataStructure T (SStackPair T) :=
  { numElements := numElements
    assertInvariants := checkInvariants
    iterStart := iterStart
    iterMore := iterMore
    iterNext := iterNext
    iterCurrent := iterElement }

/-- The body of the copy loop of `operator=` on stack #1:
`_stackSpace[_top1++] = source.iterElement();` (`_top1` is raised before the element
is assigned). -/
def copyUp (env : Env T) (s : SStackPair T) (x : T) : Outcome Unit × SStackPair T :=
  if s._maxElements ≤ s._top1 then (.fail .undefined, s)
  else
    let s₁ : SStackPair T := { s with _top1 := s._top1 + 1 }
    if env.copyThrows x = true then (.fail (.raised .Foreign), s₁)
    else (.ok (), { s₁ with _elements := Function.update s₁._elements s._top1 x })

/-- `SStackPair<T>::operator=(const LinearStruct<T>&)`, with the statements of the
branch for stack #1 taken as one block, as they are indented:
`checkInvariants();`
`if ((_selectedStack ? _size - _top : _top1) < source.numElements()) throw Full();`
`if (_selectedStack) { _top1 = _size - source.numElements(); for (...) ...;`
`_top1 = _size - source.numElements(); } else SStack<T>::operator=(source);`. -/
def operatorAssign {σ : Type} (env : Env T) (D : DataStructure T σ) (fuel : Nat)
    (s : SStackPair T) (source : σ) : Outcome Unit × SStackPair T × σ :=
  if s.checkInvariants = false then (.fail .aborted, s, source)
  else if (if s._selectedStack ≠ 0 then s._maxElements - s._numElements else s._top1) <
      D.numElements source then (.fail (.raised .Full), s, source)
  else if s._selectedStack ≠ 0 then
    let s₁ : SStackPair T := { s with _top1 := s._maxElements - D.numElements source }
    match forLoop D (copyUp env) fuel source s₁ with
    | (.fail f, src, s₂) => (.fail f, s₂, src)
    | (.ok _, src, s₂) =>
      (.ok (), { s₂ with _top1 := s₂._maxElements - D.numElements src }, src)
  else
    ((SStack.operatorAssign env D fuel s.toSStack source).1,
      { s with toSStack := (SStack.operatorAssign env D fuel s.toSStack source).2.1 },
      (SStack.operatorAssign env D fuel s.toSStack source).2.2)

end SStackPair

/-- `DLinearStructure_::isFull` of `dstack2.h`: `{return false;}`. -/
def DLinearStructure.isFull {T : Type} (_s : DLinearStructure T) : Bool := false

/-- An environment in which no copy throws and every allocation yields null. -/
def Env.exhausted : Env Nat :=
  { copyThrows := fun _ => false, newNode := fun _ => .null }

/-- An environment in which no copy throws and every allocation throws. -/
def Env.throwingNew : Env Nat :=
  { copyThrows := fun _ => false, newNode := fun _ => .threw }

/-- `DataStructure_::isEmpty`, which the dynamic structures inherit:
`{return _numElements == 0U;}`. -/
def DLinearStructure.isEmpty {T : Type} (s : DLinearStructure T) : Outcome Bool :=
  .ok (decide (s._numElements = 0))

/-- Popping a stack until it is empty, `while (!stack.isEmpty()) stack >> element;`,
run for at most `fuel` tests of its condition, with the list of the popped elements in
the order in which they were popped. -/
def popUntilEmpty {T σ : Type} (isEmpty : σ → Outcome Bool) (pop : σ → Outcome T × σ) :
    Nat → σ → Outcome (List T) × σ
  | 0, s => (.fail .timeout, s)
  | fuel + 1, s =>
    match isEmpty s with
    | .fail f => (.fail f, s)
    | .ok true => (.ok [], s)
    | .ok false =>
      match Stack.shiftOut pop s with
      | (.fail f, s') => (.fail f, s')
      | (.ok x, s') =>
        match popUntilEmpty isEmpty pop fuel s' with
        | (.fail f, s'') => (.fail f, s'')
        | (.ok xs, s'') => (.ok (x :: xs), s'')

/-! ## The constructor of an `SStack` from an array, `operator+=` of an `SStackPair`,
and the invariants of the stacks -/

/-- The constructor `SLinearStruct<T>::SLinearStruct(const unsigned int initialSize)`
of `slinearstructure.h`, which stands there between `#if 0` and `#endif` (compiled
out) and is the only definition of the base class of `SStack<T>` that the repository
has: the size 0 is refused with `ExceptionErrno(EINVAL)`, a failed allocation with
`ExceptionErrno(ENOMEM)`.  `storage` is the result of `new T[initialSize]` and
`iterCell` the result of `new unsigned int`. -/
def SLinearStruct.construct {T : Type} (initialSize : Nat) (storage : Option (Nat → T))
    (iterCell : Option Nat) : Outcome (SStack T) :=
  if initialSize = 0 then .fail (.raised (.ExceptionErrno .EINVAL))
  else
    match storage, iterCell with
    | some e, some i =>
      .ok { _maxElements := initialSize, _elements := e, _numElements := 0, _iterCurrent := i }
    | _, _ => .fail (.raised (.ExceptionErrno .ENOMEM))

/-- The loop of the constructor from an array,
`while (_numElements < numElements) { _elements[_numElements] = elements[_numElements];`
`++_numElements; }`, run for at most `fuel` tests of its condition. -/
def SStack.fillLoop {T : Type} (env : Env T) (elements : Nat → T) (numElements : Nat) :
    Nat → SStack T → Outcome Unit × SStack T
  | 0, s => (.fail .timeout, s)
  | fuel + 1, s =>
    if s._numElements < numElements then
      if env.copyThrows (elements s._numElements) = true then (.fail (.raised .Foreign), s)
      else
        SStack.fillLoop env elements numElements fuel
          { s with
            _elements := Function.update s._elements s._numElements (elements s._numElements)
            _numElements := s._numElements + 1 }
    else (.ok (), s)

/-- The constructor `SStack(const unsigned int size, const T *const elements, const
unsigned int numElements)`; `elements` is `none` for a null pointer and otherwise the
array that the pointer refers to. -/
def SStack.constructFromArray {T : Type} (env : Env T) (fuel : Nat) (size : Nat)
    (storage : Option (Nat → T)) (iterCell : Option Nat) (elements : Option (Nat → T))
    (numElements : Nat) : Outcome (SStack T) :=
  match SLinearStruct.construct size storage iterCell with
  | .fail f => .fail f
  | .ok s =>
    if numElements > size then .fail (.raised (.ExceptionErrno .EINVAL))
    else if decide (numElements = 0) ≠ elements.isNone then
      .fail (.raised (.ExceptionErrno .EINVAL))
    else
      match elements with
      | none => if s.assertInvariants = false then .fail .aborted else .ok s
      | some a =>
        match SStack.fillLoop env a numElements fuel s with
        | (.fail f, _) => .fail f.catchAll
        | (.ok _, s') => if s'.assertInvariants = false then .fail .aborted else .ok s'

/-- The invariant of the Bounded Stack: `0 <= count <= capacity`, and the iteration
from `iterStart` yields exactly `count` elements. -/
def SStack.Invariant {T : Type} (s : SStack T) : Prop :=
  s._numElements ≤ s._maxElements ∧
    ∃ xs : List T, Iterates SStack.asDataStructure s xs ∧ xs.length = s._numElements

/-- `operator+=` of an `SStackPair<T>`: the class declares none, so that the call runs
`SStack<T>::operator+=` on the members of the base class. -/
def SStackPair.operatorPlusEq {T σ : Type} (env : Env T) (D : DataStructure T σ) (fuel : Nat)
    (s : SStackPair T) (source : σ) : Outcome Unit × SStackPair T × σ :=
  ((SStack.operatorPlusEq env D fuel s.toSStack source).1,
    { s with toSStack := (SStack.operatorPlusEq env D fuel s.toSStack source).2.1 },
    (SStack.operatorPlusEq env D fuel s.toSStack source).2.2)

/-- The partition of the array of an `SStackPair`: `0 <= top0 <= top1 <= capacity`, and
stack 0 or stack 1 is selected. -/
def SStackPair.Partition {T : Type} (s : SStackPair T) : Prop :=
  s._numElements ≤ s._top1 ∧ s._top1 ≤ s._maxElements ∧
    (s._selectedStack = 0 ∨ s._selectedStack = 1)

/-! ## `DLinkedList<T>`: the linked list in the free store -/

/-- The state of a `DLinkedList<T>`: a `DLinearStructure<T>` with the members `_prev`
and `_current`. -/
structure DLinkedList (T : Type) extends DLinearStructure T where
  _prev : Option Nat
  _current : Option Nat

namespace DLinkedList

variable {T : Type}

/-- The constructor `DLinkedList()`. -/
def construct (iterCell : Option (Option Nat)) : Outcome (DLinkedList T) :=
  match DLinearStructure.construct iterCell with
  | .fail f => .fail f
  | .ok b => .ok { toDLinearStructure := b, _prev := none, _current := none }

/-- `DLinkedList<T>::assertInvariants`:
`assert(_first != NULL || (_current == NULL && _prev == NULL));`
`assert(_prev == NULL || _prev->next() == _current);`
`assert(_prev != NULL || _current == _first);`
`assert(_prev == NULL || _prev != _last || _prev->next() == NULL);`. -/
def assertInvariants (s : DLinkedList T) : Outcome Unit :=
  if s._first = none ∧ ¬ (s._current = none ∧ s._prev = none) then .fail .aborted
  else
    match s._prev with
    | none => if s._current = s._first then .ok () else .fail .aborted
    | some p =>
      match s.store p with
      | none => .fail .undefined
      | some nd =>
        if nd._next ≠ s._current then .fail .aborted
        else if s._prev = s._last ∧ nd._next ≠ none then .fail .aborted
        else .ok ()

/-- `DLinkedList<T>::findFirst`. -/
def findFirst (s : DLinkedList T) : Outcome Unit × DLinkedList T :=
  match s.assertInvariants with
  | .fail f => (.fail f, s)
  | .ok _ => (.ok (), { s with _prev := none, _current := s._first })

/-- `DLinkedList<T>::findNext`. -/
def findNext (s : DLinkedList T) : Outcome Unit × DLinkedList T :=
  match s.assertInvariants with
  | .fail f => (.fail f, s)
  | .ok _ =>
    match s._current with
    | none => (.fail (.raised .OperationFailed), s)
    | some c =>
      match s.store c with
      | none => (.fail .undefined, s)
      | some nd => (.ok (), { s with _prev := some c, _current := nd._next })

/-- `DLinkedList<T>::insert`:
`newNode = new Node(newElement, _current)` in a `try` block whose handler throws
`OperationFailed`; `if (newNode == NULL) throw Full(...);`
`if (_first == NULL) { _first = newNode; _last = newNode; }`
`if (_prev != NULL) { if (_prev->next() == NULL) _last = newNode;`
`_prev->setNext(newNode); }  _current = newNode;  ++_numElements;`. -/
def insert (env : Env T) (s : DLinkedList T) (newElement : T) :
    Outcome Unit × DLinkedList T :=
  match s.assertInvariants with
  | .fail f => (.fail f, s)
  | .ok _ =>
    match DLinearStructure.newNode env s.toDLinearStructure newElement s._current with
    | (.fail f, b) => (.fail f.catchAll, { s with toDLinearStructure := b })
    | (.ok none, b) => (.fail (.raised .Full), { s with toDLinearStructure := b })
    | (.ok (some a), b) =>
      let s₁ : DLinkedList T := { s with toDLinearStructure := b }
      let s₂ : DLinkedList T :=
        if s₁._first = none then { s₁ with _first := some a, _last := some a } else s₁
      match s₂._prev with
      | none => (.ok (), { s₂ with _current := some a, _numElements := s₂._numElements + 1 })
      | some p =>
        match s₂.store p with
        | none => (.fail .undefined, s₂)
        | some nd =>
          let s₃ : DLinkedList T :=
            if nd._next = none then { s₂ with _last := some a } else s₂
          (.ok (),
            { s₃ with
              store := Function.update s₃.store p (some { nd with _next := some a })
              _current := some a
              _numElements := s₃._numElements + 1 })

/-- `DLinkedList<T>::append`:
`newNode = new Node(newElement, _current)` in a `try` block whose handler throws
`OperationFailed`; `if (newNode == NULL) throw Full(...);`
`if (_last == NULL) _first = newNode; else { _prev = _last; _prev->setNext(newNode); }`
`_last = newNode;  _current = newNode;  ++_numElements;`. -/
def append (env : Env T) (s : DLinkedList T) (newElement : T) :
    Outcome Unit × DLinkedList T :=
  match s.assertInvariants with
  | .fail f => (.fail f, s)
  | .ok _ =>
    match DLinearStructure.newNode env s.toDLinearStructure newElement s._current with
    | (.fail f, b) => (.fail f.catchAll, { s with toDLinearStructure := b })
    | (.ok none, b) => (.fail (.raised .Full), { s with toDLinearStructure := b })
    | (.ok (some a), b) =>
      let s₁ : DLinkedList T := { s with toDLinearStructure := b }
      match s₁._last with
      | none =>
        (.ok (),
          { s₁ with
            _first := some a, _last := some a, _current := some a
            _numElements := s₁._numElements + 1 })
      | some l =>
        match s₁.store l with
        | none => (.fail .undefined, { s₁ with _prev := some l })
        | some nd =>
          (.ok (),
            { s₁ with
              store := Function.update s₁.store l (some { nd with _next := some a })
              _prev := some l, _last := some a, _current := some a
              _numElements := s₁._numElements + 1 })

end DLinkedList

/-- A new `DLinkedList` of numbers. -/
def DLinkedList.fresh : DLinkedList Nat :=
  { toDLinearStructure := DStack.fresh, _prev := none, _current := none }

/-! # Lemmas and theorems -/

/-! ## The loops over the iteration protocol -/

section generic
variable {T σ σ₁ σ₂ ρ : Type}

theorem iterLoop_spec (D : DataStructure T σ) (body : ρ → T → Outcome Unit × ρ) (xs : List T) :
    ∀ (fuel : Nat) (s : σ) (r : ρ), IterFrom D s xs → xs.length < fuel →
      (iterLoop D body fuel s r).1 = (foldBody body xs r).1 ∧
      (iterLoop D body fuel s r).2.2 = (foldBody body xs r).2 ∧
      D.numElements (iterLoop D body fuel s r).2.1 = D.numElements s := by
  induction xs with
  | nil =>
    intro fuel s r h hf
    obtain ⟨f, rfl⟩ : ∃ f, fuel = f + 1 := ⟨fuel - 1, by simp at hf; omega⟩
    simp only [IterFrom] at h
    simp [iterLoop, h, foldBody]
  | cons x xs ih =>
    intro fuel s r h hf
    obtain ⟨f, rfl⟩ : ∃ f, fuel = f + 1 := ⟨fuel - 1, by simp at hf; omega⟩
    simp only [IterFrom] at h
    obtain ⟨h1, h2, h3, h4, h5⟩ := h
    simp only [iterLoop, h1, h2, foldBody]
    rcases hb : body r x with ⟨_ | f', r'⟩
    · simp only
      rcases hn : D.iterNext s with ⟨o, s'⟩
      rw [hn] at h3 h4 h5
      simp only at h3 h4 h5
      subst h3
      simp only
      have := ih f s' r' h5 (by simp at hf; omega)
      rw [h4] at this
      exact this
    · simp

theorem forLoop_spec (D : DataStructure T σ) (body : ρ → T → Outcome Unit × ρ) (xs : List T)
    (fuel : Nat) (s : σ) (r : ρ) (h : Iterates D s xs) (hf : xs.length < fuel) :
    (forLoop D body fuel s r).1 = (foldBody body xs r).1 ∧
      (forLoop D body fuel s r).2.2 = (foldBody body xs r).2 ∧
      D.numElements (forLoop D body fuel s r).2.1 = D.numElements s := by
  obtain ⟨h1, h2, h3⟩ := h
  rcases hs : D.iterStart s with ⟨o, s'⟩
  rw [hs] at h1 h2 h3
  simp only at h1 h2 h3
  subst h1
  simp only [forLoop, hs]
  have := iterLoop_spec D body xs fuel s' r h3 hf
  rw [h2] at this
  exact this

theorem IterFrom_unique (D : DataStructure T σ) (xs : List T) :
    ∀ (ys : List T) (s : σ), IterFrom D s xs → IterFrom D s ys → xs = ys := by
  induction xs with
  | nil =>
    intro ys s h1 h2
    cases ys with
    | nil => rfl
    | cons y ys => simp only [IterFrom] at h1 h2; rw [h1] at h2; simp at h2
  | cons x xs ih =>
    intro ys s h1 h2
    cases ys with
    | nil => simp only [IterFrom] at h1 h2; rw [h2] at h1; simp at h1
    | cons y ys =>
      simp only [IterFrom] at h1 h2
      have hxy : x = y := by
        have := h1.2.1.symm.trans h2.2.1
        simpa using this
      rw [hxy, ih ys _ h1.2.2.2.2 h2.2.2.2.2]

theorem Iterates_unique (D : DataStructure T σ) (s : σ) (xs ys : List T)
    (h1 : Iterates D s xs) (h2 : Iterates D s ys) : xs = ys :=
  IterFrom_unique D xs ys _ h1.2.2 h2.2.2

theorem foldBody_collect (xs : List T) :
    ∀ acc : List T, foldBody (fun (acc : List T) x => (Outcome.ok (), acc ++ [x])) xs acc =
      (.ok (), acc ++ xs) := by
  induction xs with
  | nil => intro acc; simp [foldBody]
  | cons x xs ih => intro acc; simp [foldBody, ih]

/-- A state with the iteration sequence `xs` makes `forAll` visit exactly `xs`. -/
theorem forAll_of_Iterates (D : DataStructure T σ) (s : σ) (xs : List T) (fuel : Nat)
    (h : Iterates D s xs) (hf : xs.length < fuel) :
    (forAll D fuel s).1 = .ok () ∧ (forAll D fuel s).2.2 = xs := by
  have := forLoop_spec D (fun (acc : List T) x => (Outcome.ok (), acc ++ [x])) xs fuel s [] h hf
  rw [foldBody_collect] at this
  exact ⟨this.1, by simpa using this.2.1⟩


theorem operatorEqLoop_false (L : DataStructure T σ₁) (R : DataStructure T σ₂)
    (eq : T → T → Outcome Bool) (fuel : Nat) (l : σ₁) (r : σ₂) :
    operatorEqLoop L R eq (fuel + 1) false l r = (.ok false, l, r) := by
  simp [operatorEqLoop]

theorem operatorEqLoop_spec (L : DataStructure T σ₁) (R : DataStructure T σ₂)
    (eqv : T → T → Bool) (as : List T) :
    ∀ (bs : List T) (fuel : Nat) (l : σ₁) (r : σ₂), IterFrom L l as → IterFrom R r bs →
      as.length = bs.length → as.length < fuel →
      ∃ (res : Bool) (l' : σ₁) (r' : σ₂),
        operatorEqLoop L R (fun x y => .ok (eqv x y)) fuel true l r = (.ok res, l', r') ∧
        (res = true ↔ List.Forall₂ (fun x y => eqv x y = true) as bs) ∧
        (res = true → R.iterMore r' = .ok false) := by
  induction as with
  | nil =>
    intro bs fuel l r hl hr hlen hf
    obtain ⟨f, rfl⟩ : ∃ f, fuel = f + 1 := ⟨fuel - 1, by simp at hf; omega⟩
    cases bs with
    | cons b bs => simp at hlen
    | nil =>
      simp only [IterFrom] at hl hr
      exact ⟨true, l, r, by simp [operatorEqLoop, hl], by simp, fun _ => hr⟩
  | cons a as ih =>
    intro bs fuel l r hl hr hlen hf
    obtain ⟨f, rfl⟩ : ∃ f, fuel = f + 1 := ⟨fuel - 1, by simp at hf; omega⟩
    cases bs with
    | nil => simp at hlen
    | cons b bs =>
      simp only [IterFrom] at hl hr
      obtain ⟨l1, l2, l3, -, l5⟩ := hl
      obtain ⟨r1, r2, r3, -, r5⟩ := hr
      rcases hln : L.iterNext l with ⟨ol, l'⟩
      rcases hrn : R.iterNext r with ⟨or, r'⟩
      rw [hln] at l3 l5
      rw [hrn] at r3 r5
      simp only at l3 l5 r3 r5
      subst l3 r3
      simp only [List.length_cons] at hlen hf
      have hstep : operatorEqLoop L R (fun x y => .ok (eqv x y)) (f + 1) true l r =
          operatorEqLoop L R (fun x y => .ok (eqv x y)) f (eqv a b) l' r' := by
        simp [operatorEqLoop, l1, l2, r1, r2, hln, hrn]
      rw [hstep]
      cases he : eqv a b with
      | false =>
        obtain ⟨f', rfl⟩ : ∃ f', f = f' + 1 := ⟨f - 1, by omega⟩
        refine ⟨false, l', r', operatorEqLoop_false L R _ f' l' r', ?_, by simp⟩
        simp [he]
      | true =>
        obtain ⟨res, l'', r'', h1, h2, h3⟩ := ih bs f l' r' l5 r5 (by omega) (by omega)
        exact ⟨res, l'', r'', h1, by simp [he, h2], h3⟩

/-- What `operator==` returns on two collections. -/
theorem operatorEq_spec (L : DataStructure T σ₁) (R : DataStructure T σ₂)
    (eqv : T → T → Bool) (a : σ₁) (b : σ₂) (as bs : List T) (fuel : Nat)
    (ha : IsCollection L a as) (hb : IsCollection R b bs) (hf : as.length < fuel) :
    ∃ res : Bool, (operatorEq L R (fun x y => .ok (eqv x y)) fuel a b).1 = .ok res ∧
      (res = true ↔ L.numElements a = R.numElements b ∧
        List.Forall₂ (fun x y => eqv x y = true) as bs) := by
  by_cases hcount : L.numElements a = R.numElements b
  · have hlen : as.length = bs.length := by rw [← ha.count, ← hb.count, hcount]
    obtain ⟨a1, -, a3⟩ := ha.iter
    obtain ⟨b1, -, b3⟩ := hb.iter
    rcases hla : L.iterStart a with ⟨ol, l⟩
    rcases hrb : R.iterStart b with ⟨or, r⟩
    rw [hla] at a1 a3
    rw [hrb] at b1 b3
    simp only at a1 a3 b1 b3
    subst a1 b1
    obtain ⟨res, l', r', h1, h2, h3⟩ := operatorEqLoop_spec L R eqv as bs fuel l r a3 b3 hlen hf
    refine ⟨res, ?_, by simp [hcount, h2]⟩
    cases res with
    | false => simp [operatorEq, ha.inv, hb.inv, hcount, hla, hrb, h1]
    | true => simp [operatorEq, ha.inv, hb.inv, hcount, hla, hrb, h1, h3 rfl]
  · exact ⟨false, by simp [operatorEq, ha.inv, hb.inv, hcount], by simp [hcount]⟩

/-- With different counts `operator==` returns false at once: it does not touch a
cursor and does not call the equality operator of the elements. -/
theorem operatorEq_of_count_ne (L : DataStructure T σ₁) (R : DataStructure T σ₂)
    (eq : T → T → Outcome Bool) (fuel : Nat) (a : σ₁) (b : σ₂)
    (ha : L.assertInvariants a = true) (hb : R.assertInvariants b = true)
    (hcount : L.numElements a ≠ R.numElements b) :
    operatorEq L R eq fuel a b = (.ok false, a, b) := by
  simp [operatorEq, ha, hb, hcount]

end generic

/-! ## The cells of an `SStack` -/

namespace SStack
variable {T : Type}

theorem construct_eq (c : Nat) (elements : Option (Nat → T)) (iterCell : Option Nat)
    (s : SStack T) (hnew : construct c elements iterCell = .ok s) :
    s._numElements = 0 ∧ s._maxElements = c := by
  unfold construct at hnew
  split at hnew
  · simp at hnew
  · split at hnew
    · dsimp only at hnew
      split at hnew
      · simp at hnew
      · simp only [Outcome.ok.injEq] at hnew; subst hnew; exact ⟨rfl, rfl⟩
    · simp at hnew

theorem push_ok (env : Env T) (s : SStack T) (e : T) (h : s._numElements < s._maxElements)
    (hc : env.copyThrows e = false) :
    push env s e = (.ok (), { s with
        _elements := Function.update s._elements s._numElements e
        _numElements := s._numElements + 1 }) := by
  have h1 : s._numElements ≤ s._maxElements := by omega
  have h2 : s._numElements ≠ s._maxElements := by omega
  have h3 : s._numElements + 1 ≤ s._maxElements := by omega
  simp [push, assertInvariants, h1, h2, h3, hc]

theorem pop_ok (env : Env T) (s : SStack T) (h0 : 0 < s._numElements)
    (h : s._numElements ≤ s._maxElements)
    (hc : env.copyThrows (s._elements (s._numElements - 1)) = false) :
    pop env s = (.ok (s._elements (s._numElements - 1)),
      { s with _numElements := s._numElements - 1 }) := by
  have h2 : s._numElements ≠ 0 := by omega
  have h3 : s._numElements - 1 ≤ s._maxElements := by omega
  simp [pop, assertInvariants, h, h2, h3, hc]

theorem cellsDown_congr (f g : Nat → T) (k : Nat) (h : ∀ i, i < k → f i = g i) :
    cellsDown f k = cellsDown g k := by
  induction k with
  | zero => rfl
  | succ k ih =>
    simp only [cellsDown]
    rw [h k (by omega), ih (fun i hi => h i (by omega))]

theorem cellsDown_update_ge (f : Nat → T) (k j : Nat) (x : T) (h : k ≤ j) :
    cellsDown (Function.update f j x) k = cellsDown f k := by
  apply cellsDown_congr
  intro i hi
  exact Function.update_noteq (by omega) _ _

theorem cellsDown_length (f : Nat → T) (k : Nat) : (cellsDown f k).length = k := by
  induction k with
  | zero => rfl
  | succ k ih => simp [cellsDown, ih]

/-- Pushing `vs` onto a stack with room for them. -/
theorem pushAll_spec (env : Env T) (vs : List T) :
    ∀ s : SStack T, s._numElements + vs.length ≤ s._maxElements →
      (∀ v ∈ vs, env.copyThrows v = false) →
      ∃ s' : SStack T, pushAll (push env) vs s = (.ok (), s') ∧
        s'._maxElements = s._maxElements ∧
        s'._numElements = s._numElements + vs.length ∧
        s'._iterCurrent = s._iterCurrent ∧
        cellsDown s'._elements s'._numElements =
          vs.reverse ++ cellsDown s._elements s._numElements := by
  induction vs with
  | nil => intro s _ _; exact ⟨s, rfl, rfl, rfl, rfl, by simp⟩
  | cons v vs ih =>
    intro s hroom hc
    simp only [List.length_cons] at hroom
    have hv : env.copyThrows v = false := hc v (List.mem_cons_self _ _)
    obtain ⟨s', h1, h2, h3, h4, h5⟩ := ih
      { s with _elements := Function.update s._elements s._numElements v
               _numElements := s._numElements + 1 }
      (by simp only; omega) (fun w hw => hc w (List.mem_cons_of_mem _ hw))
    refine ⟨s', ?_, h2, ?_, h4, ?_⟩
    · simp only [pushAll, Stack.shiftIn, Outcome.throwSpec, push_ok env s v (by omega) hv]
      exact h1
    · simp only at h3; simp only [List.length_cons]; omega
    · rw [h5]
      simp only [cellsDown, List.reverse_cons, List.append_assoc, List.singleton_append,
        Function.update_same]
      rw [cellsDown_update_ge _ _ _ _ (le_refl _)]

/-- Popping `k` elements off a stack that holds at least `k`. -/
theorem popN_spec (env : Env T) (k : Nat) :
    ∀ s : SStack T, k ≤ s._numElements → s._numElements ≤ s._maxElements →
      (∀ v ∈ cellsDown s._elements s._numElements, env.copyThrows v = false) →
      popN (pop env) k s =
        (.ok ((cellsDown s._elements s._numElements).take k),
          { s with _numElements := s._numElements - k }) := by
  induction k with
  | zero => intro s _ _ _; simp [popN]
  | succ k ih =>
    intro s hk hcap hc
    obtain ⟨n, hn⟩ : ∃ n, s._numElements = n + 1 := ⟨s._numElements - 1, by omega⟩
    have hc' := hc
    rw [hn] at hc'
    simp only [cellsDown, List.mem_cons, forall_eq_or_imp] at hc'
    have hpop := pop_ok env s (by omega) hcap (by rw [hn]; exact hc'.1)
    rw [hn] at hpop
    simp only [Nat.add_sub_cancel] at hpop
    have := ih { s with _numElements := n } (by simp only; omega) (by simp only; omega)
      (by simpa using hc'.2)
    simp only [popN, Stack.shiftOut, Outcome.throwSpec, hpop, this, hn, cellsDown,
      List.take_succ_cons]
    congr 2
    omega


theorem iterFrom_cells (k : Nat) :
    ∀ s : SStack T, s.assertInvariants = true → s._iterCurrent = k →
      IterFrom asDataStructure s (cellsDown s._elements k) := by
  induction k with
  | zero =>
    intro s hinv hk
    simp [IterFrom, cellsDown, asDataStructure, iterMore, hinv, hk]
  | succ k ih =>
    intro s hinv hk
    have hinv' : ({ s with _iterCurrent := k } : SStack T).assertInvariants = true := hinv
    have := ih { s with _iterCurrent := k } hinv' rfl
    simp [IterFrom, cellsDown, asDataStructure, iterMore, iterCurrent, iterNext, numElements,
      hinv, hk]
    exact this

theorem iterates_cells (s : SStack T) (hinv : s.assertInvariants = true) :
    Iterates asDataStructure s (cellsDown s._elements s._numElements) := by
  have hinv' : ({ s with _iterCurrent := s._numElements } : SStack T).assertInvariants = true :=
    hinv
  have := iterFrom_cells s._numElements { s with _iterCurrent := s._numElements } hinv' rfl
  simp [Iterates, asDataStructure, iterStart, hinv, numElements]
  exact this


theorem isCollection_cells (s : SStack T) (hinv : s.assertInvariants = true) :
    IsCollection asDataStructure s (cellsDown s._elements s._numElements) :=
  ⟨hinv, by simp [cellsDown_length, asDataStructure, numElements], iterates_cells s hinv⟩

theorem isCollection_iff (s : SStack T) (xs : List T) :
    IsCollection asDataStructure s xs ↔
      s.assertInvariants = true ∧ xs = cellsDown s._elements s._numElements := by
  constructor
  · intro h
    exact ⟨h.inv, Iterates_unique _ _ _ _ h.iter (iterates_cells s h.inv)⟩
  · rintro ⟨h1, rfl⟩
    exact isCollection_cells s h1

/-- The copy loop of `operator+=` fills the cells below `newHead` from the top down. -/
theorem foldBody_copyDown (env : Env T) (ys : List T) :
    ∀ (r : SStack T) (h : Nat), ys.length ≤ h → (∀ y ∈ ys, env.copyThrows y = false) →
      ∃ g : Nat → T,
        foldBody (copyDown env) ys (r, h) =
          (.ok (), ({ r with _elements := g }, h - ys.length)) ∧
        cellsDown g h = ys ++ cellsDown r._elements (h - ys.length) ∧
        ∀ i, h ≤ i → g i = r._elements i := by
  induction ys with
  | nil => intro r h _ _; exact ⟨r._elements, by simp [foldBody], by simp, fun _ _ => rfl⟩
  | cons y ys ih =>
    intro r h hlen hc
    simp only [List.length_cons] at hlen
    obtain ⟨k, rfl⟩ : ∃ k, h = k + 1 := ⟨h - 1, by omega⟩
    have hy : env.copyThrows y = false := hc y (List.mem_cons_self _ _)
    obtain ⟨g, h1, h2, h3⟩ := ih { r with _elements := Function.update r._elements k y } k
      (by omega) (fun w hw => hc w (List.mem_cons_of_mem _ hw))
    refine ⟨g, ?_, ?_, ?_⟩
    · simp only [foldBody, copyDown, Nat.add_sub_cancel, hy]
      simp only [Nat.succ_ne_zero, if_false, Bool.false_eq_true]
      rw [h1]
      simp only [List.length_cons, Nat.add_sub_add_right]
    · simp only [cellsDown, List.length_cons, Nat.add_sub_add_right, List.cons_append]
      rw [h2, h3 k (le_refl _)]
      simp only [Function.update_same]
      rw [cellsDown_update_ge _ _ _ _ (by omega)]
    · intro i hi
      rw [h3 i (by omega)]
      simp only
      exact Function.update_noteq (by omega) _ _

theorem appendBlock_spec {σ : Type} (env : Env T) (D : DataStructure T σ) (fuel : Nat)
    (r : SStack T) (src : σ) (ys : List T) (hr : r.assertInvariants = true)
    (hs : IsCollection D src ys)
    (hroom : D.numElements src ≤ r._maxElements - r._numElements)
    (hcopy : ∀ y ∈ ys, env.copyThrows y = false) (hf : ys.length < fuel) :
    ∃ g : Nat → T,
      (appendBlock env D fuel r src).1 = .ok () ∧
      (appendBlock env D fuel r src).2.1 =
        { r with _elements := g, _numElements := r._numElements + ys.length } ∧
      cellsDown g (r._numElements + ys.length) = ys ++ cellsDown r._elements r._numElements := by
  have hcount := hs.count
  have hinv : r._numElements ≤ r._maxElements := by simpa [assertInvariants] using hr
  obtain ⟨g, h1, h2, -⟩ := foldBody_copyDown env ys r (r._numElements + ys.length)
    (by omega) hcopy
  have hloop := forLoop_spec D (copyDown env) ys fuel src
    (r, r._numElements + ys.length) hs.iter hf
  rw [h1] at hloop
  obtain ⟨l1, l2, l3⟩ := hloop
  simp only [Nat.add_sub_cancel] at h2 l2
  refine ⟨g, ?_, ?_, h2⟩
  all_goals
    rcases hfl : forLoop D (copyDown env) fuel src (r, r._numElements + ys.length)
      with ⟨o, src', r'⟩
    rw [hfl] at l1 l2 l3
    simp only at l1 l2 l3
    subst l1 l2
    have hle : r._numElements + ys.length ≤ r._maxElements := by omega
    simp [appendBlock, hcount, hfl, assertInvariants, l3, hle]

/-- A successful `operator+=`: the elements of the source are placed on top of the
stack, the first of the source's iteration order topmost. -/
theorem operatorPlusEq_spec {σ : Type} (env : Env T) (D : DataStructure T σ) (fuel : Nat)
    (r : SStack T) (src : σ) (ys : List T) (hr : r.assertInvariants = true)
    (hs : IsCollection D src ys)
    (hroom : D.numElements src ≤ r._maxElements - r._numElements)
    (hcopy : ∀ y ∈ ys, env.copyThrows y = false) (hf : ys.length < fuel) :
    ∃ g : Nat → T,
      (operatorPlusEq env D fuel r src).1 = .ok () ∧
      (operatorPlusEq env D fuel r src).2.1 =
        { r with _elements := g, _numElements := r._numElements + ys.length } ∧
      cellsDown g (r._numElements + ys.length) = ys ++ cellsDown r._elements r._numElements := by
  have hcount := hs.count
  by_cases h0 : D.numElements src > 0
  · obtain ⟨g, h1, h2, h3⟩ := appendBlock_spec env D fuel r src ys hr hs hroom hcopy hf
    refine ⟨g, ?_, ?_, h3⟩
    all_goals
      rcases hab : appendBlock env D fuel r src with ⟨o, r', src'⟩
      rw [hab] at h1 h2
      simp only at h1 h2
      subst h1 h2
      simp only [operatorPlusEq, hr, Bool.true_eq_false, if_false, not_lt.mpr hroom, gt_iff_lt,
        h0, if_true, hab]
  · have hz : D.numElements src = 0 := by omega
    have hnil : ys = [] := by
      apply List.eq_nil_of_length_eq_zero; omega
    subst hnil
    exact ⟨r._elements, by simp [operatorPlusEq, hr, hz], by simp [operatorPlusEq, hr, hz],
      by simp⟩

theorem operatorPlusEq_never_Full {σ : Type} (env : Env T) (D : DataStructure T σ)
    (fuel : Nat) (r : SStack T) (src : σ) :
    (operatorPlusEq env D fuel r src).1 ≠ .fail (.raised .Full) := by
  unfold operatorPlusEq
  split
  · simp
  · split
    · simp
    · split
      · split
        · rename_i f _ _ _
          cases f <;> simp [Fault.catchAll]
        · simp
      · simp

end SStack

/-! ## The LIFO law and the guards of `SStack` -/

namespace SStack
variable {T : Type}

/-- C2. LIFO law, Bounded Stack: a newly constructed `SStack` of capacity `c` (a
state with count 0 and `_maxElements = c`, which is what the constructor returns)
accepts every push of a list `vs` with at most `c` elements, then `|vs|` pops all
succeed, return the elements of `vs` in reverse order and leave the stack with
count 0.  (The copies of the elements are assumed not to throw.) -/
theorem sstack_lifo (env : Env T) (c : Nat) (s : SStack T) (vs : List T)
    (hnew : s._numElements = 0) (hcap : s._maxElements = c)
    (hlen : vs.length ≤ c) (hcopy : ∀ v ∈ vs, env.copyThrows v = false) :
    (pushAll (push env) vs s).1 = .ok () ∧
      (popN (pop env) vs.length (pushAll (push env) vs s).2).1 = .ok vs.reverse ∧
      (popN (pop env) vs.length (pushAll (push env) vs s).2).2._numElements = 0 := by
  obtain ⟨s', h1, h2, h3, -, h5⟩ := pushAll_spec env vs s (by omega) hcopy
  have hcells : cellsDown s'._elements s'._numElements = vs.reverse := by
    rw [h5, hnew]; simp [cellsDown]
  have hpop := popN_spec env vs.length s' (by omega) (by omega)
    (by rw [hcells]; intro v hv; exact hcopy v (List.mem_reverse.mp hv))
  rw [h1]
  simp only [hpop, hcells]
  refine ⟨trivial, ?_, by omega⟩
  rw [List.take_of_length_le (by simp)]

/-- The LIFO law of the bounded stack on the elements 1, 2, 3 and the stack that the
constructor returns for capacity 3. -/
theorem sstack_lifo_witness :
    (construct 3 (some fun _ => (0 : Nat)) (some 0) = .ok (fresh 3) ∧
      (fresh 3)._numElements = 0 ∧ (fresh 3)._maxElements = 3 ∧
      [1, 2, 3].length ≤ 3 ∧ ∀ v ∈ [1, 2, 3], (Env.reliable Nat).copyThrows v = false) ∧
    (pushAll (push (Env.reliable Nat)) [1, 2, 3] (fresh 3)).1 = .ok () ∧
      (popN (pop (Env.reliable Nat)) [1, 2, 3].length
        (pushAll (push (Env.reliable Nat)) [1, 2, 3] (fresh 3)).2).1 = .ok [1, 2, 3].reverse ∧
      (popN (pop (Env.reliable Nat)) [1, 2, 3].length
        (pushAll (push (Env.reliable Nat)) [1, 2, 3] (fresh 3)).2).2._numElements = 0 :=
  ⟨⟨rfl, rfl, rfl, by decide, fun _ _ => rfl⟩,
    sstack_lifo (Env.reliable Nat) 3 (fresh 3) [1, 2, 3] rfl rfl (by decide)
      (fun _ _ => rfl)⟩

/-- C6. Full-guard, Bounded Stack: `push` raises `Full` exactly when the count equals
the capacity, and then leaves the stack as it was; otherwise, on a stack that
satisfies its invariant and with an element whose copy does not throw, `push`
succeeds, writes the element to the slot `count` and raises the count by one. -/
theorem push_full_guard (env : Env T) (s : SStack T) (e : T) :
    ((push env s e).1 = .fail (.raised .Full) ↔ s._numElements = s._maxElements) ∧
      (s._numElements = s._maxElements → push env s e = (.fail (.raised .Full), s)) ∧
      (s.assertInvariants = true → s._numElements ≠ s._maxElements →
        env.copyThrows e = false →
        push env s e = (.ok (), { s with
          _elements := Function.update s._elements s._numElements e
          _numElements := s._numElements + 1 })) := by
  refine ⟨?_, ?_, ?_⟩
  · constructor
    · intro h
      by_contra hne
      unfold push at h
      dsimp only at h
      split_ifs at h <;> simp_all
    · intro h
      simp [push, assertInvariants, h]
  · intro h
    simp [push, assertInvariants, h]
  · intro hinv hne hc
    have hle : s._numElements ≤ s._maxElements := by simpa [assertInvariants] using hinv
    exact push_ok env s e (by omega) hc

/-- The full-guard on a stack of capacity 2: after two pushes the third push raises
`Full` and the count remains 2. -/
theorem push_full_guard_witness :
    (built 2 [1, 2])._numElements = (built 2 [1, 2])._maxElements ∧
      push (Env.reliable Nat) (built 2 [1, 2]) 3 = (.fail (.raised .Full), built 2 [1, 2]) ∧
      (built 2 [1, 2])._numElements = 2 :=
  ⟨rfl, (push_full_guard (Env.reliable Nat) (built 2 [1, 2]) 3).2.1 rfl, rfl⟩

end SStack

/-! ## Generic equality -/

section equality
variable {T σ₁ σ₂ : Type}

/-- C4. Generic equality: on two collections `a` and `b` (of any implementations)
`operator==` returns true if and only if `numElements()` agree and the iteration
sequences are equal position by position under the equality of the elements; when the
counts differ it returns false at once, without starting an iteration and whatever
the equality operator of the elements would do. -/
theorem operatorEq_iff (L : DataStructure T σ₁) (R : DataStructure T σ₂)
    (eqv : T → T → Bool) (a : σ₁) (b : σ₂) (as bs : List T) (fuel : Nat)
    (ha : IsCollection L a as) (hb : IsCollection R b bs) (hf : as.length < fuel) :
    (∃ res : Bool, (operatorEq L R (fun x y => .ok (eqv x y)) fuel a b).1 = .ok res ∧
      (res = true ↔ L.numElements a = R.numElements b ∧
        List.Forall₂ (fun x y => eqv x y = true) as bs)) ∧
    (L.numElements a ≠ R.numElements b →
      ∀ (eq : T → T → Outcome Bool) (n : Nat), operatorEq L R eq n a b = (.ok false, a, b)) :=
  ⟨operatorEq_spec L R eqv a b as bs fuel ha hb hf,
    fun hne eq n => operatorEq_of_count_ne L R eq n a b ha.inv hb.inv hne⟩

/-- Generic equality on two bounded stacks that hold 2, 1 and 2, 5. -/
theorem operatorEq_iff_witness :
    (IsCollection SStack.asDataStructure (SStack.built 2 [1, 2]) [2, 1] ∧
      IsCollection SStack.asDataStructure (SStack.built 4 [5, 2]) [2, 5] ∧
      [2, 1].length < 3) ∧
    (∃ res : Bool,
      (operatorEq SStack.asDataStructure SStack.asDataStructure
        (fun x y => .ok (x == y)) 3 (SStack.built 2 [1, 2]) (SStack.built 4 [5, 2])).1 = .ok res ∧
      (res = true ↔
        SStack.asDataStructure.numElements (SStack.built 2 [1, 2]) =
          SStack.asDataStructure.numElements (SStack.built 4 [5, 2]) ∧
        List.Forall₂ (fun x y => (x == y) = true) [2, 1] [2, 5])) ∧
    (SStack.asDataStructure.numElements (SStack.built 2 [1, 2]) ≠
        SStack.asDataStructure.numElements (SStack.built 4 [5, 2]) →
      ∀ (eq : Nat → Nat → Outcome Bool) (n : Nat),
        operatorEq SStack.asDataStructure SStack.asDataStructure eq n (SStack.built 2 [1, 2])
          (SStack.built 4 [5, 2]) = (.ok false, SStack.built 2 [1, 2], SStack.built 4 [5, 2])) :=
  have ha : IsCollection SStack.asDataStructure (SStack.built 2 [1, 2]) [2, 1] :=
    (SStack.isCollection_iff _ _).2 ⟨by decide, by decide⟩
  have hb : IsCollection SStack.asDataStructure (SStack.built 4 [5, 2]) [2, 5] :=
    (SStack.isCollection_iff _ _).2 ⟨by decide, by decide⟩
  ⟨⟨ha, hb, by decide⟩,
    operatorEq_iff SStack.asDataStructure SStack.asDataStructure (fun x y => x == y) _ _ _ _ 3
      ha hb (by decide)⟩

end equality

/-! ## The chain of nodes of a `DLinearStructure` -/

section chain
variable {T : Type}

theorem Chain_update_other (store : Nat → Option (Node T)) (a : Nat) (v : Option (Node T))
    (nodes : List (Nat × T)) :
    ∀ p, a ∉ nodes.map Prod.fst → Chain store p nodes →
      Chain (Function.update store a v) p nodes := by
  induction nodes with
  | nil => intro p _ h; exact h
  | cons n rest ih =>
    intro p hmem h
    obtain ⟨b, x⟩ := n
    simp only [List.map_cons, List.mem_cons, not_or] at hmem
    obtain ⟨h1, h2, h3⟩ := h
    refine ⟨h1, ?_, ih _ hmem.2 h3⟩
    rw [Function.update_noteq (Ne.symm hmem.1)]
    exact h2

theorem Chain_head (store : Nat → Option (Node T)) (p : Option Nat) (nodes : List (Nat × T))
    (h : Chain store p nodes) : p = nodes.head?.map Prod.fst := by
  cases nodes with
  | nil => exact h
  | cons n rest => obtain ⟨b, x⟩ := n; exact h.1

/-- Linking a new node behind the final node of a chain. -/
theorem Chain_append (store : Nat → Option (Node T)) (a : Nat) (x : T)
    (nodes : List (Nat × T)) :
    ∀ p l y, Chain store p nodes → (nodes.map Prod.fst).Nodup → a ∉ nodes.map Prod.fst →
      nodes.getLast? = some (l, y) →
      Chain (Function.update (Function.update store a (some ⟨x, none⟩)) l
        (some ⟨y, some a⟩)) p (nodes ++ [(a, x)]) := by
  induction nodes with
  | nil => intro p l y _ _ _ h; simp at h
  | cons n rest ih =>
    intro p l y hc hnd hmem hlast
    obtain ⟨b, z⟩ := n
    obtain ⟨h1, h2, h3⟩ := hc
    simp only [List.map_cons, List.nodup_cons] at hnd
    simp only [List.map_cons, List.mem_cons, not_or] at hmem
    cases rest with
    | nil =>
      simp only [List.getLast?_singleton, Option.some.injEq, Prod.mk.injEq] at hlast
      obtain ⟨rfl, rfl⟩ := hlast
      refine ⟨h1, by simp, rfl, ?_, rfl⟩
      rw [Function.update_noteq hmem.1, Function.update_same]
      rfl
    | cons m rest' =>
      have hlast' : (m :: rest').getLast? = some (l, y) := by
        rw [List.getLast?_cons_cons] at hlast; exact hlast
      have hl : l ∈ (m :: rest').map Prod.fst := by
        have := List.mem_of_getLast?_eq_some hlast'
        exact List.mem_map_of_mem Prod.fst this
      have hbl : b ≠ l := fun h => hnd.1 (h ▸ hl)
      refine ⟨h1, ?_, ?_⟩
      · rw [Function.update_noteq hbl, Function.update_noteq (Ne.symm hmem.1)]
        simpa using h2
      · have := ih (some m.1) l y (by simpa using h3) hnd.2 hmem.2 hlast'
        simpa using this

end chain

namespace DLinearStructure
variable {T : Type}

theorem Holds.first (s : DLinearStructure T) (nodes : List (Nat × T)) (h : s.Holds nodes) :
    s._first = nodes.head?.map Prod.fst :=
  Chain_head _ _ _ h.chain

theorem Holds.assertInvariants_eq (s : DLinearStructure T) (nodes : List (Nat × T))
    (h : s.Holds nodes) : s.assertInvariants = true := by
  have hf := Holds.first s nodes h
  have hl := h.last
  have hc := h.count
  cases nodes with
  | nil => simp_all [assertInvariants]
  | cons n rest =>
    cases rest with
    | nil => simp_all [assertInvariants]
    | cons m rest' => simp_all [assertInvariants]

theorem iterFrom_chain (nodes : List (Nat × T)) :
    ∀ s : DLinearStructure T, Chain s.store s._iterCurrent nodes →
      IterFrom asDataStructure s (nodes.map Prod.snd) := by
  induction nodes with
  | nil =>
    intro s h
    simp only [Chain] at h
    simp [IterFrom, asDataStructure, iterMore, h]
  | cons n rest ih =>
    intro s h
    obtain ⟨a, x⟩ := n
    obtain ⟨h1, h2, h3⟩ := h
    have := ih { s with _iterCurrent := rest.head?.map Prod.fst } h3
    simp [IterFrom, asDataStructure, iterMore, iterCurrent, iterNext, numElements, h1, h2]
    exact this

theorem Holds.isCollection (s : DLinearStructure T) (nodes : List (Nat × T))
    (h : s.Holds nodes) : IsCollection asDataStructure s (nodes.map Prod.snd) := by
  refine ⟨Holds.assertInvariants_eq s nodes h, by simp [asDataStructure, numElements, h.count],
    ?_⟩
  have := iterFrom_chain nodes { s with _iterCurrent := s._first } h.chain
  simp [Iterates, asDataStructure, iterStart, numElements]
  exact this

end DLinearStructure

namespace DStack
variable {T : Type}

/-- A successful `push` puts a new node in front of the chain. -/
theorem push_spec (env : Env T) (s : DStack T) (nodes : List (Nat × T)) (e : T)
    (h : s.Holds nodes) (halloc : env.newNode s.nextAddress = .storage)
    (hc : env.copyThrows e = false) :
    ∃ s' : DStack T, push env s e = (.ok (), s') ∧ s'.Holds ((s.nextAddress, e) :: nodes) ∧
      s'.nextAddress = s.nextAddress + 1 := by
  have hinv := DLinearStructure.Holds.assertInvariants_eq s nodes h
  have hfirst := DLinearStructure.Holds.first s nodes h
  have hfresh : s.nextAddress ∉ nodes.map Prod.fst := fun hm =>
    absurd (h.below _ hm) (lt_irrefl _)
  refine ⟨_, by simp [push, hinv, DLinearStructure.newNode, halloc, hc]; rfl, ?_, ?_⟩
  · refine ⟨?_, ?_, ?_, ?_, ?_⟩
    · refine ⟨?_, ?_, ?_⟩
      · split <;> rfl
      · split <;> simp [hfirst]
      · rw [← hfirst]
        have := Chain_update_other s.store s.nextAddress
          (some ⟨e, s._first⟩) nodes s._first hfresh h.chain
        split <;> exact this
    · simp only [List.map_cons, List.nodup_cons]
      exact ⟨hfresh, h.nodup⟩
    · intro a ha
      simp only [List.map_cons, List.mem_cons] at ha
      have hn : ∀ t : DStack T, t.nextAddress = s.nextAddress + 1 →
          a < t.nextAddress := by
        intro t ht
        rcases ha with rfl | ha
        · omega
        · have := h.below a ha; omega
      split <;> exact hn _ rfl
    · have hl := h.last
      cases nodes with
      | nil => simp_all
      | cons n rest =>
        have : s._last ≠ none := by rw [hl]; simp
        simp [this, hl, List.getLast?_cons_cons]
    · have := h.count
      split <;> simp [this]
  · split <;> rfl


/-- A successful `pop` returns the element of the first node and unlinks that node. -/
theorem pop_spec (env : Env T) (s : DStack T) (a : Nat) (x : T) (rest : List (Nat × T))
    (h : s.Holds ((a, x) :: rest)) (hc : env.copyThrows x = false) :
    ∃ s' : DStack T, pop env s = (.ok x, s') ∧ s'.Holds rest ∧
      s'.nextAddress = s.nextAddress := by
  have hinv := DLinearStructure.Holds.assertInvariants_eq s _ h
  obtain ⟨h1, h2, h3⟩ := h.chain
  have hnd := h.nodup
  simp only [List.map_cons, List.nodup_cons] at hnd
  refine ⟨_, by simp [pop, hinv, h1, h2, hc]; rfl, ?_, ?_⟩
  · refine ⟨?_, hnd.2, ?_, ?_, ?_⟩
    · have := Chain_update_other s.store a none rest _ hnd.1 h3
      split <;> exact this
    · intro b hb
      have := h.below b (by simp only [List.map_cons, List.mem_cons]; exact Or.inr hb)
      split <;> exact this
    · have hl := h.last
      cases rest with
      | nil => simp
      | cons m rest' => simp [hl, List.getLast?_cons_cons]
    · have := h.count
      simp only [List.length_cons] at this
      split <;> simp [this]
  · split <;> rfl

theorem peek_spec (env : Env T) (s : DStack T) (a : Nat) (x : T) (rest : List (Nat × T))
    (h : s.Holds ((a, x) :: rest)) (hc : env.copyThrows x = false) :
    peek env s = (.ok x, s) := by
  have hinv := DLinearStructure.Holds.assertInvariants_eq s _ h
  obtain ⟨h1, h2, -⟩ := h.chain
  simp [peek, hinv, h1, h2, hc]

/-- On a stack without nodes `pop` and `peek` raise `Empty` and change nothing. -/
theorem pop_peek_empty (env : Env T) (s : DStack T) (h : s.Holds []) :
    pop env s = (.fail (.raised .Empty), s) ∧ peek env s = (.fail (.raised .Empty), s) := by
  have hinv := DLinearStructure.Holds.assertInvariants_eq s _ h
  have h1 : s._first = none := h.chain
  simp [pop, peek, hinv, h1]

theorem dpushAll_spec (env : Env T) (vs : List T) :
    ∀ (s : DStack T) (nodes : List (Nat × T)), s.Holds nodes →
      (∀ v ∈ vs, env.copyThrows v = false) →
      (∀ i, i < vs.length → env.newNode (s.nextAddress + i) = .storage) →
      ∃ (s' : DStack T) (nodes' : List (Nat × T)),
        pushAll (push env) vs s = (.ok (), s') ∧ s'.Holds nodes' ∧
        nodes'.map Prod.snd = vs.reverse ++ nodes.map Prod.snd := by
  induction vs with
  | nil => intro s nodes h _ _; exact ⟨s, nodes, rfl, h, by simp⟩
  | cons v vs ih =>
    intro s nodes h hc ha
    obtain ⟨s₁, h1, h2, h3⟩ := push_spec env s nodes v h (by simpa using ha 0 (by simp))
      (hc v (List.mem_cons_self _ _))
    obtain ⟨s', nodes', h4, h5, h6⟩ := ih s₁ _ h2 (fun w hw => hc w (List.mem_cons_of_mem _ hw))
      (fun i hi => by
        rw [h3, Nat.add_assoc, Nat.add_comm 1 i]
        exact ha (i + 1) (by simp only [List.length_cons]; omega))
    exact ⟨s', nodes', by simp only [pushAll, Stack.shiftIn, Outcome.throwSpec, h1]; exact h4,
      h5, by simp [h6]⟩

theorem dpopN_spec (env : Env T) (k : Nat) :
    ∀ (s : DStack T) (nodes : List (Nat × T)), s.Holds nodes → k ≤ nodes.length →
      (∀ v ∈ nodes.map Prod.snd, env.copyThrows v = false) →
      ∃ s' : DStack T,
        popN (pop env) k s = (.ok ((nodes.map Prod.snd).take k), s') ∧
        s'.Holds (nodes.drop k) := by
  induction k with
  | zero => intro s nodes h _ _; exact ⟨s, by simp [popN], by simpa using h⟩
  | succ k ih =>
    intro s nodes h hk hc
    cases nodes with
    | nil => simp at hk
    | cons n rest =>
      obtain ⟨a, x⟩ := n
      simp only [List.map_cons, List.mem_cons, forall_eq_or_imp] at hc
      obtain ⟨s₁, h1, h2, -⟩ := pop_spec env s a x rest h hc.1
      obtain ⟨s', h3, h4⟩ := ih s₁ rest h2 (by simpa using hk) hc.2
      exact ⟨s', by simp [popN, Stack.shiftOut, Outcome.throwSpec, h1, h3], by simpa using h4⟩

theorem construct_holds (iterCell : Option (Option Nat)) (s : DStack T)
    (h : construct iterCell = .ok s) : s.Holds [] ∧ s.nextAddress = 0 := by
  unfold construct DLinearStructure.construct at h
  split at h
  · simp at h
  · simp only [Outcome.ok.injEq] at h
    subst h
    exact ⟨⟨rfl, by simp, by simp, rfl, rfl⟩, rfl⟩

end DStack

namespace DLinearStructure
variable {T : Type}

theorem Chain_last (store : Nat → Option (Node T)) (nodes : List (Nat × T)) :
    ∀ p l y, Chain store p nodes → nodes.getLast? = some (l, y) →
      store l = some ⟨y, none⟩ := by
  induction nodes with
  | nil => intro p l y _ h; simp at h
  | cons n rest ih =>
    intro p l y hc hlast
    obtain ⟨b, z⟩ := n
    obtain ⟨-, h2, h3⟩ := hc
    cases rest with
    | nil =>
      simp only [List.getLast?_singleton, Option.some.injEq, Prod.mk.injEq] at hlast
      obtain ⟨rfl, rfl⟩ := hlast
      simpa using h2
    | cons m rest' =>
      rw [List.getLast?_cons_cons] at hlast
      exact ih _ l y h3 hlast

/-- The body of the loop of `concatenate`, when the allocation and the copy succeed:
a new node is linked behind the chain. -/
theorem appendNode_spec (env : Env T) (s : DLinearStructure T) (nodes : List (Nat × T))
    (x : T) (h : s.Holds nodes) (halloc : env.newNode s.nextAddress = .storage)
    (hc : env.copyThrows x = false) :
    ∃ s' : DLinearStructure T, appendNode env s x = (.ok (), s') ∧
      s'.Holds (nodes ++ [(s.nextAddress, x)]) ∧ s'.nextAddress = s.nextAddress + 1 := by
  have hfirst := Holds.first s nodes h
  have hfresh : s.nextAddress ∉ nodes.map Prod.fst := fun hm =>
    absurd (h.below _ hm) (lt_irrefl _)
  have hl := h.last
  have hcount := h.count
  rcases hlast : nodes.getLast? with _ | ⟨l, y⟩
  · have hnil : nodes = [] := List.getLast?_eq_none_iff.mp hlast
    subst hnil
    simp only [List.head?_nil, Option.map_none', List.getLast?_nil] at hfirst hl
    refine ⟨_, by simp [appendNode, newNode, halloc, hc, hfirst, hl]; rfl, ?_, rfl⟩
    exact ⟨⟨rfl, by simp, rfl⟩, by simp, by simp, rfl, by simp [hcount]⟩
  · rw [hlast] at hl
    simp only [Option.map_some'] at hl
    have hstore := Chain_last s.store nodes s._first l y h.chain hlast
    have hlmem : l ∈ nodes.map Prod.fst :=
      List.mem_map_of_mem Prod.fst (List.mem_of_getLast?_eq_some hlast)
    have hne : l ≠ s.nextAddress := fun e => hfresh (e ▸ hlmem)
    have hnn : nodes ≠ [] := by rintro rfl; simp at hlast
    have hf1 : s._first ≠ none := by
      rw [hfirst]
      cases nodes with
      | nil => exact absurd rfl hnn
      | cons n rest => simp
    refine ⟨_, by simp [appendNode, newNode, halloc, hc, hf1, hl,
      Function.update_noteq hne, hstore]; rfl, ?_, rfl⟩
    refine ⟨?_, ?_, ?_, ?_, ?_⟩
    · exact Chain_append s.store s.nextAddress x nodes s._first l y h.chain h.nodup hfresh hlast
    · rw [List.map_append, List.nodup_append]
      refine ⟨h.nodup, by simp, ?_⟩
      intro a ha hb
      simp only [List.map_cons, List.map_nil, List.mem_singleton] at hb
      exact hfresh (hb ▸ ha)
    · intro a ha
      simp only [List.map_append, List.map_cons, List.map_nil, List.mem_append,
        List.mem_singleton] at ha
      rcases ha with ha | rfl
      · have := h.below a ha
        show a < s.nextAddress + 1
        omega
      · show s.nextAddress < s.nextAddress + 1
        omega
    · simp
    · simp [hcount]

/-- The body of the loop of `concatenate` returns normally only when the allocation
yields storage and the copy of the element does not throw. -/
theorem appendNode_ok (env : Env T) (s : DLinearStructure T) (x : T)
    (h : (appendNode env s x).1 = .ok ()) :
    env.newNode s.nextAddress = .storage ∧ env.copyThrows x = false := by
  unfold appendNode newNode at h
  cases hn : env.newNode s.nextAddress <;> cases hc : env.copyThrows x <;> simp_all

/-- The loop of `concatenate` over the elements `ys`: when it returns normally, the
new nodes hold `ys` behind the nodes that were there. -/
theorem foldBody_appendNode (env : Env T) (ys : List T) :
    ∀ (s : DLinearStructure T) (nodes : List (Nat × T)), s.Holds nodes →
      (foldBody (appendNode env) ys s).1 = .ok () →
      ∃ nodes' : List (Nat × T), (foldBody (appendNode env) ys s).2.Holds nodes' ∧
        nodes'.map Prod.snd = nodes.map Prod.snd ++ ys := by
  induction ys with
  | nil => intro s nodes h _; exact ⟨nodes, h, by simp⟩
  | cons y ys ih =>
    intro s nodes h hok
    rcases hb : appendNode env s y with ⟨_ | f, s₁⟩
    · have hstep := appendNode_ok env s y (by rw [hb])
      obtain ⟨s', h1, h2, -⟩ := appendNode_spec env s nodes y h hstep.1 hstep.2
      rw [hb] at h1
      simp only [Prod.mk.injEq, true_and] at h1
      subst h1
      simp only [foldBody, hb] at hok ⊢
      obtain ⟨nodes', h3, h4⟩ := ih s₁ _ h2 hok
      exact ⟨nodes', h3, by simp [h4]⟩
    · simp [foldBody, hb] at hok

/-- The loop of `concatenate` returns normally when every allocation yields storage
and no copy throws. -/
theorem foldBody_appendNode_ok (env : Env T) (ys : List T) :
    ∀ (s : DLinearStructure T) (nodes : List (Nat × T)), s.Holds nodes →
      (∀ y ∈ ys, env.copyThrows y = false) →
      (∀ i, i < ys.length → env.newNode (s.nextAddress + i) = .storage) →
      (foldBody (appendNode env) ys s).1 = .ok () := by
  induction ys with
  | nil => intro s nodes _ _ _; rfl
  | cons y ys ih =>
    intro s nodes h hc ha
    obtain ⟨s', h1, h2, h3⟩ := appendNode_spec env s nodes y h (by simpa using ha 0 (by simp))
      (hc y (List.mem_cons_self _ _))
    simp only [foldBody, h1]
    exact ih s' _ h2 (fun w hw => hc w (List.mem_cons_of_mem _ hw)) (fun i hi => by
      rw [h3, Nat.add_assoc, Nat.add_comm 1 i]
      exact ha (i + 1) (by simp only [List.length_cons]; omega))

end DLinearStructure

/-! ## The LIFO law and the guards of `DStack`, and `concatenate` -/

namespace DLinearStructure
variable {T : Type}

/-- C9. Concatenation order, Dynamic Stack: when `concatenate` returns normally on a
dynamic collection `r` that satisfies its invariant, the iteration sequence of `r` is
the one it had before the call followed by the iteration sequence of the source, and
the count has grown by `numElements()` of the source; and the call does return
normally when no copy throws and every allocation yields storage. -/
theorem concatenate_order {σ : Type} (env : Env T) (D : DataStructure T σ) (fuel : Nat)
    (r : DLinearStructure T) (src : σ) (nodes : List (Nat × T)) (ys : List T)
    (hr : r.Holds nodes) (hs : IsCollection D src ys) (hf : ys.length < fuel) :
    IsCollection asDataStructure r (nodes.map Prod.snd) ∧
    ((concatenate env D fuel r src).1 = .ok () →
      IsCollection asDataStructure (concatenate env D fuel r src).2.1
        (nodes.map Prod.snd ++ ys) ∧
      (concatenate env D fuel r src).2.1._numElements =
        r._numElements + D.numElements src) ∧
    ((∀ y ∈ ys, env.copyThrows y = false) →
      (∀ i, i < ys.length → env.newNode (r.nextAddress + i) = .storage) →
      (concatenate env D fuel r src).1 = .ok ()) := by
  have hinv := Holds.assertInvariants_eq r nodes hr
  obtain ⟨l1, l2, -⟩ := forLoop_spec D (appendNode env) ys fuel src r hs.iter hf
  rcases hfl : forLoop D (appendNode env) fuel src r with ⟨o, src', r'⟩
  rw [hfl] at l1 l2
  simp only at l1 l2
  refine ⟨Holds.isCollection r nodes hr, ?_, ?_⟩
  · intro hok
    cases o with
    | fail f => simp [concatenate, hinv, hfl] at hok
    | ok u =>
      obtain ⟨nodes', h1, h2⟩ := foldBody_appendNode env ys r nodes hr l1.symm
      rw [← l2] at h1
      have hinv' := Holds.assertInvariants_eq r' nodes' h1
      have hres : (concatenate env D fuel r src).2.1 = r' := by
        simp [concatenate, hinv, hfl, hinv']
      rw [hres, ← h2]
      refine ⟨Holds.isCollection r' nodes' h1, ?_⟩
      have hlen : nodes'.length = nodes.length + ys.length := by
        have := congrArg List.length h2
        simpa using this
      rw [h1.count, hr.count, hs.count, hlen]
  · intro hc ha
    have hok := foldBody_appendNode_ok env ys r nodes hr hc ha
    rw [← l1] at hok
    subst hok
    obtain ⟨nodes', h1, -⟩ := foldBody_appendNode env ys r nodes hr l1.symm
    rw [← l2] at h1
    have hinv' := Holds.assertInvariants_eq r' nodes' h1
    simp [concatenate, hinv, hfl, hinv']

end DLinearStructure

namespace DStack
variable {T : Type}

/-- C1. LIFO law, Dynamic Stack: on a newly constructed `DStack` the pushes of the
elements of a list `vs` all succeed, the following `|vs|` pops all succeed and return
the elements of `vs` in reverse order, and the stack is left empty, with count 0 and
a null `_first`.  (The copies of the elements are assumed not to throw and the
allocations to yield storage.) -/
theorem dstack_lifo (env : Env T) (iterCell : Option (Option Nat)) (s : DStack T)
    (vs : List T) (hnew : construct iterCell = .ok s)
    (hcopy : ∀ v ∈ vs, env.copyThrows v = false)
    (halloc : ∀ i, i < vs.length → env.newNode i = .storage) :
    (pushAll (push env) vs s).1 = .ok () ∧
      (popN (pop env) vs.length (pushAll (push env) vs s).2).1 = .ok vs.reverse ∧
      (popN (pop env) vs.length (pushAll (push env) vs s).2).2._numElements = 0 ∧
      (popN (pop env) vs.length (pushAll (push env) vs s).2).2._first = none := by
  obtain ⟨h0, hz⟩ := construct_holds iterCell s hnew
  obtain ⟨s', nodes', h1, h2, h3⟩ := dpushAll_spec env vs s [] h0 hcopy
    (fun i hi => by rw [hz, Nat.zero_add]; exact halloc i hi)
  simp only [List.map_nil, List.append_nil] at h3
  have hlen : nodes'.length = vs.length := by
    have := congrArg List.length h3
    simpa using this
  obtain ⟨s'', h4, h5⟩ := dpopN_spec env vs.length s' nodes' h2 (by omega)
    (by rw [h3]; intro v hv; exact hcopy v (List.mem_reverse.mp hv))
  rw [h1]
  simp only [h4, h3]
  rw [List.drop_of_length_le (by omega)] at h5
  exact ⟨trivial, by rw [List.take_of_length_le (by simp)], h5.count, h5.chain⟩

/-- The LIFO law of the dynamic stack on the elements 1, 2, 3. -/
theorem dstack_lifo_witness :
    ((construct (some none) : Outcome (DStack Nat)) = .ok fresh ∧
      (∀ v ∈ [1, 2, 3], (Env.reliable Nat).copyThrows v = false) ∧
      ∀ i, i < [1, 2, 3].length → (Env.reliable Nat).newNode i = .storage) ∧
    (pushAll (push (Env.reliable Nat)) [1, 2, 3] fresh).1 = .ok () ∧
      (popN (pop (Env.reliable Nat)) [1, 2, 3].length
        (pushAll (push (Env.reliable Nat)) [1, 2, 3] fresh).2).1 = .ok [1, 2, 3].reverse ∧
      (popN (pop (Env.reliable Nat)) [1, 2, 3].length
        (pushAll (push (Env.reliable Nat)) [1, 2, 3] fresh).2).2._numElements = 0 ∧
      (popN (pop (Env.reliable Nat)) [1, 2, 3].length
        (pushAll (push (Env.reliable Nat)) [1, 2, 3] fresh).2).2._first = none :=
  ⟨⟨rfl, fun _ _ => rfl, fun _ _ => rfl⟩,
    dstack_lifo (Env.reliable Nat) (some none) fresh [1, 2, 3] rfl (fun _ _ => rfl)
      (fun _ _ => rfl)⟩

end DStack

/-! ## The empty-guard, and equality across implementations -/

section guards
variable {T : Type}

theorem callRepeatedly_fixed {σ α : Type} (m : σ → Outcome α × σ) (s : σ) (o : Outcome α)
    (h : m s = (o, s)) : ∀ n, callRepeatedly m n s = (List.replicate n o, s) := by
  intro n
  induction n with
  | zero => rfl
  | succ n ih => simp [callRepeatedly, h, ih, List.replicate_succ]

theorem SStack.pop_peek_empty_of_count (env : Env T) (s : SStack T) (h : s._numElements = 0) :
    SStack.pop env s = (.fail (.raised .Empty), s) ∧
      SStack.peek env s = (.fail (.raised .Empty), s) := by
  simp [SStack.pop, SStack.peek, SStack.assertInvariants, h]

/-- C7. Empty-guard: on every Bounded Stack with count 0 and on every Dynamic Stack
without a first node (whose assertions pass), `pop` and `peek` raise `Empty` and leave
the state as it was, so that any number of repeated calls raise `Empty` again and
again leave the state as it was; a newly constructed stack (`vs` empty) and a stack
that was filled with the elements of `vs` and drained by `|vs|` pops are in such a
state. -/
theorem empty_guard (env : Env T) (vs : List T) (n : Nat)
    (hcopy : ∀ v ∈ vs, env.copyThrows v = false) :
    (∀ t : SStack T, t._numElements = 0 →
      SStack.pop env t = (.fail (.raised .Empty), t) ∧
      SStack.peek env t = (.fail (.raised .Empty), t) ∧
      callRepeatedly (SStack.pop env) n t = (List.replicate n (.fail (.raised .Empty)), t) ∧
      callRepeatedly (SStack.peek env) n t = (List.replicate n (.fail (.raised .Empty)), t)) ∧
    (∀ t : DStack T, t.assertInvariants = true → t._first = none →
      DStack.pop env t = (.fail (.raised .Empty), t) ∧
      DStack.peek env t = (.fail (.raised .Empty), t) ∧
      callRepeatedly (DStack.pop env) n t = (List.replicate n (.fail (.raised .Empty)), t) ∧
      callRepeatedly (DStack.peek env) n t = (List.replicate n (.fail (.raised .Empty)), t)) ∧
    (∀ (c : Nat) (elements : Option (Nat → T)) (iterCell : Option Nat) (s : SStack T),
      SStack.construct c elements iterCell = .ok s → vs.length ≤ c →
      (popN (SStack.pop env) vs.length (pushAll (SStack.push env) vs s).2).2._numElements
        = 0) ∧
    (∀ (iterCell : Option (Option Nat)) (s : DStack T),
      DStack.construct iterCell = .ok s →
      (∀ i, i < vs.length → env.newNode i = .storage) →
      (popN (DStack.pop env) vs.length
        (pushAll (DStack.push env) vs s).2).2.assertInvariants = true ∧
      (popN (DStack.pop env) vs.length (pushAll (DStack.push env) vs s).2).2._first = none) := by
  refine ⟨?_, ?_, ?_, ?_⟩
  · intro t hz
    obtain ⟨p1, p2⟩ := SStack.pop_peek_empty_of_count env t hz
    exact ⟨p1, p2, callRepeatedly_fixed _ t _ p1 n, callRepeatedly_fixed _ t _ p2 n⟩
  · intro t hinv hfirst
    have p1 : DStack.pop env t = (.fail (.raised .Empty), t) := by
      simp [DStack.pop, hinv, hfirst]
    have p2 : DStack.peek env t = (.fail (.raised .Empty), t) := by
      simp [DStack.peek, hinv, hfirst]
    exact ⟨p1, p2, callRepeatedly_fixed _ t _ p1 n, callRepeatedly_fixed _ t _ p2 n⟩
  · intro c elements iterCell s hnew hlen
    have hs := SStack.construct_eq c elements iterCell s hnew
    obtain ⟨s', h1, h2, h3, -, h5⟩ := SStack.pushAll_spec env vs s (by omega) hcopy
    have hcells : cellsDown s'._elements s'._numElements = vs.reverse := by
      rw [h5, hs.1]; simp [cellsDown]
    have hpop := SStack.popN_spec env vs.length s' (by omega) (by omega)
      (by rw [hcells]; intro v hv; exact hcopy v (List.mem_reverse.mp hv))
    rw [h1]
    simp only [hpop]
    omega
  · intro iterCell s hnew halloc
    obtain ⟨h0, hz⟩ := DStack.construct_holds iterCell s hnew
    obtain ⟨s', nodes', h1, h2, h3⟩ := DStack.dpushAll_spec env vs s [] h0 hcopy
      (fun i hi => by rw [hz, Nat.zero_add]; exact halloc i hi)
    simp only [List.map_nil, List.append_nil] at h3
    have hlen : nodes'.length = vs.length := by
      have := congrArg List.length h3
      simpa using this
    obtain ⟨s'', h4, h5⟩ := DStack.dpopN_spec env vs.length s' nodes' h2 (by omega)
      (by rw [h3]; intro v hv; exact hcopy v (List.mem_reverse.mp hv))
    rw [List.drop_of_length_le (by omega)] at h5
    rw [h1]
    simp only [h4]
    exact ⟨DLinearStructure.Holds.assertInvariants_eq s'' [] h5, h5.chain⟩

/-- The empty-guard after the elements 1, 2 have been pushed and popped again, for
three repeated calls. -/
theorem empty_guard_witness :
    (∀ v ∈ [1, 2], (Env.reliable Nat).copyThrows v = false) ∧
    (SStack.construct 2 (some fun _ => (0 : Nat)) (some 0) = .ok (SStack.fresh 2) ∧
      [1, 2].length ≤ 2 ∧
      callRepeatedly (SStack.pop (Env.reliable Nat)) 3
          (popN (SStack.pop (Env.reliable Nat)) [1, 2].length (SStack.built 2 [1, 2])).2 =
        (List.replicate 3 (.fail (.raised .Empty)),
          (popN (SStack.pop (Env.reliable Nat)) [1, 2].length (SStack.built 2 [1, 2])).2)) ∧
    ((DStack.construct (some none) : Outcome (DStack Nat)) = .ok DStack.fresh ∧
      (∀ i, i < [1, 2].length → (Env.reliable Nat).newNode i = .storage) ∧
      callRepeatedly (DStack.peek (Env.reliable Nat)) 3
          (popN (DStack.pop (Env.reliable Nat)) [1, 2].length (DStack.built [1, 2])).2 =
        (List.replicate 3 (.fail (.raised .Empty)),
          (popN (DStack.pop (Env.reliable Nat)) [1, 2].length (DStack.built [1, 2])).2)) :=
  have h := empty_guard (Env.reliable Nat) [1, 2] 3 (fun _ _ => rfl)
  have hs := h.2.2.1 2 (some fun _ => 0) (some 0) (SStack.fresh 2) rfl (by decide)
  have hd := h.2.2.2 (some none) DStack.fresh rfl (fun _ _ => rfl)
  ⟨fun _ _ => rfl, ⟨rfl, by decide, (h.1 _ hs).2.2.1⟩,
    ⟨rfl, fun _ _ => rfl, (h.2.1 _ hd.1 hd.2).2.2.2⟩⟩

end guards

section cross
variable {T : Type}

theorem SStack.spushed_isCollection (env : Env T) (c : Nat) (elements : Option (Nat → T))
    (iterCell : Option Nat) (s : SStack T) (vs : List T)
    (hnew : SStack.construct c elements iterCell = .ok s) (hlen : vs.length ≤ c)
    (hcopy : ∀ v ∈ vs, env.copyThrows v = false) :
    IsCollection SStack.asDataStructure (pushAll (SStack.push env) vs s).2 vs.reverse := by
  have hs := SStack.construct_eq c elements iterCell s hnew
  obtain ⟨s', h1, h2, h3, -, h5⟩ := SStack.pushAll_spec env vs s (by omega) hcopy
  rw [h1]
  refine (SStack.isCollection_iff s' _).2 ⟨?_, ?_⟩
  · simp only [SStack.assertInvariants, decide_eq_true_eq]; omega
  · rw [h5, hs.1]; simp [cellsDown]

theorem DStack.dpushed_isCollection (env : Env T) (iterCell : Option (Option Nat))
    (s : DStack T) (vs : List T) (hnew : DStack.construct iterCell = .ok s)
    (hcopy : ∀ v ∈ vs, env.copyThrows v = false)
    (halloc : ∀ i, i < vs.length → env.newNode i = .storage) :
    IsCollection DLinearStructure.asDataStructure (pushAll (DStack.push env) vs s).2
      vs.reverse := by
  obtain ⟨h0, hz⟩ := DStack.construct_holds iterCell s hnew
  obtain ⟨s', nodes', h1, h2, h3⟩ := DStack.dpushAll_spec env vs s [] h0 hcopy
    (fun i hi => by rw [hz, Nat.zero_add]; exact halloc i hi)
  simp only [List.map_nil, List.append_nil] at h3
  rw [h1, ← h3]
  exact DLinearStructure.Holds.isCollection s' nodes' h2

theorem forall₂_refl_of (eqv : T → T → Bool) (hrefl : ∀ x, eqv x x = true) (xs : List T) :
    List.Forall₂ (fun x y => eqv x y = true) xs xs := by
  induction xs with
  | nil => exact List.Forall₂.nil
  | cons x xs ih => exact List.Forall₂.cons (hrefl x) ih

/-- Two collections with the same iteration sequence compare equal. -/
theorem operatorEq_same {σ₁ σ₂ : Type} (L : DataStructure T σ₁) (R : DataStructure T σ₂)
    (eqv : T → T → Bool) (hrefl : ∀ x, eqv x x = true) (a : σ₁) (b : σ₂) (xs : List T)
    (fuel : Nat) (ha : IsCollection L a xs) (hb : IsCollection R b xs)
    (hf : xs.length < fuel) :
    (operatorEq L R (fun x y => .ok (eqv x y)) fuel a b).1 = .ok true := by
  obtain ⟨res, h1, h2⟩ := operatorEq_spec L R eqv a b xs xs fuel ha hb hf
  have : res = true := h2.2 ⟨by rw [ha.count, hb.count], forall₂_refl_of eqv hrefl xs⟩
  rw [h1, this]

/-- Two collections with different numbers of elements compare unequal. -/
theorem operatorEq_shorter {σ₁ σ₂ : Type} (L : DataStructure T σ₁) (R : DataStructure T σ₂)
    (eq : T → T → Outcome Bool) (a : σ₁) (b : σ₂) (xs ys : List T) (fuel : Nat)
    (ha : IsCollection L a xs) (hb : IsCollection R b ys) (hne : xs.length ≠ ys.length) :
    (operatorEq L R eq fuel a b).1 = .ok false := by
  rw [operatorEq_of_count_ne L R eq fuel a b ha.inv hb.inv (by rw [ha.count, hb.count]; exact hne)]

/-- C5. Cross-implementation equality: a Bounded Stack of capacity `c` and a Dynamic
Stack that were each built from a newly constructed stack by pushing the elements of
`vs` in the same order compare equal under the generic `operator==`, in either order
of the operands; and a Bounded Stack or a Dynamic Stack built by pushing a strictly
shorter list `ws` compares unequal to both.  (The equality of the elements is assumed
reflexive, the copies not to throw and the allocations to yield storage.) -/
theorem cross_equality (env : Env T) (eqv : T → T → Bool) (hrefl : ∀ x, eqv x x = true)
    (c : Nat) (elements : Option (Nat → T)) (iterCell : Option Nat) (s₀ : SStack T)
    (iterCell' : Option (Option Nat)) (d₀ : DStack T) (vs ws : List T) (fuel : Nat)
    (hS : SStack.construct c elements iterCell = .ok s₀)
    (hD : DStack.construct iterCell' = .ok d₀)
    (hlen : vs.length ≤ c) (hshort : ws.length < vs.length)
    (hcopy : ∀ v ∈ vs ++ ws, env.copyThrows v = false)
    (halloc : ∀ i, i < vs.length → env.newNode i = .storage)
    (hf : vs.length < fuel) (b : SStack T) (d u : DStack T) (t : SStack T)
    (hb : b = (pushAll (SStack.push env) vs s₀).2)
    (hd : d = (pushAll (DStack.push env) vs d₀).2)
    (ht : t = (pushAll (SStack.push env) ws s₀).2)
    (hu : u = (pushAll (DStack.push env) ws d₀).2) :
    ((operatorEq SStack.asDataStructure DLinearStructure.asDataStructure
        (fun x y => .ok (eqv x y)) fuel b d).1 = .ok true ∧
      (operatorEq DLinearStructure.asDataStructure SStack.asDataStructure
        (fun x y => .ok (eqv x y)) fuel d b).1 = .ok true) ∧
    ((operatorEq SStack.asDataStructure SStack.asDataStructure
        (fun x y => .ok (eqv x y)) fuel t b).1 = .ok false ∧
      (operatorEq SStack.asDataStructure DLinearStructure.asDataStructure
        (fun x y => .ok (eqv x y)) fuel t d).1 = .ok false ∧
      (operatorEq SStack.asDataStructure SStack.asDataStructure
        (fun x y => .ok (eqv x y)) fuel b t).1 = .ok false ∧
      (operatorEq DLinearStructure.asDataStructure SStack.asDataStructure
        (fun x y => .ok (eqv x y)) fuel d t).1 = .ok false) ∧
    ((operatorEq DLinearStructure.asDataStructure SStack.asDataStructure
        (fun x y => .ok (eqv x y)) fuel u b).1 = .ok false ∧
      (operatorEq DLinearStructure.asDataStructure DLinearStructure.asDataStructure
        (fun x y => .ok (eqv x y)) fuel u d).1 = .ok false ∧
      (operatorEq SStack.asDataStructure DLinearStructure.asDataStructure
        (fun x y => .ok (eqv x y)) fuel b u).1 = .ok false ∧
      (operatorEq DLinearStructure.asDataStructure DLinearStructure.asDataStructure
        (fun x y => .ok (eqv x y)) fuel d u).1 = .ok false) := by
  have hcv : ∀ v ∈ vs, env.copyThrows v = false := fun v hv =>
    hcopy v (List.mem_append_left _ hv)
  have hcw : ∀ v ∈ ws, env.copyThrows v = false := fun v hv =>
    hcopy v (List.mem_append_right _ hv)
  have cb := SStack.spushed_isCollection env c elements iterCell s₀ vs hS hlen hcv
  have cd := DStack.dpushed_isCollection env iterCell' d₀ vs hD hcv halloc
  have ct := SStack.spushed_isCollection env c elements iterCell s₀ ws hS (by omega) hcw
  have cu := DStack.dpushed_isCollection env iterCell' d₀ ws hD hcw
    (fun i hi => halloc i (by omega))
  rw [← hb] at cb
  rw [← hd] at cd
  rw [← ht] at ct
  rw [← hu] at cu
  have hvl : vs.reverse.length < fuel := by simpa using hf
  have hne : ws.reverse.length ≠ vs.reverse.length := by simp; omega
  exact ⟨⟨operatorEq_same _ _ eqv hrefl b d _ fuel cb cd hvl,
      operatorEq_same _ _ eqv hrefl d b _ fuel cd cb hvl⟩,
    ⟨operatorEq_shorter _ _ _ t b _ _ fuel ct cb hne,
      operatorEq_shorter _ _ _ t d _ _ fuel ct cd hne,
      operatorEq_shorter _ _ _ b t _ _ fuel cb ct hne.symm,
      operatorEq_shorter _ _ _ d t _ _ fuel cd ct hne.symm⟩,
    ⟨operatorEq_shorter _ _ _ u b _ _ fuel cu cb hne,
      operatorEq_shorter _ _ _ u d _ _ fuel cu cd hne,
      operatorEq_shorter _ _ _ b u _ _ fuel cb cu hne.symm,
      operatorEq_shorter _ _ _ d u _ _ fuel cd cu hne.symm⟩⟩

/-- Cross-implementation equality on the elements 1, 2, 3 in both stacks, against
stacks that hold 1, 2. -/
theorem cross_equality_witness :
    ((∀ x : Nat, (x == x) = true) ∧
      SStack.construct 3 (some fun _ => (0 : Nat)) (some 0) = .ok (SStack.fresh 3) ∧
      (DStack.construct (some none) : Outcome (DStack Nat)) = .ok DStack.fresh ∧
      [1, 2, 3].length ≤ 3 ∧ [1, 2].length < [1, 2, 3].length ∧
      (∀ v ∈ [1, 2, 3] ++ [1, 2], (Env.reliable Nat).copyThrows v = false) ∧
      (∀ i, i < [1, 2, 3].length → (Env.reliable Nat).newNode i = .storage) ∧
      [1, 2, 3].length < 4) ∧
    (operatorEq SStack.asDataStructure DLinearStructure.asDataStructure
        (fun x y => .ok (x == y)) 4 (SStack.built 3 [1, 2, 3]) (DStack.built [1, 2, 3])).1 =
      .ok true ∧
    (operatorEq SStack.asDataStructure SStack.asDataStructure
        (fun x y => .ok (x == y)) 4 (SStack.built 3 [1, 2]) (SStack.built 3 [1, 2, 3])).1 =
      .ok false ∧
    (operatorEq DLinearStructure.asDataStructure DLinearStructure.asDataStructure
        (fun x y => .ok (x == y)) 4 (DStack.built [1, 2]) (DStack.built [1, 2, 3])).1 =
      .ok false :=
  have h := cross_equality (Env.reliable Nat) (fun x y => x == y) (fun x => by simp) 3
    (some fun _ => 0) (some 0) (SStack.fresh 3) (some none) DStack.fresh [1, 2, 3] [1, 2] 4
    rfl rfl (by decide) (by decide) (fun _ _ => rfl) (fun _ _ => rfl) (by decide)
    (SStack.built 3 [1, 2, 3]) (DStack.built [1, 2, 3]) (DStack.built [1, 2])
    (SStack.built 3 [1, 2]) rfl rfl rfl rfl
  ⟨⟨fun x => by simp, rfl, rfl, by decide, by decide, fun _ _ => rfl, fun _ _ => rfl,
    by decide⟩, h.1.1, h.2.1.1, h.2.2.2.1⟩

end cross

namespace DLinearStructure

/-- Concatenation of the bounded stack with 8, 7 onto the dynamic stack with 2, 1. -/
theorem concatenate_order_witness :
    (Holds (DStack.built [1, 2]) [(1, 2), (0, 1)] ∧
      IsCollection SStack.asDataStructure (SStack.built 2 [7, 8]) [8, 7] ∧
      [8, 7].length < 3) ∧
    (concatenate (Env.reliable Nat) SStack.asDataStructure 3 (DStack.built [1, 2])
      (SStack.built 2 [7, 8])).1 = .ok () ∧
    IsCollection asDataStructure
      (concatenate (Env.reliable Nat) SStack.asDataStructure 3 (DStack.built [1, 2])
        (SStack.built 2 [7, 8])).2.1 ([2, 1] ++ [8, 7]) :=
  have hr : Holds (DStack.built [1, 2]) [(1, 2), (0, 1)] :=
    ⟨⟨rfl, rfl, rfl, rfl, rfl⟩, by decide, by decide, rfl, rfl⟩
  have hs : IsCollection SStack.asDataStructure (SStack.built 2 [7, 8]) [8, 7] :=
    (SStack.isCollection_iff _ _).2 ⟨by decide, by decide⟩
  have h := concatenate_order (Env.reliable Nat) SStack.asDataStructure 3
    (DStack.built [1, 2]) (SStack.built 2 [7, 8]) [(1, 2), (0, 1)] [8, 7] hr hs (by decide)
  have hok := h.2.2 (fun _ _ => rfl) (fun _ _ => rfl)
  ⟨⟨hr, hs, by decide⟩, hok, (h.2.1 hok).1⟩

end DLinearStructure

/-! ## `operator+=` of `SStack` -/

namespace SStack
variable {T : Type}

/-- C8 (as amended). Concatenation order, Bounded Stack: for a source that fits in the
remaining capacity, `operator+=` succeeds, the iteration sequence of the receiver
becomes the iteration sequence of the source followed by the iteration sequence that
the receiver had before the call (the elements of the source are placed on top, at the
start of the iteration order), and the count grows by `numElements()` of the source. -/
theorem operatorPlusEq_order {σ : Type} (env : Env T) (D : DataStructure T σ) (fuel : Nat)
    (r : SStack T) (src : σ) (xs ys : List T)
    (hr : IsCollection asDataStructure r xs) (hs : IsCollection D src ys)
    (hroom : D.numElements src ≤ r._maxElements - r._numElements)
    (hcopy : ∀ y ∈ ys, env.copyThrows y = false) (hf : ys.length < fuel) :
    (operatorPlusEq env D fuel r src).1 = .ok () ∧
      IsCollection asDataStructure (operatorPlusEq env D fuel r src).2.1 (ys ++ xs) ∧
      (operatorPlusEq env D fuel r src).2.1._numElements =
        r._numElements + D.numElements src := by
  obtain ⟨hinv, hxs⟩ := (isCollection_iff r xs).1 hr
  obtain ⟨g, h1, h2, h3⟩ := operatorPlusEq_spec env D fuel r src ys hinv hs hroom hcopy hf
  refine ⟨h1, ?_, by rw [h2, hs.count]⟩
  rw [h2, hxs, ← h3]
  apply isCollection_cells
  have hle : r._numElements ≤ r._maxElements := by simpa [assertInvariants] using hinv
  have := hs.count
  simp only [assertInvariants, decide_eq_true_eq]
  omega

/-- Concatenation of the stack with 8, 7 onto the stack with 1. -/
theorem operatorPlusEq_order_witness :
    (IsCollection asDataStructure (built 3 [1]) [1] ∧
      IsCollection asDataStructure (built 2 [7, 8]) [8, 7] ∧
      asDataStructure.numElements (built 2 [7, 8]) ≤
        (built 3 [1])._maxElements - (built 3 [1])._numElements ∧
      (∀ y ∈ [8, 7], (Env.reliable Nat).copyThrows y = false) ∧ [8, 7].length < 3) ∧
    (operatorPlusEq (Env.reliable Nat) asDataStructure 3 (built 3 [1]) (built 2 [7, 8])).1 =
      .ok () ∧
    IsCollection asDataStructure
      (operatorPlusEq (Env.reliable Nat) asDataStructure 3 (built 3 [1]) (built 2 [7, 8])).2.1
      ([8, 7] ++ [1]) :=
  have hr : IsCollection asDataStructure (built 3 [1]) [1] :=
    (isCollection_iff _ _).2 ⟨by decide, by decide⟩
  have hs : IsCollection asDataStructure (built 2 [7, 8]) [8, 7] :=
    (isCollection_iff _ _).2 ⟨by decide, by decide⟩
  have h := operatorPlusEq_order (Env.reliable Nat) asDataStructure 3 (built 3 [1])
    (built 2 [7, 8]) [1] [8, 7] hr hs (by decide) (fun _ _ => rfl) (by decide)
  ⟨⟨hr, hs, by decide, fun _ _ => rfl, by decide⟩, h.1, h.2.1⟩

/-- The claim C8 fails as it is stated: the stack that holds 1 and receives the source
with the iteration sequence 8, 7 (which fits) has the iteration sequence 8, 7, 1
afterwards, not 1, 8, 7. -/
theorem operatorPlusEq_order_counterexample :
    IsCollection asDataStructure (built 3 [1]) [1] ∧
    IsCollection asDataStructure (built 2 [7, 8]) [8, 7] ∧
    asDataStructure.numElements (built 2 [7, 8]) ≤
      (built 3 [1])._maxElements - (built 3 [1])._numElements ∧
    (operatorPlusEq (Env.reliable Nat) asDataStructure 3 (built 3 [1]) (built 2 [7, 8])).1 =
      .ok () ∧
    (forAll asDataStructure 4
      (operatorPlusEq (Env.reliable Nat) asDataStructure 3 (built 3 [1])
        (built 2 [7, 8])).2.1).2.2 = [8, 7, 1] ∧
    ¬ Iterates asDataStructure
      (operatorPlusEq (Env.reliable Nat) asDataStructure 3 (built 3 [1]) (built 2 [7, 8])).2.1
      ([1] ++ [8, 7]) := by
  refine ⟨(isCollection_iff _ _).2 ⟨by decide, by decide⟩,
    (isCollection_iff _ _).2 ⟨by decide, by decide⟩, by decide, by decide, by decide, ?_⟩
  intro h
  have h' := Iterates_unique _ _ _ _ h (iterates_cells _ (by decide))
  revert h'
  decide

/-- C10 (as amended). Concatenation overflow kind, Bounded Stack: on a stack that
satisfies its invariant and a source whose element copies do not throw, `operator+=`
fails with the error kind `OperationFailed` if and only if `numElements()` of the
source exceeds the capacity minus the count; it never fails with `Full`. -/
theorem operatorPlusEq_overflow {σ : Type} (env : Env T) (D : DataStructure T σ)
    (fuel : Nat) (r : SStack T) (src : σ) (ys : List T) (hr : r.assertInvariants = true)
    (hs : IsCollection D src ys) (hcopy : ∀ y ∈ ys, env.copyThrows y = false)
    (hf : ys.length < fuel) :
    ((operatorPlusEq env D fuel r src).1 = .fail (.raised .OperationFailed) ↔
      D.numElements src > r._maxElements - r._numElements) ∧
    (operatorPlusEq env D fuel r src).1 ≠ .fail (.raised .Full) := by
  refine ⟨?_, operatorPlusEq_never_Full env D fuel r src⟩
  constructor
  · intro h
    by_contra hle
    obtain ⟨g, h1, -, -⟩ := operatorPlusEq_spec env D fuel r src ys hr hs (by omega) hcopy hf
    rw [h1] at h
    simp at h
  · intro h
    simp [operatorPlusEq, hr, h]

/-- The overflow of a stack with one free slot by a source of two elements. -/
theorem operatorPlusEq_overflow_witness :
    ((built 3 [1, 2]).assertInvariants = true ∧
      IsCollection asDataStructure (built 2 [7, 8]) [8, 7] ∧
      (∀ y ∈ [8, 7], (Env.reliable Nat).copyThrows y = false) ∧ [8, 7].length < 3) ∧
    (operatorPlusEq (Env.reliable Nat) asDataStructure 3 (built 3 [1, 2]) (built 2 [7, 8])).1 =
      .fail (.raised .OperationFailed) :=
  have hs : IsCollection asDataStructure (built 2 [7, 8]) [8, 7] :=
    (isCollection_iff _ _).2 ⟨by decide, by decide⟩
  ⟨⟨by decide, hs, fun _ _ => rfl, by decide⟩,
    (operatorPlusEq_overflow (Env.reliable Nat) asDataStructure 3 (built 3 [1, 2])
      (built 2 [7, 8]) [8, 7] (by decide) hs (fun _ _ => rfl) (by decide)).1.2 (by decide)⟩

/-- The claim C10 fails as it is stated: a source of two elements on a stack with one
free slot makes `operator+=` raise `OperationFailed`, not `Full`. -/
theorem operatorPlusEq_overflow_counterexample :
    asDataStructure.numElements (built 2 [7, 8]) >
      (built 3 [1, 2])._maxElements - (built 3 [1, 2])._numElements ∧
    (operatorPlusEq (Env.reliable Nat) asDataStructure 3 (built 3 [1, 2]) (built 2 [7, 8])).1 =
      .fail (.raised .OperationFailed) ∧
    (operatorPlusEq (Env.reliable Nat) asDataStructure 3 (built 3 [1, 2]) (built 2 [7, 8])).1 ≠
      .fail (.raised .Full) := by
  decide

end SStack

/-! ## The two stacks of an `SStackPair` -/

namespace SStackPair
variable {T : Type}

theorem cellsUp_congr (f g : Nat → T) (k : Nat) :
    ∀ lo, (∀ i, lo ≤ i → i < lo + k → f i = g i) → cellsUp f lo k = cellsUp g lo k := by
  induction k with
  | zero => intro lo _; rfl
  | succ k ih =>
    intro lo h
    simp only [cellsUp]
    rw [h lo (le_refl _) (by omega), ih (lo + 1) (fun i h1 h2 => h i (by omega) (by omega))]

theorem cellsUp_length (f : Nat → T) (k : Nat) : ∀ lo, (cellsUp f lo k).length = k := by
  induction k with
  | zero => intro lo; rfl
  | succ k ih => intro lo; simp [cellsUp, ih]

theorem select_ok (s : SStackPair T) (n : Nat) (hinv : s.checkInvariants = true)
    (hn : n = 0 ∨ n = 1) :
    s.select n = (.ok (), { s with _selectedStack := n }) := by
  have h' : ({ s with _selectedStack := n } : SStackPair T).checkInvariants = true := by
    simp only [checkInvariants, Bool.and_eq_true, decide_eq_true_eq] at hinv ⊢
    exact ⟨hinv.1, hn⟩
  have hsel : s._selectedStack = 0 ∨ s._selectedStack = 1 := by
    simp only [checkInvariants, Bool.and_eq_true, decide_eq_true_eq] at hinv
    exact hinv.2
  have hns : ¬ (s._selectedStack ≠ 0 ∧ s._selectedStack ≠ 1) := by omega
  simp [select, hinv, hns, h']

theorem checkInvariants_iff (s : SStackPair T) :
    s.checkInvariants = true ↔
      s._numElements < s._top1 ∧ s._top1 ≤ s._maxElements ∧
        (s._selectedStack = 0 ∨ s._selectedStack = 1) := by
  simp only [checkInvariants, SStack.assertInvariants, Bool.and_eq_true, decide_eq_true_eq]
  constructor
  · rintro ⟨⟨⟨-, h2⟩, h3⟩, h4⟩; exact ⟨h3, h2, h4⟩
  · rintro ⟨h1, h2, h3⟩; exact ⟨⟨⟨by omega, h2⟩, h1⟩, h3⟩

/-- `push` on stack #0 when a further cell is free below `_top1`. -/
theorem push0_ok (env : Env T) (s : SStackPair T) (x : T) (hinv : s.checkInvariants = true)
    (hsel : s._selectedStack = 0) (hroom : s._numElements + 1 < s._top1)
    (hc : env.copyThrows x = false) :
    s.push env x = (.ok (), { s with
      _elements := Function.update s._elements s._numElements x
      _numElements := s._numElements + 1 }) := by
  obtain ⟨h1, h2, h3⟩ := (checkInvariants_iff s).1 hinv
  have hp := SStack.push_ok env s.toSStack x (by omega) hc
  have h' : ({ s with
      _elements := Function.update s._elements s._numElements x
      _numElements := s._numElements + 1 } : SStackPair T).checkInvariants = true :=
    (checkInvariants_iff _).2 ⟨hroom, h2, h3⟩
  have hne : s._numElements ≠ s._top1 := by omega
  simp only [hsel] at h'
  simp [push, isFull, hinv, hsel, hne, hp, h']

/-- `push` on stack #1 when a further cell is free above `_top`. -/
theorem push1_ok (env : Env T) (s : SStackPair T) (x : T) (hinv : s.checkInvariants = true)
    (hsel : s._selectedStack = 1) (hroom : s._numElements + 1 < s._top1)
    (hc : env.copyThrows x = false) :
    s.push env x = (.ok (), { s with
      _elements := Function.update s._elements (s._top1 - 1) x
      _top1 := s._top1 - 1 }) := by
  obtain ⟨h1, h2, h3⟩ := (checkInvariants_iff s).1 hinv
  have h' : ({ s with
      _elements := Function.update s._elements (s._top1 - 1) x
      _top1 := s._top1 - 1 } : SStackPair T).checkInvariants = true :=
    (checkInvariants_iff _).2 ⟨by simp only; omega, by simp only; omega, h3⟩
  have hne : s._numElements ≠ s._top1 := by omega
  simp only [hsel] at h'
  simp [push, isFull, hinv, hsel, hne, hc, h']

/-- `pop` on stack #0 when it holds an element. -/
theorem pop0_ok (env : Env T) (s : SStackPair T) (hinv : s.checkInvariants = true)
    (hsel : s._selectedStack = 0) (hpos : 0 < s._numElements)
    (hc : env.copyThrows (s._elements (s._numElements - 1)) = false) :
    s.pop env = (.ok (s._elements (s._numElements - 1)),
      { s with _numElements := s._numElements - 1 }) := by
  obtain ⟨h1, h2, h3⟩ := (checkInvariants_iff s).1 hinv
  have hp := SStack.pop_ok env s.toSStack hpos (by omega) hc
  have h' : ({ s with _numElements := s._numElements - 1 } : SStackPair T).checkInvariants
      = true :=
    (checkInvariants_iff _).2 ⟨by simp only; omega, h2, h3⟩
  have hne : s._numElements ≠ 0 := by omega
  have hsi : s.toSStack.assertInvariants = true := by
    simp only [SStack.assertInvariants, decide_eq_true_eq]; omega
  simp only [hsel] at h'
  simp [pop, isEmpty, SStack.isEmpty, hinv, hsel, hne, hp, h', hsi]

/-- `pop` on stack #1 when it holds an element. -/
theorem pop1_ok (env : Env T) (s : SStackPair T) (hinv : s.checkInvariants = true)
    (hsel : s._selectedStack = 1) (hpos : s._top1 < s._maxElements)
    (hc : env.copyThrows (s._elements s._top1) = false) :
    s.pop env = (.ok (s._elements s._top1), { s with _top1 := s._top1 + 1 }) := by
  obtain ⟨h1, h2, h3⟩ := (checkInvariants_iff s).1 hinv
  have h' : ({ s with _top1 := s._top1 + 1 } : SStackPair T).checkInvariants = true :=
    (checkInvariants_iff _).2 ⟨by simp only; omega, by simp only; omega, h3⟩
  have hne : s._top1 ≠ s._maxElements := by omega
  simp only [hsel] at h'
  simp [pop, isEmpty, hinv, hsel, hne, hc, h']


theorem cellsUp_update_lt (f : Nat → T) (j lo k : Nat) (x : T) (h : j < lo) :
    cellsUp (Function.update f j x) lo k = cellsUp f lo k := by
  apply cellsUp_congr
  intro i hi _
  exact Function.update_noteq (by omega) _ _

/-- A sequence of `select` and `push` calls that leaves a free cell between the two
stacks: every call returns normally, and each stack has received its elements. -/
theorem runPairOps_spec (env : Env T) (ops : List (PairOp T)) :
    ∀ (s : SStackPair T) (cur : Nat), s.checkInvariants = true → s._selectedStack = cur →
      validSelections ops →
      (∀ v ∈ pushedOn 0 cur ops ++ pushedOn 1 cur ops, env.copyThrows v = false) →
      s._numElements + (pushedOn 0 cur ops).length + (pushedOn 1 cur ops).length < s._top1 →
      ∃ s' : SStackPair T, runPairOps env ops s = (.ok (), s') ∧
        s'.checkInvariants = true ∧ s'._maxElements = s._maxElements ∧
        s'._numElements = s._numElements + (pushedOn 0 cur ops).length ∧
        s'._top1 + (pushedOn 1 cur ops).length = s._top1 ∧
        cellsDown s'._elements s'._numElements =
          (pushedOn 0 cur ops).reverse ++ cellsDown s._elements s._numElements ∧
        cellsUp s'._elements s'._top1 (s'._maxElements - s'._top1) =
          (pushedOn 1 cur ops).reverse ++
            cellsUp s._elements s._top1 (s._maxElements - s._top1) := by
  induction ops with
  | nil =>
    intro s cur hinv _ _ _ _
    exact ⟨s, rfl, hinv, rfl, by simp [pushedOn], by simp [pushedOn], by simp [pushedOn],
      by simp [pushedOn]⟩
  | cons op ops ih =>
    intro s cur hinv hcur hval hcopy hroom
    obtain ⟨i1, i2, i3⟩ := (checkInvariants_iff s).1 hinv
    cases op with
    | select n =>
      simp only [validSelections] at hval
      simp only [pushedOn] at hcopy hroom ⊢
      have hs := select_ok s n hinv hval.1
      have hinv' : ({ s with _selectedStack := n } : SStackPair T).checkInvariants = true :=
        (checkInvariants_iff _).2 ⟨i1, i2, hval.1⟩
      obtain ⟨s', h1, h2, h3, h4, h5, h6, h7⟩ :=
        ih { s with _selectedStack := n } n hinv' rfl hval.2 hcopy hroom
      exact ⟨s', by simp only [runPairOps, hs]; exact h1, h2, h3, h4, h5, h6, h7⟩
    | push x =>
      simp only [validSelections] at hval
      rw [hcur] at i3
      rcases i3 with h0 | h1
      · subst h0
        have e0 : pushedOn 0 0 (PairOp.push x :: ops) = x :: pushedOn 0 0 ops := by
          simp [pushedOn]
        have e1 : pushedOn 1 0 (PairOp.push x :: ops) = pushedOn 1 0 ops := by
          simp [pushedOn]
        rw [e0, e1] at hcopy hroom ⊢
        simp only [List.length_cons] at hroom
        have hp := push0_ok env s x hinv hcur (by omega) (hcopy x (by simp))
        have hinv' : ({ s with
            _elements := Function.update s._elements s._numElements x
            _numElements := s._numElements + 1 } : SStackPair T).checkInvariants = true :=
          (checkInvariants_iff _).2 ⟨by simp only; omega, i2, Or.inl hcur⟩
        obtain ⟨s', h1, h2, h3, h4, h5, h6, h7⟩ := ih _ 0 hinv' hcur hval
          (fun v hv => hcopy v (by
            simp only [List.cons_append, List.mem_cons]; exact Or.inr hv))
          (by simp only; omega)
        simp only at h3 h4 h5 h6 h7
        refine ⟨s', by simp only [runPairOps, hp]; exact h1, h2, h3, ?_, h5, ?_, ?_⟩
        · simp only [List.length_cons]; omega
        · rw [h6]
          simp only [cellsDown, Function.update_same, List.reverse_cons, List.append_assoc,
            List.singleton_append]
          rw [SStack.cellsDown_update_ge _ _ _ _ (le_refl _)]
        · rw [h7, cellsUp_update_lt _ _ _ _ _ i1]
      · have hcur1 : s._selectedStack = 1 := by rw [hcur]; exact h1
        subst h1
        have e0 : pushedOn 0 1 (PairOp.push x :: ops) = pushedOn 0 1 ops := by
          simp [pushedOn]
        have e1 : pushedOn 1 1 (PairOp.push x :: ops) = x :: pushedOn 1 1 ops := by
          simp [pushedOn]
        rw [e0, e1] at hcopy hroom ⊢
        simp only [List.length_cons] at hroom
        have hp := push1_ok env s x hinv hcur1 (by omega) (hcopy x (by simp))
        have hinv' : ({ s with
            _elements := Function.update s._elements (s._top1 - 1) x
            _top1 := s._top1 - 1 } : SStackPair T).checkInvariants = true :=
          (checkInvariants_iff _).2 ⟨by simp only; omega, by simp only; omega, Or.inr hcur1⟩
        obtain ⟨s', h1, h2, h3, h4, h5, h6, h7⟩ := ih _ 1 hinv' hcur1 hval
          (fun v hv => hcopy v (by
            simp only [List.mem_append, List.mem_cons] at hv ⊢
            rcases hv with hv | hv
            · exact Or.inl hv
            · exact Or.inr (Or.inr hv)))
          (by simp only; omega)
        simp only at h3 h4 h5 h6 h7
        refine ⟨s', by simp only [runPairOps, hp]; exact h1, h2, h3, h4, ?_, ?_, ?_⟩
        · simp only [List.length_cons]; omega
        · rw [h6, SStack.cellsDown_update_ge _ _ _ _ (by omega)]
        · rw [h7]
          obtain ⟨k, hk⟩ : ∃ k, s._top1 = k + 1 := ⟨s._top1 - 1, by omega⟩
          have hsub : s._maxElements - (s._top1 - 1) = (s._maxElements - s._top1) + 1 := by
            omega
          rw [hsub]
          simp only [cellsUp, Function.update_same, List.reverse_cons, List.append_assoc,
            List.singleton_append]
          have hk' : s._top1 - 1 + 1 = s._top1 := by omega
          rw [hk', cellsUp_update_lt _ _ _ _ _ (by omega)]

/-- Popping `k` elements off stack #0. -/
theorem popN0_spec (env : Env T) (k : Nat) :
    ∀ s : SStackPair T, s.checkInvariants = true → s._selectedStack = 0 →
      k ≤ s._numElements →
      (∀ v ∈ cellsDown s._elements s._numElements, env.copyThrows v = false) →
      popN (pop env) k s =
        (.ok ((cellsDown s._elements s._numElements).take k),
          { s with _numElements := s._numElements - k }) := by
  induction k with
  | zero => intro s _ _ _ _; simp [popN]
  | succ k ih =>
    intro s hinv hsel hk hc
    obtain ⟨i1, i2, i3⟩ := (checkInvariants_iff s).1 hinv
    obtain ⟨n, hn⟩ : ∃ n, s._numElements = n + 1 := ⟨s._numElements - 1, by omega⟩
    have hc' := hc
    rw [hn] at hc'
    simp only [cellsDown, List.mem_cons, forall_eq_or_imp] at hc'
    have hpop := pop0_ok env s hinv hsel (by omega) (by rw [hn]; exact hc'.1)
    rw [hn] at hpop
    simp only [Nat.add_sub_cancel] at hpop
    have hinv' : ({ s with _numElements := n } : SStackPair T).checkInvariants = true :=
      (checkInvariants_iff _).2 ⟨by simp only; omega, i2, i3⟩
    have := ih { s with _numElements := n } hinv' hsel (by simp only; omega)
      (by simpa using hc'.2)
    simp only [popN, Stack.shiftOut, Outcome.throwSpec, hpop, this, hn, cellsDown,
      List.take_succ_cons]
    congr 3
    omega

/-- Popping `k` elements off stack #1. -/
theorem popN1_spec (env : Env T) (k : Nat) :
    ∀ s : SStackPair T, s.checkInvariants = true → s._selectedStack = 1 →
      k ≤ s._maxElements - s._top1 →
      (∀ v ∈ cellsUp s._elements s._top1 (s._maxElements - s._top1),
        env.copyThrows v = false) →
      popN (pop env) k s =
        (.ok ((cellsUp s._elements s._top1 (s._maxElements - s._top1)).take k),
          { s with _top1 := s._top1 + k }) := by
  induction k with
  | zero => intro s _ _ _ _; simp [popN]
  | succ k ih =>
    intro s hinv hsel hk hc
    obtain ⟨i1, i2, i3⟩ := (checkInvariants_iff s).1 hinv
    obtain ⟨n, hn⟩ : ∃ n, s._maxElements - s._top1 = n + 1 :=
      ⟨s._maxElements - s._top1 - 1, by omega⟩
    have hc' := hc
    rw [hn] at hc'
    simp only [cellsUp, List.mem_cons, forall_eq_or_imp] at hc'
    have hpop := pop1_ok env s hinv hsel (by omega) hc'.1
    have hinv' : ({ s with _top1 := s._top1 + 1 } : SStackPair T).checkInvariants = true :=
      (checkInvariants_iff _).2 ⟨by simp only; omega, by simp only; omega, i3⟩
    have hn' : s._maxElements - (s._top1 + 1) = n := by omega
    have := ih { s with _top1 := s._top1 + 1 } hinv' hsel (by simp only; omega)
      (by simp only [hn']; exact hc'.2)
    simp only [hn'] at this
    simp only [popN, Stack.shiftOut, Outcome.throwSpec, hpop, this, hn, cellsUp,
      List.take_succ_cons]
    congr 2
    rw [Nat.add_assoc, Nat.add_comm 1 k]


theorem pair_construct_eq (c : Nat) (elements : Option (Nat → T)) (iterCell : Option Nat)
    (s : SStackPair T) (hnew : construct c elements iterCell = .ok s) :
    s.checkInvariants = true ∧ s._numElements = 0 ∧ s._maxElements = c ∧ s._top1 = c ∧
      s._selectedStack = 0 := by
  unfold construct at hnew
  rcases hb : SStack.construct c elements iterCell with b | f
  · have hbe := SStack.construct_eq c elements iterCell b hb
    rw [hb] at hnew
    simp only at hnew
    split at hnew
    · simp at hnew
    · rename_i hchk
      simp only [Outcome.ok.injEq] at hnew
      subst hnew
      exact ⟨by simpa using hchk, hbe.1, hbe.2, rfl, rfl⟩
  · rw [hb] at hnew
    simp at hnew

/-- The LIFO law of the dual stack while a cell stays free between the two stacks: on
a newly constructed `SStackPair` of capacity `c`, every interleaving of `select` and
`push` calls that pushes the list `a`
onto stack 0 and the list `b` onto stack 1 with `|a| + |b| < c` runs without a fault;
then selecting stack 0 and popping `|a|` times yields `a` reversed, and selecting
stack 1 and popping `|b|` times yields `b` reversed, both after the pops of stack 0
and directly after the pushes. -/
theorem sstackpair_lifo (env : Env T) (c : Nat) (elements : Option (Nat → T))
    (iterCell : Option Nat) (s : SStackPair T) (ops : List (PairOp T)) (a b : List T)
    (hnew : construct c elements iterCell = .ok s) (hval : validSelections ops)
    (ha : a = pushedOn 0 0 ops) (hb : b = pushedOn 1 0 ops)
    (hlen : a.length + b.length < c) (hcopy : ∀ v ∈ a ++ b, env.copyThrows v = false)
    (s₁ s₂ : SStackPair T) (h₁ : s₁ = (runPairOps env ops s).2)
    (h₂ : s₂ = (popN (pop env) a.length (select s₁ 0).2).2) :
    (runPairOps env ops s).1 = .ok () ∧
      (select s₁ 0).1 = .ok () ∧
      (popN (pop env) a.length (select s₁ 0).2).1 = .ok a.reverse ∧
      (select s₂ 1).1 = .ok () ∧
      (popN (pop env) b.length (select s₂ 1).2).1 = .ok b.reverse ∧
      (select s₁ 1).1 = .ok () ∧
      (popN (pop env) b.length (select s₁ 1).2).1 = .ok b.reverse := by
  obtain ⟨c1, c2, c3, c4, c5⟩ := pair_construct_eq c elements iterCell s hnew
  subst ha hb
  obtain ⟨s', r1, r2, r3, r4, r5, r6, r7⟩ := runPairOps_spec env ops s 0 c1 c5 hval hcopy
    (by omega)
  rw [r1] at h₁
  simp only at h₁
  subst h₁
  rw [c2] at r4 r6
  rw [c4, c3, Nat.sub_self] at r7
  simp only [cellsDown, cellsUp, List.append_nil, Nat.zero_add] at r4 r6 r7
  obtain ⟨i1, i2, i3⟩ := (checkInvariants_iff s₁).1 r2
  have hca : ∀ v ∈ (pushedOn 0 0 ops).reverse, env.copyThrows v = false := fun v hv =>
    hcopy v (List.mem_append_left _ (List.mem_reverse.mp hv))
  have hcb : ∀ v ∈ (pushedOn 1 0 ops).reverse, env.copyThrows v = false := fun v hv =>
    hcopy v (List.mem_append_right _ (List.mem_reverse.mp hv))
  -- stack 0
  have sel0 := select_ok s₁ 0 r2 (Or.inl rfl)
  have inv0 : ({ s₁ with _selectedStack := 0 } : SStackPair T).checkInvariants = true :=
    (checkInvariants_iff _).2 ⟨i1, i2, Or.inl rfl⟩
  have pop0 := popN0_spec env (pushedOn 0 0 ops).length { s₁ with _selectedStack := 0 } inv0
    rfl (by simp only; omega) (by simp only; rw [r6]; exact hca)
  simp only [r6] at pop0
  rw [List.take_of_length_le (by simp)] at pop0
  rw [sel0] at h₂
  simp only [pop0] at h₂
  -- stack 1 after stack 0
  have inv2 : s₂.checkInvariants = true := by
    rw [h₂]; exact (checkInvariants_iff _).2 ⟨by simp only; omega, i2, Or.inl rfl⟩
  have sel1 := select_ok s₂ 1 inv2 (Or.inr rfl)
  have inv2' : ({ s₂ with _selectedStack := 1 } : SStackPair T).checkInvariants = true := by
    rw [h₂]; exact (checkInvariants_iff _).2 ⟨by simp only; omega, i2, Or.inr rfl⟩
  have hk : (pushedOn 1 0 ops).length = s₁._maxElements - s₁._top1 := by
    rw [r3, c3]; omega
  have pop1 := popN1_spec env (pushedOn 1 0 ops).length { s₂ with _selectedStack := 1 } inv2'
    rfl (by rw [h₂]; simp only; omega) (by rw [h₂]; simp only; rw [r7]; exact hcb)
  have e2 : cellsUp s₂._elements s₂._top1 (s₂._maxElements - s₂._top1) =
      (pushedOn 1 0 ops).reverse := by
    rw [h₂]; exact r7
  simp only [e2] at pop1
  rw [List.take_of_length_le (by simp)] at pop1
  -- stack 1 directly
  have sel1' := select_ok s₁ 1 r2 (Or.inr rfl)
  have inv1 : ({ s₁ with _selectedStack := 1 } : SStackPair T).checkInvariants = true :=
    (checkInvariants_iff _).2 ⟨i1, i2, Or.inr rfl⟩
  have pop1' := popN1_spec env (pushedOn 1 0 ops).length { s₁ with _selectedStack := 1 } inv1
    rfl (by simp only; omega) (by simp only; rw [r7]; exact hcb)
  simp only [r7] at pop1'
  rw [List.take_of_length_le (by simp)] at pop1'
  refine ⟨by rw [r1], by rw [sel0], by rw [sel0, pop0], by rw [sel1], by rw [sel1, pop1],
    by rw [sel1'], by rw [sel1', pop1']⟩

/-- The LIFO law of the dual stack of capacity 5 for the interleaving that pushes 1, 2
onto stack 0 and 10, 20 onto stack 1. -/
theorem sstackpair_lifo_witness :
    ((construct 5 (some fun _ => (0 : Nat)) (some 0) = .ok (fresh 5)) ∧
      validSelections [PairOp.push 1, .select 1, .push 10, .select 0, .push 2, .select 1,
        .push 20] ∧
      [1, 2] = pushedOn 0 0 [PairOp.push 1, .select 1, .push 10, .select 0, .push 2,
        .select 1, .push 20] ∧
      [10, 20] = pushedOn 1 0 [PairOp.push 1, .select 1, .push 10, .select 0, .push 2,
        .select 1, .push 20] ∧
      [1, 2].length + [10, 20].length < 5 ∧
      ∀ v ∈ [1, 2] ++ [10, 20], (Env.reliable Nat).copyThrows v = false) ∧
    (popN (pop (Env.reliable Nat)) [1, 2].length
      (select (runPairOps (Env.reliable Nat) [PairOp.push 1, .select 1, .push 10, .select 0,
        .push 2, .select 1, .push 20] (fresh 5)).2 0).2).1 = .ok [1, 2].reverse ∧
    (popN (pop (Env.reliable Nat)) [10, 20].length
      (select (runPairOps (Env.reliable Nat) [PairOp.push 1, .select 1, .push 10, .select 0,
        .push 2, .select 1, .push 20] (fresh 5)).2 1).2).1 = .ok [10, 20].reverse :=
  have hv : validSelections [PairOp.push 1, .select 1, .push 10, .select 0, .push 2,
      .select 1, .push (20 : Nat)] := by simp [validSelections]
  have h := sstackpair_lifo (Env.reliable Nat) 5 (some fun _ => 0) (some 0) (fresh 5)
    [PairOp.push 1, .select 1, .push 10, .select 0, .push 2, .select 1, .push 20]
    [1, 2] [10, 20] rfl hv rfl rfl (by decide) (fun _ _ => rfl) _ _ rfl rfl
  ⟨⟨rfl, hv, rfl, rfl, by decide, fun _ _ => rfl⟩, h.2.2.1, h.2.2.2.2.2.2⟩

/-- C3 (the code at the failing input). LIFO law, Dual Stack, at `|a| + |b| = c`: on
a new `SStackPair` of capacity 1 the single push of 7 onto stack 0 does not return: it
stops at the assertion `_top < _top1` of `checkInvariants`, which the method runs
after its assignment.  On a new pair of capacity 3 the pushes of 1, 2 onto stack 0
succeed and the push of 10 onto stack 1, the third of three, stops at the same
assertion, in the state `_top == _top1 == 2` that `isFull()` and the design note of
`sstackpair.h` describe as the full pair.  The claim says that these pushes succeed
and that the pops then return the elements of each stack in reverse order. -/
theorem sstackpair_lifo_failing_input :
    construct 1 (some fun _ => (0 : Nat)) (some 0) = .ok (fresh 1) ∧
    validSelections [PairOp.push (7 : Nat)] ∧
    pushedOn 0 0 [PairOp.push 7] = [7] ∧ pushedOn 1 0 [PairOp.push 7] = [] ∧
    [7].length + ([] : List Nat).length ≤ 1 ∧
    (push (Env.reliable Nat) (fresh 1) 7).1 = .fail .aborted ∧
    (runPairOps (Env.reliable Nat) [PairOp.push 7] (fresh 1)).1 = .fail .aborted ∧
    construct 3 (some fun _ => (0 : Nat)) (some 0) = .ok (fresh 3) ∧
    validSelections [PairOp.push (1 : Nat), .push 2, .select 1, .push 10] ∧
    pushedOn 0 0 [PairOp.push 1, .push 2, .select 1, .push 10] = [1, 2] ∧
    pushedOn 1 0 [PairOp.push 1, .push 2, .select 1, .push 10] = [10] ∧
    (runPairOps (Env.reliable Nat) [PairOp.push 1, .push 2, .select 1] (fresh 3)).1 = .ok () ∧
    (runPairOps (Env.reliable Nat) [PairOp.push 1, .push 2, .select 1, .push 10]
      (fresh 3)).1 = .fail .aborted ∧
    (runPairOps (Env.reliable Nat) [PairOp.push 1, .push 2, .select 1, .push 10]
      (fresh 3)).2._numElements = 2 ∧
    (runPairOps (Env.reliable Nat) [PairOp.push 1, .push 2, .select 1, .push 10]
      (fresh 3)).2._top1 = 2 := by
  refine ⟨rfl, by simp [validSelections], rfl, rfl, by decide, by decide, by decide, rfl,
    by simp [validSelections], rfl, rfl, by decide, by decide, by decide, by decide⟩

end SStackPair

/-! ## Failures of `operator+=` and of `concatenate` -/

namespace SStack
variable {T : Type}

/-- The copy loop of `operator+=` changes neither the count nor a cell below the
lowest index that it can reach. -/
theorem foldBody_copyDown_frame (env : Env T) (ys : List T) :
    ∀ (r : SStack T) (h : Nat),
      (foldBody (copyDown env) ys (r, h)).2.1._numElements = r._numElements ∧
      (foldBody (copyDown env) ys (r, h)).2.1._maxElements = r._maxElements ∧
      (foldBody (copyDown env) ys (r, h)).2.1._iterCurrent = r._iterCurrent ∧
      ∀ i, i + ys.length < h →
        (foldBody (copyDown env) ys (r, h)).2.1._elements i = r._elements i := by
  induction ys with
  | nil => intro r h; simp [foldBody]
  | cons y ys ih =>
    intro r h
    by_cases h0 : h = 0
    · subst h0
      simp [foldBody, copyDown]
    · by_cases hy : env.copyThrows y = true
      · simp [foldBody, copyDown, h0, hy]
      · have hy' : env.copyThrows y = false := by simpa using hy
        obtain ⟨i1, i2, i3, i4⟩ :=
          ih { r with _elements := Function.update r._elements (h - 1) y } (h - 1)
        simp only [foldBody, copyDown, h0, hy', if_false, Bool.false_eq_true]
        refine ⟨i1, i2, i3, ?_⟩
        intro i hi
        simp only [List.length_cons] at hi
        rw [i4 i (by omega)]
        exact Function.update_noteq (by omega) _ _

/-- The copy loop of `operator+=` stops with the exception of the first copy that
throws. -/
theorem foldBody_copyDown_throw (env : Env T) (pre : List T) (y : T) (post : List T) :
    ∀ (r : SStack T) (h : Nat), pre.length < h → (∀ p ∈ pre, env.copyThrows p = false) →
      env.copyThrows y = true →
      (foldBody (copyDown env) (pre ++ y :: post) (r, h)).1 = .fail (.raised .Foreign) := by
  induction pre with
  | nil =>
    intro r h hlen _ hy
    have h0 : h ≠ 0 := by simp at hlen; omega
    simp [foldBody, copyDown, h0, hy]
  | cons p pre ih =>
    intro r h hlen hp hy
    simp only [List.length_cons] at hlen
    have h0 : h ≠ 0 := by omega
    have hpp : env.copyThrows p = false := hp p (List.mem_cons_self _ _)
    simp only [List.cons_append, foldBody, copyDown, h0, hpp, if_false, Bool.false_eq_true]
    exact ih _ (h - 1) (by omega) (fun q hq => hp q (List.mem_cons_of_mem _ hq)) hy

/-- C11. Concatenation overflow atomicity, Bounded Stack: when `numElements()` of the
source exceeds the capacity minus the count, the call `r += s` fails and performs no
mutation at all: the state of `r` after the call (count, every slot, cursor) is the
state before the call, so its iteration sequence is the same, and the source is left
as it was; on a stack that satisfies its invariant the failure is the exception of
the capacity check. -/
theorem plusEq_no_mutation_on_overflow {σ : Type} (env : Env T) (D : DataStructure T σ)
    (fuel : Nat) (r : SStack T) (src : σ)
    (hover : D.numElements src > r._maxElements - r._numElements) :
    (∃ f, (operatorPlusEq env D fuel r src).1 = .fail f) ∧
      (operatorPlusEq env D fuel r src).2.1 = r ∧
      (operatorPlusEq env D fuel r src).2.2 = src ∧
      (operatorPlusEq env D fuel r src).2.1._numElements = r._numElements ∧
      (∀ i, (operatorPlusEq env D fuel r src).2.1._elements i = r._elements i) ∧
      (∀ xs, Iterates asDataStructure r xs →
        Iterates asDataStructure (operatorPlusEq env D fuel r src).2.1 xs) ∧
      (r.assertInvariants = true →
        (operatorPlusEq env D fuel r src).1 = .fail (.raised .OperationFailed)) := by
  have hst : (operatorPlusEq env D fuel r src).2.1 = r := by
    unfold operatorPlusEq
    split
    · rfl
    · simp [hover]
  refine ⟨?_, hst, ?_, by rw [hst], fun i => by rw [hst], fun xs h => by rw [hst]; exact h, ?_⟩
  · unfold operatorPlusEq
    split
    · exact ⟨_, rfl⟩
    · simp [hover]
  · unfold operatorPlusEq
    split
    · rfl
    · simp [hover]
  · intro hinv
    simp [operatorPlusEq, hinv, hover]

/-- The overflow of a stack with one free slot by a source of two elements leaves the
stack as it was. -/
theorem plusEq_no_mutation_on_overflow_witness :
    (asDataStructure.numElements (built 2 [7, 8]) >
      (built 3 [1, 2])._maxElements - (built 3 [1, 2])._numElements) ∧
    (operatorPlusEq (Env.reliable Nat) asDataStructure 3 (built 3 [1, 2])
      (built 2 [7, 8])).2.1 = built 3 [1, 2] ∧
    (operatorPlusEq (Env.reliable Nat) asDataStructure 3 (built 3 [1, 2])
      (built 2 [7, 8])).1 = .fail (.raised .OperationFailed) :=
  have h := plusEq_no_mutation_on_overflow (Env.reliable Nat) asDataStructure 3
    (built 3 [1, 2]) (built 2 [7, 8]) (by decide)
  ⟨by decide, h.2.1, h.2.2.2.2.2.2 (by decide)⟩

/-- C13. Rollback under failure, Bounded Stack: when the source fits in the remaining
capacity and the copy of its `n`-th element throws (the elements `pre` before it are
copied, `n = |pre| + 1`), `r += s` reports `OperationFailed`, the count and the
capacity of `r` are what they were, every slot below the count holds what it held,
and the iteration sequence of `r` is the one before the call. -/
theorem plusEq_copy_failure {σ : Type} (env : Env T) (D : DataStructure T σ) (fuel : Nat)
    (r : SStack T) (src : σ) (xs pre : List T) (y : T) (post : List T)
    (hr : IsCollection asDataStructure r xs)
    (hs : IsCollection D src (pre ++ y :: post))
    (hroom : D.numElements src ≤ r._maxElements - r._numElements)
    (hpre : ∀ p ∈ pre, env.copyThrows p = false) (hy : env.copyThrows y = true)
    (hf : (pre ++ y :: post).length < fuel) :
    (operatorPlusEq env D fuel r src).1 = .fail (.raised .OperationFailed) ∧
      (operatorPlusEq env D fuel r src).2.1._numElements = r._numElements ∧
      (operatorPlusEq env D fuel r src).2.1._maxElements = r._maxElements ∧
      (∀ i, i < r._numElements →
        (operatorPlusEq env D fuel r src).2.1._elements i = r._elements i) ∧
      IsCollection asDataStructure (operatorPlusEq env D fuel r src).2.1 xs := by
  obtain ⟨hinv, hxs⟩ := (isCollection_iff r xs).1 hr
  have hcount := hs.count
  have hk : (pre ++ y :: post).length = pre.length + 1 + post.length := by
    simp; omega
  have hpos : D.numElements src > 0 := by omega
  obtain ⟨l1, l2, -⟩ := forLoop_spec D (copyDown env) (pre ++ y :: post) fuel src
    (r, r._numElements + D.numElements src) hs.iter hf
  have hthrow := foldBody_copyDown_throw env pre y post r
    (r._numElements + D.numElements src) (by omega) hpre hy
  obtain ⟨f1, f2, f3, f4⟩ := foldBody_copyDown_frame env (pre ++ y :: post) r
    (r._numElements + D.numElements src)
  rw [← l1] at hthrow
  rw [← l2] at f1 f2 f3 f4
  rcases hfl : forLoop D (copyDown env) fuel src (r, r._numElements + D.numElements src)
    with ⟨o, src', r'⟩
  rw [hfl] at hthrow f1 f2 f3 f4
  simp only at hthrow f1 f2 f3 f4
  subst hthrow
  have hres : operatorPlusEq env D fuel r src =
      (.fail (.raised .OperationFailed), r'.1, src') := by
    simp [operatorPlusEq, appendBlock, hinv, not_lt.mpr hroom, hpos, hfl, Fault.catchAll]
  rw [hres]
  have hcells : ∀ i, i < r._numElements → r'.1._elements i = r._elements i :=
    fun i hi => f4 i (by omega)
  have hinv' : r'.1.assertInvariants = true := by
    simp only [assertInvariants, f1, f2] at hinv ⊢
    exact hinv
  refine ⟨rfl, f1, f2, hcells, ?_⟩
  refine (isCollection_iff _ _).2 ⟨hinv', ?_⟩
  rw [hxs, f1]
  exact (cellsDown_congr _ _ _ hcells).symm

/-- A source that iterates 8, 7 and whose second element, 7, throws when it is copied:
the stack that holds 1 reports `OperationFailed` and still holds exactly 1. -/
theorem plusEq_copy_failure_witness :
    (IsCollection asDataStructure (built 3 [1]) [1] ∧
      IsCollection asDataStructure (built 2 [7, 8]) ([8] ++ 7 :: []) ∧
      asDataStructure.numElements (built 2 [7, 8]) ≤
        (built 3 [1])._maxElements - (built 3 [1])._numElements ∧
      (∀ p ∈ [8], (Env.failingOn 7).copyThrows p = false) ∧
      (Env.failingOn 7).copyThrows 7 = true ∧ ([8] ++ 7 :: []).length < 3) ∧
    (operatorPlusEq (Env.failingOn 7) asDataStructure 3 (built 3 [1]) (built 2 [7, 8])).1 =
      .fail (.raised .OperationFailed) ∧
    IsCollection asDataStructure
      (operatorPlusEq (Env.failingOn 7) asDataStructure 3 (built 3 [1])
        (built 2 [7, 8])).2.1 [1] :=
  have hr : IsCollection asDataStructure (built 3 [1]) [1] :=
    (isCollection_iff _ _).2 ⟨by decide, by decide⟩
  have hs : IsCollection asDataStructure (built 2 [7, 8]) ([8] ++ 7 :: []) :=
    (isCollection_iff _ _).2 ⟨by decide, by decide⟩
  have h := plusEq_copy_failure (Env.failingOn 7) asDataStructure 3 (built 3 [1])
    (built 2 [7, 8]) [1] [8] 7 [] hr hs (by decide) (by decide) (by decide) (by decide)
  ⟨⟨hr, hs, by decide, by decide, by decide, by decide⟩, h.1, h.2.2.2.2⟩

end SStack

namespace DLinearStructure
variable {T : Type}

/-- The loop of `concatenate` over a source whose element `y` throws when it is
copied, after the elements `pre`: the loop stops with the exception of the copy, and
the nodes for `pre` are linked behind the chain. -/
theorem foldBody_appendNode_throw (env : Env T) (pre : List T) (y : T) (post : List T) :
    ∀ (s : DLinearStructure T) (nodes : List (Nat × T)), s.Holds nodes →
      (∀ p ∈ pre, env.copyThrows p = false) → env.copyThrows y = true →
      (∀ i, i ≤ pre.length → env.newNode (s.nextAddress + i) = .storage) →
      (foldBody (appendNode env) (pre ++ y :: post) s).1 = .fail (.raised .Foreign) ∧
      ∃ nodes' : List (Nat × T),
        (foldBody (appendNode env) (pre ++ y :: post) s).2.Holds nodes' ∧
        nodes'.map Prod.snd = nodes.map Prod.snd ++ pre := by
  induction pre with
  | nil =>
    intro s nodes h _ hy ha
    have h0 : env.newNode s.nextAddress = .storage := by simpa using ha 0 (le_refl _)
    have hstep : appendNode env s y = (.fail (.raised .Foreign), s) := by
      simp [appendNode, newNode, h0, hy]
    simp only [List.nil_append, foldBody, hstep]
    exact ⟨trivial, nodes, h, by simp⟩
  | cons p pre ih =>
    intro s nodes h hp hy ha
    obtain ⟨s', h1, h2, h3⟩ := appendNode_spec env s nodes p h (by simpa using ha 0 (by simp))
      (hp p (List.mem_cons_self _ _))
    obtain ⟨r1, nodes', r2, r3⟩ := ih s' _ h2 (fun q hq => hp q (List.mem_cons_of_mem _ hq)) hy
      (fun i hi => by
        rw [h3, Nat.add_assoc, Nat.add_comm 1 i]
        exact ha (i + 1) (by simp only [List.length_cons]; omega))
    simp only [List.cons_append, foldBody, h1]
    exact ⟨r1, nodes', r2, by simp [r3]⟩

/-- C12 (as amended). Failure without rollback, Dynamic Stack: when the copy of the
`n`-th element of the source throws during `concatenate` (the elements `pre` before it
are copied into new nodes, `n = |pre| + 1`), the call fails with the exception of the
copy, and afterwards the collection holds the elements that it held before followed
by `pre`, with the count raised by `n - 1`: the nodes already appended stay. -/
theorem concatenate_copy_failure {σ : Type} (env : Env T) (D : DataStructure T σ)
    (fuel : Nat) (r : DLinearStructure T) (src : σ) (nodes : List (Nat × T))
    (pre : List T) (y : T) (post : List T)
    (hr : r.Holds nodes) (hs : IsCollection D src (pre ++ y :: post))
    (hpre : ∀ p ∈ pre, env.copyThrows p = false) (hy : env.copyThrows y = true)
    (halloc : ∀ i, i ≤ pre.length → env.newNode (r.nextAddress + i) = .storage)
    (hf : (pre ++ y :: post).length < fuel) :
    IsCollection asDataStructure r (nodes.map Prod.snd) ∧
      (concatenate env D fuel r src).1 = .fail (.raised .Foreign) ∧
      IsCollection asDataStructure (concatenate env D fuel r src).2.1
        (nodes.map Prod.snd ++ pre) ∧
      (concatenate env D fuel r src).2.1._numElements = r._numElements + pre.length := by
  have hinv := Holds.assertInvariants_eq r nodes hr
  obtain ⟨l1, l2, -⟩ := forLoop_spec D (appendNode env) (pre ++ y :: post) fuel src r
    hs.iter hf
  obtain ⟨t1, nodes', t2, t3⟩ := foldBody_appendNode_throw env pre y post r nodes hr hpre hy
    halloc
  rw [← l1] at t1
  rw [← l2] at t2
  rcases hfl : forLoop D (appendNode env) fuel src r with ⟨o, src', r'⟩
  rw [hfl] at t1 t2
  simp only at t1 t2
  subst t1
  have hres : concatenate env D fuel r src = (.fail (.raised .Foreign), r', src') := by
    simp [concatenate, hinv, hfl]
  rw [hres]
  have hlen : nodes'.length = nodes.length + pre.length := by
    have := congrArg List.length t3
    simpa using this
  refine ⟨Holds.isCollection r nodes hr, rfl, ?_, ?_⟩
  · rw [← t3]; exact Holds.isCollection r' nodes' t2
  · show r'._numElements = r._numElements + pre.length
    rw [t2.count, hr.count, hlen]

/-- A source that iterates 8, 7 and whose second element, 7, throws when it is copied:
the dynamic stack that holds 1 holds 1, 8 after the failed call. -/
theorem concatenate_copy_failure_witness :
    (Holds (DStack.built [1]) [(0, 1)] ∧
      IsCollection SStack.asDataStructure (SStack.built 2 [7, 8]) ([8] ++ 7 :: []) ∧
      (∀ p ∈ [8], (Env.failingOn 7).copyThrows p = false) ∧
      (Env.failingOn 7).copyThrows 7 = true ∧
      (∀ i, i ≤ [8].length →
        (Env.failingOn 7).newNode ((DStack.built [1]).nextAddress + i) = .storage) ∧
      ([8] ++ 7 :: []).length < 3) ∧
    (concatenate (Env.failingOn 7) SStack.asDataStructure 3 (DStack.built [1])
      (SStack.built 2 [7, 8])).1 = .fail (.raised .Foreign) ∧
    IsCollection asDataStructure
      (concatenate (Env.failingOn 7) SStack.asDataStructure 3 (DStack.built [1])
        (SStack.built 2 [7, 8])).2.1 ([1] ++ [8]) :=
  have hr : Holds (DStack.built [1]) [(0, 1)] :=
    ⟨⟨rfl, rfl, rfl⟩, by decide, by decide, rfl, rfl⟩
  have hs : IsCollection SStack.asDataStructure (SStack.built 2 [7, 8]) ([8] ++ 7 :: []) :=
    (SStack.isCollection_iff _ _).2 ⟨by decide, by decide⟩
  have h := concatenate_copy_failure (Env.failingOn 7) SStack.asDataStructure 3
    (DStack.built [1]) (SStack.built 2 [7, 8]) [(0, 1)] [8] 7 [] hr hs (by decide)
    (by decide) (fun _ _ => rfl) (by decide)
  ⟨⟨hr, hs, by decide, by decide, fun _ _ => rfl, by decide⟩, h.2.1, h.2.2.1⟩

/-- The claim C12 fails as it is stated: the dynamic stack that holds 1 receives a
source that iterates 8, 7 and whose second element throws when it is copied; after
the failed call its count is 2 and its iteration sequence is 1, 8, not 1. -/
theorem concatenate_copy_failure_counterexample :
    IsCollection asDataStructure (DStack.built [1]) [1] ∧
    (DStack.built [1])._numElements = 1 ∧
    IsCollection SStack.asDataStructure (SStack.built 2 [7, 8]) [8, 7] ∧
    (Env.failingOn 7).copyThrows 8 = false ∧ (Env.failingOn 7).copyThrows 7 = true ∧
    (concatenate (Env.failingOn 7) SStack.asDataStructure 3 (DStack.built [1])
      (SStack.built 2 [7, 8])).1 = .fail (.raised .Foreign) ∧
    (concatenate (Env.failingOn 7) SStack.asDataStructure 3 (DStack.built [1])
      (SStack.built 2 [7, 8])).2.1._numElements = 2 ∧
    (forAll asDataStructure 3
      (concatenate (Env.failingOn 7) SStack.asDataStructure 3 (DStack.built [1])
        (SStack.built 2 [7, 8])).2.1).2.2 = [1, 8] ∧
    ¬ Iterates asDataStructure
      (concatenate (Env.failingOn 7) SStack.asDataStructure 3 (DStack.built [1])
        (SStack.built 2 [7, 8])).2.1 [1] := by
  have hr : Holds (DStack.built [1]) [(0, 1)] :=
    ⟨⟨rfl, rfl, rfl⟩, by decide, by decide, rfl, rfl⟩
  refine ⟨Holds.isCollection _ _ hr, rfl,
    (SStack.isCollection_iff _ _).2 ⟨by decide, by decide⟩, by decide, by decide, by decide,
    by decide, by decide, ?_⟩
  intro h
  have e := (forAll_of_Iterates asDataStructure _ [1] 3 h (by decide)).2
  revert e
  decide

end DLinearStructure

/-! ## `empty` and assignment -/

namespace DLinearStructure
variable {T : Type}

/-- The loop of `empty` releases the nodes of the chain one by one and ends with a
null `_first`. -/
theorem emptyLoop_spec (nodes : List (Nat × T)) :
    ∀ (fuel : Nat) (s : DLinearStructure T), Chain s.store s._first nodes →
      (nodes.map Prod.fst).Nodup → nodes.length < fuel →
      (emptyLoop fuel s).1 = .ok () ∧ (emptyLoop fuel s).2._first = none ∧
      (emptyLoop fuel s).2._numElements = s._numElements - nodes.length ∧
      (emptyLoop fuel s).2._last = s._last ∧
      (emptyLoop fuel s).2.nextAddress = s.nextAddress ∧
      (∀ a ∈ nodes.map Prod.fst, (emptyLoop fuel s).2.store a = none) ∧
      (∀ a, a ∉ nodes.map Prod.fst → (emptyLoop fuel s).2.store a = s.store a) := by
  induction nodes with
  | nil =>
    intro fuel s hc _ hf
    obtain ⟨f, rfl⟩ : ∃ f, fuel = f + 1 := ⟨fuel - 1, by simp at hf; omega⟩
    have h1 : s._first = none := hc
    simp [emptyLoop, h1]
  | cons n rest ih =>
    intro fuel s hc hnd hf
    obtain ⟨f, rfl⟩ : ∃ f, fuel = f + 1 := ⟨fuel - 1, by simp at hf; omega⟩
    obtain ⟨a, x⟩ := n
    obtain ⟨h1, h2, h3⟩ := hc
    simp only [List.map_cons, List.nodup_cons] at hnd
    simp only [List.length_cons] at hf
    have hc' := Chain_update_other s.store a none rest _ hnd.1 h3
    obtain ⟨i1, i2, i3, i4, i5, i6, i7⟩ := ih f
      { s with
        _first := rest.head?.map Prod.fst
        _numElements := s._numElements - 1
        store := Function.update s.store a none } hc' hnd.2 (by omega)
    simp only [emptyLoop, h1, h2]
    refine ⟨i1, i2, ?_, i4, i5, ?_, ?_⟩
    · rw [i3]; simp only [List.length_cons]; omega
    · intro b hb
      simp only [List.map_cons, List.mem_cons] at hb
      by_cases hba : b ∈ rest.map Prod.fst
      · exact i6 b hba
      · rcases hb with rfl | hb
        · rw [i7 b hba]; simp
        · exact absurd hb hba
    · intro b hb
      simp only [List.map_cons, List.mem_cons, not_or] at hb
      rw [i7 b hb.2]
      exact Function.update_noteq hb.1 _ _

/-- In the embedding, where assertions are compiled in, `empty` never returns
normally on a well-formed collection: it stops at `assert(_numElements = 0U)`. -/
theorem empty_aborts (fuel : Nat) (s : DLinearStructure T) (nodes : List (Nat × T))
    (h : s.Holds nodes) (hf : nodes.length < fuel) :
    (empty fuel s).1 = .fail .aborted := by
  have hinv := Holds.assertInvariants_eq s nodes h
  obtain ⟨i1, -⟩ := emptyLoop_spec nodes fuel s h.chain h.nodup hf
  rcases hl : emptyLoop fuel s with ⟨o, s'⟩
  rw [hl] at i1
  simp only at i1
  subst i1
  simp [empty, hinv, hl]

end DLinearStructure

namespace DStack
variable {T : Type}

/-- On every well-formed `DStack` the assignment `r = s` stops at the assertion of
`empty`. -/
theorem operatorAssign_aborts {σ : Type} (env : Env T) (D : DataStructure T σ)
    (fuel : Nat) (r : DStack T) (src : σ) (nodes : List (Nat × T)) (h : r.Holds nodes)
    (hf : nodes.length < fuel) :
    (operatorAssign env D fuel r src).1 = .fail .aborted := by
  have := DLinearStructure.empty_aborts fuel r nodes h hf
  rcases he : DLinearStructure.empty fuel r with ⟨o, s'⟩
  rw [he] at this
  simp only at this
  subst this
  simp [operatorAssign, he, Fault.throwSpec]

/-- C14 (the code at the failing input). The assignment `r = s` of a source that
holds 8, 7 to a `DStack`, be it new or holding 1, does not return: `empty` stops at
`assert(_numElements = 0U)`.  The claim says that the call leaves `r` with the
iteration sequence of the source. -/
theorem dstack_assign_failing_input :
    IsCollection SStack.asDataStructure (SStack.built 2 [7, 8]) [8, 7] ∧
    (operatorAssign (Env.reliable Nat) SStack.asDataStructure 4 fresh
      (SStack.built 2 [7, 8])).1 = .fail .aborted ∧
    (operatorAssign (Env.reliable Nat) SStack.asDataStructure 4 (built [1])
      (SStack.built 2 [7, 8])).1 = .fail .aborted ∧
    (DLinearStructure.empty 4 (built [1])).1 = .fail .aborted :=
  ⟨(SStack.isCollection_iff _ _).2 ⟨by decide, by decide⟩, by decide, by decide, by decide⟩

end DStack

namespace SStack
variable {T : Type}

/-- The bounded half of the assignment round trip: on an `SStack` whose capacity is at
least `numElements()` of the source, `r = s` succeeds whatever `r` held, leaves `r`
with the count and the iteration sequence of the source, and `operator==` of `r` and
the source is true. -/
theorem operatorAssign_roundtrip {σ : Type} (env : Env T) (D : DataStructure T σ)
    (eqv : T → T → Bool) (hrefl : ∀ x, eqv x x = true) (fuel : Nat) (r : SStack T)
    (src : σ) (ys : List T) (hr : r.assertInvariants = true) (hs : IsCollection D src ys)
    (hroom : D.numElements src ≤ r._maxElements)
    (hcopy : ∀ y ∈ ys, env.copyThrows y = false) (hf : ys.length < fuel) :
    (operatorAssign env D fuel r src).1 = .ok () ∧
      (operatorAssign env D fuel r src).2.1._numElements = D.numElements src ∧
      IsCollection asDataStructure (operatorAssign env D fuel r src).2.1 ys ∧
      (operatorEq asDataStructure D (fun x y => .ok (eqv x y)) fuel
        (operatorAssign env D fuel r src).2.1 src).1 = .ok true := by
  have hr0 : ({ r with _numElements := 0 } : SStack T).assertInvariants = true := by
    simp [assertInvariants]
  have h0 : IsCollection asDataStructure ({ r with _numElements := 0 } : SStack T) [] :=
    (isCollection_iff _ _).2 ⟨hr0, rfl⟩
  obtain ⟨g, h1, h2, h3⟩ := operatorPlusEq_spec env D fuel { r with _numElements := 0 } src ys
    hr0 hs (by simpa using hroom) hcopy hf
  have heq : operatorAssign env D fuel r src =
      operatorPlusEq env D fuel { r with _numElements := 0 } src := by
    simp [operatorAssign, hr]
  rw [heq]
  have hc : IsCollection asDataStructure
      (operatorPlusEq env D fuel { r with _numElements := 0 } src).2.1 ys := by
    rw [h2]
    simp only [Nat.zero_add, cellsDown, List.append_nil] at h3
    refine (isCollection_iff _ _).2 ⟨?_, ?_⟩
    · have := hs.count
      simp only [assertInvariants, Nat.zero_add, decide_eq_true_eq]
      omega
    · simpa using h3.symm
  refine ⟨h1, by rw [h2]; simp [hs.count], hc, ?_⟩
  obtain ⟨res, e1, e2⟩ := operatorEq_spec asDataStructure D eqv _ src ys ys fuel hc hs hf
  have : res = true := e2.2 ⟨by rw [hc.count, hs.count], forall₂_refl_of eqv hrefl ys⟩
  rw [e1, this]

end SStack

/-! ## The guards of an `SStackPair` -/

namespace SStackPair
variable {T : Type}

/-- No state passes the assertions of `isFull` with `_top == _top1`: `isFull` never
returns true. -/
theorem isFull_never_true (s : SStackPair T) : s.isFull ≠ .ok true := by
  unfold isFull
  split
  · simp
  · rename_i h
    have hinv : s.checkInvariants = true := by simpa using h
    have := ((checkInvariants_iff s).1 hinv).1
    simp only [ne_eq, Outcome.ok.injEq, decide_eq_true_eq]
    omega

/-- The outcome of `push` in a state that passes the assertions: the exception of a
copy that throws, a normal return when a further cell stays free, and otherwise a stop
at the assertion `_top < _top1` that follows the assignment. -/
theorem push_outcome (env : Env T) (s : SStackPair T) (x : T)
    (hinv : s.checkInvariants = true) :
    (s.push env x).1 =
      if env.copyThrows x = true then .fail (.raised .Foreign)
      else if s._numElements + 1 < s._top1 then .ok ()
      else .fail .aborted := by
  obtain ⟨i1, i2, i3⟩ := (checkInvariants_iff s).1 hinv
  have hne : s._numElements ≠ s._top1 := by omega
  have hle : s._numElements ≤ s._maxElements := by omega
  have hne2 : s._numElements ≠ s._maxElements := by omega
  by_cases hc : env.copyThrows x = true
  · rcases i3 with hsel | hsel
    · simp [push, isFull, hinv, hne, hsel, hc, SStack.push, SStack.assertInvariants, hle, hne2]
    · simp [push, isFull, hinv, hne, hsel, hc]
  · have hc' : env.copyThrows x = false := by simpa using hc
    by_cases hroom : s._numElements + 1 < s._top1
    · rcases i3 with hsel | hsel
      · rw [push0_ok env s x hinv hsel hroom hc']; simp [hc', hroom]
      · rw [push1_ok env s x hinv hsel hroom hc']; simp [hc', hroom]
    · have htop : s._top1 = s._numElements + 1 := by omega
      rcases i3 with hsel | hsel
      · have h' : ({ s with
            _elements := Function.update s._elements s._numElements x
            _numElements := s._numElements + 1 } : SStackPair T).checkInvariants = false := by
          simp only [checkInvariants, htop]
          simp
        have hp := SStack.push_ok env s.toSStack x (by omega) hc'
        simp only [hsel] at h'
        simp [push, isFull, hinv, hne, hsel, hp, h', hc', hroom]
      · have h' : ({ s with
            _elements := Function.update s._elements (s._top1 - 1) x
            _top1 := s._top1 - 1 } : SStackPair T).checkInvariants = false := by
          simp only [checkInvariants, htop]
          simp
        simp only [hsel] at h'
        simp [push, isFull, hinv, hne, hsel, h', hc', hroom]

/-- `push` never raises `Full`. -/
theorem push_never_Full (env : Env T) (s : SStackPair T) (x : T) :
    (s.push env x).1 ≠ .fail (.raised .Full) := by
  by_cases hinv : s.checkInvariants = true
  · rw [push_outcome env s x hinv]
    split_ifs <;> simp
  · have hinv' : s.checkInvariants = false := by simpa using hinv
    simp [push, hinv']

/-- `select` never raises `BadSelection`. -/
theorem select_never_BadSelection (s : SStackPair T) (n : Nat) :
    (s.select n).1 ≠ .fail (.raised .BadSelection) := by
  by_cases hinv : s.checkInvariants = true
  · obtain ⟨-, -, i3⟩ := (checkInvariants_iff s).1 hinv
    have hns : ¬ (s._selectedStack ≠ 0 ∧ s._selectedStack ≠ 1) := by omega
    unfold select
    simp only [hinv, Bool.true_eq_false, if_false, hns]
    split_ifs <;> simp
  · have hinv' : s.checkInvariants = false := by simpa using hinv
    simp [select, hinv']

/-- A `push` that returns normally started in a state that passes the assertions,
with a free cell beyond the one that it fills, and its copy did not throw. -/
theorem push_of_ok (env : Env T) (s : SStackPair T) (x : T)
    (h : (s.push env x).1 = .ok ()) :
    s.checkInvariants = true ∧ s._numElements + 1 < s._top1 ∧ env.copyThrows x = false := by
  by_cases hinv : s.checkInvariants = true
  · rw [push_outcome env s x hinv] at h
    split_ifs at h with h1 h2
    exact ⟨hinv, h2, by simpa using h1⟩
  · have hinv' : s.checkInvariants = false := by simpa using hinv
    simp [push, hinv'] at h

/-- The outcome of `pop` in a state that passes the assertions. -/
theorem pop_outcome (env : Env T) (s : SStackPair T) (hinv : s.checkInvariants = true) :
    (s._selectedStack = 0 →
      s.pop env =
        if s._numElements = 0 then (.fail (.raised .Empty), s)
        else if env.copyThrows (s._elements (s._numElements - 1)) = true then
          (.fail (.raised .Foreign), s)
        else (.ok (s._elements (s._numElements - 1)),
          { s with _numElements := s._numElements - 1 })) ∧
    (s._selectedStack = 1 →
      s.pop env =
        if s._top1 = s._maxElements then (.fail (.raised .Empty), s)
        else if env.copyThrows (s._elements s._top1) = true then
          (.fail (.raised .Foreign), { s with _top1 := s._top1 + 1 })
        else (.ok (s._elements s._top1), { s with _top1 := s._top1 + 1 })) := by
  obtain ⟨i1, i2, i3⟩ := (checkInvariants_iff s).1 hinv
  have hsi : s.toSStack.assertInvariants = true := by
    simp only [SStack.assertInvariants, decide_eq_true_eq]; omega
  constructor
  · intro hsel
    by_cases h0 : s._numElements = 0
    · simp [pop, isEmpty, SStack.isEmpty, hinv, hsel, hsi, h0]
    · by_cases hc : env.copyThrows (s._elements (s._numElements - 1)) = true
      · simp [pop, isEmpty, SStack.isEmpty, hinv, hsel, hsi, h0, SStack.pop, hc]
        cases s
        simp_all
      · have hc' : env.copyThrows (s._elements (s._numElements - 1)) = false := by
          simpa using hc
        rw [pop0_ok env s hinv hsel (by omega) hc']
        simp [h0, hc']
  · intro hsel
    by_cases h0 : s._top1 = s._maxElements
    · simp [pop, isEmpty, hinv, hsel, h0]
    · by_cases hc : env.copyThrows (s._elements s._top1) = true
      · simp [pop, isEmpty, hinv, hsel, h0, hc]
      · have hc' : env.copyThrows (s._elements s._top1) = false := by simpa using hc
        rw [pop1_ok env s hinv hsel (by omega) hc']
        simp [h0, hc']

/-- A `pop` that succeeds was called in a state that satisfies the assertions, on a
selected stack that held an element; it returns the cell at the top of that stack. -/
theorem pop_of_ok (env : Env T) (s : SStackPair T) (v : T)
    (h : (s.pop env).1 = .ok v) :
    s.checkInvariants = true ∧
      ((s._selectedStack = 0 ∧ 0 < s._numElements ∧ v = s._elements (s._numElements - 1) ∧
          (s.pop env).2 = { s with _numElements := s._numElements - 1 }) ∨
       (s._selectedStack = 1 ∧ s._top1 < s._maxElements ∧ v = s._elements s._top1 ∧
          (s.pop env).2 = { s with _top1 := s._top1 + 1 })) := by
  by_cases hinv : s.checkInvariants = true
  · refine ⟨hinv, ?_⟩
    obtain ⟨i1, i2, i3⟩ := (checkInvariants_iff s).1 hinv
    obtain ⟨p0, p1⟩ := pop_outcome env s hinv
    rcases i3 with hsel | hsel
    · left
      have e := p0 hsel
      rw [e] at h ⊢
      split_ifs at h ⊢ with h0 hc
      simp only [Outcome.ok.injEq] at h
      exact ⟨hsel, by omega, h.symm, rfl⟩
    · right
      have e := p1 hsel
      rw [e] at h ⊢
      split_ifs at h ⊢ with h0 hc
      simp only [Outcome.ok.injEq] at h
      exact ⟨hsel, by omega, h.symm, rfl⟩
  · exfalso
    have hf : s.checkInvariants = false := by simpa using hinv
    simp [pop, hf] at h

/-- The push of the dual stack while a cell stays free after it: in every state of an
`SStackPair` that satisfies the assertions of the class
(`_top < _top1 <= _maxElements`, stack 0 or 1
selected) and has `_top + 1 < _top1`, `isFull()` is false and `push` of an element
whose copy does not throw succeeds: on stack 0 it writes cell `_top` and raises
`_top` by one, on stack 1 it lowers `_top1` by one and writes cell `_top1`; the other
top, the selection and every other cell stay as they were. -/
theorem pair_push_guard (env : Env T) (s : SStackPair T) (x : T)
    (hinv : s.checkInvariants = true) (hroom : s._numElements + 1 < s._top1)
    (hc : env.copyThrows x = false) :
    s.isFull = .ok false ∧ (s.push env x).1 = .ok () ∧
      (s._selectedStack = 0 →
        (s.push env x).2 = { s with
          _elements := Function.update s._elements s._numElements x
          _numElements := s._numElements + 1 }) ∧
      (s._selectedStack = 1 →
        (s.push env x).2 = { s with
          _elements := Function.update s._elements (s._top1 - 1) x
          _top1 := s._top1 - 1 }) := by
  have hne : s._numElements ≠ s._top1 := by omega
  refine ⟨by simp [isFull, hinv, hne], ?_, ?_, ?_⟩
  · rw [push_outcome env s x hinv]; simp [hc, hroom]
  · intro hsel; rw [push0_ok env s x hinv hsel hroom hc]
  · intro hsel; rw [push1_ok env s x hinv hsel hroom hc]

/-- The pair of capacity 5 holding 1 on stack 0: a push of 9 with stack 0 selected
writes cell 1, and with stack 1 selected writes cell 4. -/
theorem pair_push_guard_witness :
    ((runPairOps (Env.reliable Nat) [PairOp.push 1] (fresh 5)).2.checkInvariants = true ∧
      (runPairOps (Env.reliable Nat) [PairOp.push 1] (fresh 5)).2._numElements + 1 <
        (runPairOps (Env.reliable Nat) [PairOp.push 1] (fresh 5)).2._top1 ∧
      (Env.reliable Nat).copyThrows 9 = false) ∧
    isFull (runPairOps (Env.reliable Nat) [PairOp.push 1] (fresh 5)).2 = .ok false ∧
    (push (Env.reliable Nat) (runPairOps (Env.reliable Nat) [PairOp.push 1] (fresh 5)).2 9).1 =
      .ok () ∧
    (push (Env.reliable Nat)
      (runPairOps (Env.reliable Nat) [PairOp.push 1] (fresh 5)).2 9).2._numElements = 2 ∧
    (push (Env.reliable Nat)
      (runPairOps (Env.reliable Nat) [PairOp.push 1] (fresh 5)).2 9).2._elements 1 = 9 ∧
    (push (Env.reliable Nat)
      (runPairOps (Env.reliable Nat) [PairOp.push 1, .select 1] (fresh 5)).2 9).2._top1 = 4 ∧
    (push (Env.reliable Nat)
      (runPairOps (Env.reliable Nat) [PairOp.push 1, .select 1] (fresh 5)).2 9).2._elements 4
      = 9 :=
  have h := pair_push_guard (Env.reliable Nat)
    (runPairOps (Env.reliable Nat) [PairOp.push 1] (fresh 5)).2 9 (by decide) (by decide) rfl
  ⟨⟨by decide, by decide, rfl⟩, h.1, h.2.1, by decide, by decide, by decide, by decide⟩

/-- C15 (the code at the failing input). Dual Stack full-guard: on a new pair of
capacity 1 (`_top = 0 < _top1 = 1`) the push on stack 0 and the push on stack 1
neither succeed nor raise `Full`: each stops at the assertion `_top < _top1` of
`checkInvariants` after its assignment; on a new pair of capacity 2 `isFull()` is
false before and after the first push, the second push stops at the assertion with
`_top == _top1`, and `isFull()` in that state does not return true: it stops at the
assertion as well.  The claim says that a push with `top0 < top1` succeeds and that
`isFull()` is true when `top0 == top1`. -/
theorem pair_full_guard_failing_input :
    (fresh 1)._numElements < (fresh 1)._top1 ∧
    (push (Env.reliable Nat) (fresh 1) 7).1 = .fail .aborted ∧
    (push (Env.reliable Nat) (select (fresh 1) 1).2 7).1 = .fail .aborted ∧
    isFull (fresh 2) = .ok false ∧
    (push (Env.reliable Nat) (fresh 2) 7).1 = .ok () ∧
    isFull (push (Env.reliable Nat) (fresh 2) 7).2 = .ok false ∧
    (push (Env.reliable Nat) (push (Env.reliable Nat) (fresh 2) 7).2 8).1 = .fail .aborted ∧
    (push (Env.reliable Nat) (push (Env.reliable Nat) (fresh 2) 7).2 8).2._numElements =
      (push (Env.reliable Nat) (push (Env.reliable Nat) (fresh 2) 7).2 8).2._top1 ∧
    isFull (push (Env.reliable Nat) (push (Env.reliable Nat) (fresh 2) 7).2 8).2 =
      .fail .aborted := by
  decide

/-- The pushes of the dual stack short of its capacity: on a newly constructed pair
of capacity `c`, every sequence of `select` and `push` calls with fewer than `c`
pushes
runs without a fault, whatever the choice of the stack for each push; afterwards the
two stacks together hold the pushed elements (`_top` on stack 0, `c - _top1` on
stack 1), `_top < _top1` (a cell stays free between the stacks), and `isFull()` is
false. -/
theorem pair_capacity (env : Env T) (c : Nat) (elements : Option (Nat → T))
    (iterCell : Option Nat) (s : SStackPair T) (ops : List (PairOp T))
    (hnew : construct c elements iterCell = .ok s) (hval : validSelections ops)
    (hlen : (pushedOn 0 0 ops).length + (pushedOn 1 0 ops).length < c)
    (hcopy : ∀ v ∈ pushedOn 0 0 ops ++ pushedOn 1 0 ops, env.copyThrows v = false) :
    (runPairOps env ops s).1 = .ok () ∧
      (runPairOps env ops s).2._maxElements = c ∧
      (runPairOps env ops s).2._numElements = (pushedOn 0 0 ops).length ∧
      c - (runPairOps env ops s).2._top1 = (pushedOn 1 0 ops).length ∧
      (runPairOps env ops s).2._numElements < (runPairOps env ops s).2._top1 ∧
      (runPairOps env ops s).2._top1 ≤ c ∧
      isFull (runPairOps env ops s).2 = .ok false := by
  obtain ⟨c1, c2, c3, c4, c5⟩ := pair_construct_eq c elements iterCell s hnew
  obtain ⟨s', r1, r2, r3, r4, r5, -, -⟩ := runPairOps_spec env ops s 0 c1 c5 hval hcopy
    (by omega)
  rw [r1]
  obtain ⟨i1, i2, i3⟩ := (checkInvariants_iff s').1 r2
  have hne : s'._numElements ≠ s'._top1 := by omega
  refine ⟨rfl, by rw [r3, c3], by rw [r4, c2]; simp, by simp only; omega, i1,
    by simp only; omega, ?_⟩
  simp [isFull, r2, hne]

/-- The dual stack of capacity 5 after two pushes on stack 0 and two on stack 1:
`_top == 2`, `_top1 == 3`, `isFull()` false. -/
theorem pair_capacity_witness :
    (construct 5 (some fun _ => (0 : Nat)) (some 0) = .ok (fresh 5) ∧
      validSelections [PairOp.push 1, .push 2, .select 1, .push 10, .push (20 : Nat)] ∧
      (pushedOn 0 0 [PairOp.push 1, .push 2, .select 1, .push 10, .push (20 : Nat)]).length +
        (pushedOn 1 0 [PairOp.push 1, .push 2, .select 1, .push 10, .push (20 : Nat)]).length
        < 5) ∧
    (runPairOps (Env.reliable Nat) [PairOp.push 1, .push 2, .select 1, .push 10, .push 20]
      (fresh 5)).1 = .ok () ∧
    (runPairOps (Env.reliable Nat) [PairOp.push 1, .push 2, .select 1, .push 10, .push 20]
      (fresh 5)).2._numElements = 2 ∧
    (runPairOps (Env.reliable Nat) [PairOp.push 1, .push 2, .select 1, .push 10, .push 20]
      (fresh 5)).2._top1 = 3 ∧
    isFull (runPairOps (Env.reliable Nat) [PairOp.push 1, .push 2, .select 1, .push 10,
      .push 20] (fresh 5)).2 = .ok false :=
  have hv : validSelections [PairOp.push 1, .push 2, .select 1, .push 10, .push (20 : Nat)] := by
    simp [validSelections]
  have h := pair_capacity (Env.reliable Nat) 5 (some fun _ => 0) (some 0) (fresh 5)
    [PairOp.push 1, .push 2, .select 1, .push 10, .push 20] rfl hv (by decide)
    (fun _ _ => rfl)
  ⟨⟨rfl, hv, by decide⟩, h.1, h.2.2.1, by decide, h.2.2.2.2.2.2⟩

/-- C16 (the code at the failing input). Dual Stack combined capacity: on the pair of
capacity 5 with two elements on each stack (`_top == 2`, `_top1 == 3`, `isFull()`
false) the fifth push, on stack 1 or on stack 0, does not complete: it performs its
assignment (`_top1 == _top == 2` on stack 1, `_top == _top1 == 3` on stack 0) and
stops at the assertion `_top < _top1` of `checkInvariants`; `isFull()` in the state
that it leaves stops at that assertion too.  The claim says that the fifth push
completes and that `isFull()` is then true. -/
theorem pair_capacity_failing_input :
    construct 5 (some fun _ => (0 : Nat)) (some 0) = .ok (fresh 5) ∧
    (runPairOps (Env.reliable Nat) [PairOp.push 1, .push 2, .select 1, .push 10, .push 20]
      (fresh 5)).1 = .ok () ∧
    isFull (runPairOps (Env.reliable Nat) [PairOp.push 1, .push 2, .select 1, .push 10,
      .push 20] (fresh 5)).2 = .ok false ∧
    (runPairOps (Env.reliable Nat) [PairOp.push 1, .push 2, .select 1, .push 10, .push 20,
      .push 30] (fresh 5)).1 = .fail .aborted ∧
    (runPairOps (Env.reliable Nat) [PairOp.push 1, .push 2, .select 1, .push 10, .push 20,
      .push 30] (fresh 5)).2._numElements = 2 ∧
    (runPairOps (Env.reliable Nat) [PairOp.push 1, .push 2, .select 1, .push 10, .push 20,
      .push 30] (fresh 5)).2._top1 = 2 ∧
    isFull (runPairOps (Env.reliable Nat) [PairOp.push 1, .push 2, .select 1, .push 10,
      .push 20, .push 30] (fresh 5)).2 = .fail .aborted ∧
    (runPairOps (Env.reliable Nat) [PairOp.push 1, .push 2, .select 1, .push 10, .push 20,
      .select 0, .push 3] (fresh 5)).1 = .fail .aborted ∧
    (runPairOps (Env.reliable Nat) [PairOp.push 1, .push 2, .select 1, .push 10, .push 20,
      .select 0, .push 3] (fresh 5)).2._numElements = 3 ∧
    (runPairOps (Env.reliable Nat) [PairOp.push 1, .push 2, .select 1, .push 10, .push 20,
      .select 0, .push 3] (fresh 5)).2._top1 = 3 :=
  ⟨rfl, by decide, by decide, by decide, by decide, by decide, by decide, by decide,
    by decide, by decide⟩

/-- C17 (the code at the failing input). Dual Stack selector validation: on a new
pair of capacity 2, `select(2)` does not raise `BadSelection`: it stores 2 in
`_selectedStack` and stops at the assertion of `checkInvariants`; `select(0)` and
`select(1)` succeed.  The claim says that `select(2)` fails with `BadSelection` and
leaves the selection as it was. -/
theorem pair_select_failing_input :
    (select (fresh 2) 2).1 = .fail .aborted ∧
    (select (fresh 2) 2).1 ≠ .fail (.raised .BadSelection) ∧
    (select (fresh 2) 2).2._selectedStack = 2 ∧
    (fresh 2)._selectedStack = 0 ∧
    (select (fresh 2) 1).1 = .ok () ∧ selected (select (fresh 2) 1).2 = .ok 1 ∧
    (select (select (fresh 2) 1).2 0).1 = .ok () ∧
    selected (select (select (fresh 2) 1).2 0).2 = .ok 0 := by
  decide

/-- C18 (the code at the failing inputs). Dual Stack `peek`: with stack 1 selected,
`peek` answers for stack 0.  With 1 on stack 0 and 10 on stack 1 it returns 1, while
`pop` returns 10; with 1 on stack 0 and stack 1 empty it returns 1, while `pop`
raises `Empty`; with stack 0 empty and 10 on stack 1 it raises `Empty`, while `pop`
returns 10.  The claim says 10, `Empty` and 10. -/
theorem pair_peek_failing_input :
    (runPairOps (Env.reliable Nat) [PairOp.push 1, .select 1, .push 10] (fresh 5)).1 = .ok () ∧
    (runPairOps (Env.reliable Nat) [PairOp.push 1, .select 1, .push 10]
      (fresh 5)).2._selectedStack = 1 ∧
    (peek (Env.reliable Nat)
      (runPairOps (Env.reliable Nat) [PairOp.push 1, .select 1, .push 10] (fresh 5)).2).1 =
      .ok 1 ∧
    (pop (Env.reliable Nat)
      (runPairOps (Env.reliable Nat) [PairOp.push 1, .select 1, .push 10] (fresh 5)).2).1 =
      .ok 10 ∧
    (peek (Env.reliable Nat)
      (runPairOps (Env.reliable Nat) [PairOp.push 1, .select 1] (fresh 5)).2).1 = .ok 1 ∧
    (pop (Env.reliable Nat)
      (runPairOps (Env.reliable Nat) [PairOp.push 1, .select 1] (fresh 5)).2).1 =
      .fail (.raised .Empty) ∧
    (peek (Env.reliable Nat)
      (runPairOps (Env.reliable Nat) [PairOp.select 1, .push 10] (fresh 5)).2).1 =
      .fail (.raised .Empty) ∧
    (pop (Env.reliable Nat)
      (runPairOps (Env.reliable Nat) [PairOp.select 1, .push 10] (fresh 5)).2).1 = .ok 10 := by
  decide

/-- C20. Dual Stack side independence: for every state of an `SStackPair` with
`_top <= _top1 <= _maxElements`, a successful `push` or `pop` with stack 0 selected
leaves `_top1` and the cells `[_top1, _maxElements)` of stack 1 unchanged, and one with
stack 1 selected leaves `_top` and the cells `[0, _top)` of stack 0 unchanged; before
and after the call `_top < _top1 <= _maxElements`, so that no cell belongs to both
stacks. -/
theorem pair_side_independence (env : Env T) (s : SStackPair T)
    (hle : s._numElements ≤ s._top1) (hcap : s._top1 ≤ s._maxElements) :
    (∀ i, i < s._numElements → ¬ (s._top1 ≤ i ∧ i < s._maxElements)) ∧
    (∀ x, (s.push env x).1 = .ok () →
      (s._selectedStack = 0 ∨ s._selectedStack = 1) ∧
      (s._selectedStack = 0 →
        (s.push env x).2._top1 = s._top1 ∧
        ∀ i, s._top1 ≤ i → i < s._maxElements →
          (s.push env x).2._elements i = s._elements i) ∧
      (s._selectedStack = 1 →
        (s.push env x).2._numElements = s._numElements ∧
        ∀ i, i < s._numElements → (s.push env x).2._elements i = s._elements i) ∧
      (s.push env x).2._maxElements = s._maxElements ∧
      (s.push env x).2._numElements < (s.push env x).2._top1 ∧
      (s.push env x).2._top1 ≤ (s.push env x).2._maxElements ∧
      ∀ i, i < (s.push env x).2._numElements → ¬ (s.push env x).2._top1 ≤ i) ∧
    (∀ v, (s.pop env).1 = .ok v →
      (s._selectedStack = 0 ∨ s._selectedStack = 1) ∧
      (s._selectedStack = 0 →
        (s.pop env).2._top1 = s._top1 ∧
        ∀ i, s._top1 ≤ i → i < s._maxElements → (s.pop env).2._elements i = s._elements i) ∧
      (s._selectedStack = 1 →
        (s.pop env).2._numElements = s._numElements ∧
        ∀ i, i < s._numElements → (s.pop env).2._elements i = s._elements i) ∧
      (s.pop env).2._maxElements = s._maxElements ∧
      (s.pop env).2._numElements < (s.pop env).2._top1 ∧
      (s.pop env).2._top1 ≤ (s.pop env).2._maxElements ∧
      ∀ i, i < (s.pop env).2._numElements → ¬ (s.pop env).2._top1 ≤ i) := by
  refine ⟨fun i hi => by omega, ?_, ?_⟩
  · intro x hx
    obtain ⟨hinv, hroom, hc⟩ := push_of_ok env s x hx
    obtain ⟨i1, i2, i3⟩ := (checkInvariants_iff s).1 hinv
    refine ⟨i3, ?_⟩
    rcases i3 with hsel | hsel
    · rw [push0_ok env s x hinv hsel hroom hc]
      refine ⟨fun _ => ⟨rfl, fun i h1 _ => ?_⟩, fun h => ?_, rfl, ?_, ?_, ?_⟩
      · exact Function.update_noteq (by omega) _ _
      · omega
      · simp only; omega
      · simp only; omega
      · intro i hi; simp only at hi ⊢; omega
    · rw [push1_ok env s x hinv hsel hroom hc]
      refine ⟨fun h => ?_, fun _ => ⟨rfl, fun i h1 => ?_⟩, rfl, ?_, ?_, ?_⟩
      · omega
      · exact Function.update_noteq (by omega) _ _
      · simp only; omega
      · simp only; omega
      · intro i hi; simp only at hi ⊢; omega
  · intro v hv
    obtain ⟨hinv, hcase⟩ := pop_of_ok env s v hv
    obtain ⟨i1, i2, i3⟩ := (checkInvariants_iff s).1 hinv
    refine ⟨i3, ?_⟩
    rcases hcase with ⟨hsel, hpos, -, e⟩ | ⟨hsel, hpos, -, e⟩
    · rw [e]
      refine ⟨fun _ => ⟨rfl, fun i _ _ => rfl⟩, fun h => ?_, rfl, ?_, ?_, ?_⟩
      · omega
      · simp only; omega
      · simp only; omega
      · intro i hi; simp only at hi ⊢; omega
    · rw [e]
      refine ⟨fun h => ?_, fun _ => ⟨rfl, fun i _ => rfl⟩, rfl, ?_, ?_, ?_⟩
      · omega
      · simp only; omega
      · simp only; omega
      · intro i hi; simp only at hi ⊢; omega

/-- The pair of capacity 5 holding 1, 2 on stack 0 and 10 on stack 1, stack 1 selected:
a push of 9 and a pop both succeed and leave `_top == 2` and the cells 0 and 1. -/
theorem pair_side_independence_witness :
    ((runPairOps (Env.reliable Nat) [PairOp.push 1, .push 2, .select 1, .push 10]
        (fresh 5)).2._numElements ≤
      (runPairOps (Env.reliable Nat) [PairOp.push 1, .push 2, .select 1, .push 10]
        (fresh 5)).2._top1 ∧
     (runPairOps (Env.reliable Nat) [PairOp.push 1, .push 2, .select 1, .push 10]
        (fresh 5)).2._top1 ≤
      (runPairOps (Env.reliable Nat) [PairOp.push 1, .push 2, .select 1, .push 10]
        (fresh 5)).2._maxElements) ∧
    (push (Env.reliable Nat) (runPairOps (Env.reliable Nat)
      [PairOp.push 1, .push 2, .select 1, .push 10] (fresh 5)).2 9).1 = .ok () ∧
    (push (Env.reliable Nat) (runPairOps (Env.reliable Nat)
      [PairOp.push 1, .push 2, .select 1, .push 10] (fresh 5)).2 9).2._numElements = 2 ∧
    (pop (Env.reliable Nat) (runPairOps (Env.reliable Nat)
      [PairOp.push 1, .push 2, .select 1, .push 10] (fresh 5)).2).1 = .ok 10 ∧
    (pop (Env.reliable Nat) (runPairOps (Env.reliable Nat)
      [PairOp.push 1, .push 2, .select 1, .push 10] (fresh 5)).2).2._numElements = 2 :=
  have h := pair_side_independence (Env.reliable Nat)
    (runPairOps (Env.reliable Nat) [PairOp.push 1, .push 2, .select 1, .push 10]
      (fresh 5)).2 (by decide) (by decide)
  ⟨⟨by decide, by decide⟩, by decide,
    ((h.2.1 9 (by decide)).2.2.1 (by decide)).1, by decide,
    ((h.2.2 10 (by decide)).2.2.1 (by decide)).1⟩

end SStackPair

/-! ## Observation of the selected stack of an `SStackPair` -/

namespace SStackPair
variable {T : Type}

/-- The iteration of stack #0 of a pair from the cursor `k`: the cells `k - 1, ..., 0`. -/
theorem pair_iterFrom_down (k : Nat) :
    ∀ s : SStackPair T, s.checkInvariants = true → s._selectedStack = 0 →
      s._iterCurrent = k → IterFrom asDataStructure s (cellsDown s._elements k) := by
  induction k with
  | zero =>
    intro s hinv hsel hk
    have ha : s.toSStack.assertInvariants = true := by
      simp only [checkInvariants, Bool.and_eq_true] at hinv
      exact hinv.1.1.1
    simp [cellsDown, IterFrom, asDataStructure, iterMore, hinv, hsel, SStack.iterMore, ha, hk]
  | succ k ih =>
    intro s hinv hsel hk
    have ha : s.toSStack.assertInvariants = true := by
      simp only [checkInvariants, Bool.and_eq_true] at hinv
      exact hinv.1.1.1
    have hinv' : ({ s with _iterCurrent := k } : SStackPair T).checkInvariants = true := by
      simpa [checkInvariants, SStack.assertInvariants] using hinv
    have h := ih { s with _iterCurrent := k } hinv' hsel rfl
    simp only [cellsDown, IterFrom, asDataStructure, iterMore, iterNext, iterElement,
      numElements, hinv, hsel, SStack.iterMore, SStack.iterNext, SStack.iterCurrent, ha, hk]
    simp only [asDataStructure, hsel] at h
    simpa [SStack.numElements] using h

/-- The iteration of stack #1 of a pair from the cursor `_size - k`: the `k` cells from
the cursor up to the end of the array. -/
theorem pair_iterFrom_up (k : Nat) :
    ∀ s : SStackPair T, s.checkInvariants = true → s._selectedStack = 1 →
      s._iterCurrent + k = s._maxElements →
      IterFrom asDataStructure s (cellsUp s._elements s._iterCurrent k) := by
  induction k with
  | zero =>
    intro s hinv hsel hk
    simp only [Nat.add_zero] at hk
    simp [cellsUp, IterFrom, asDataStructure, iterMore, hinv, hsel, hk]
  | succ k ih =>
    intro s hinv hsel hk
    have hinv' : ({ s with _iterCurrent := s._iterCurrent + 1 } :
        SStackPair T).checkInvariants = true := by
      simpa [checkInvariants, SStack.assertInvariants] using hinv
    have h := ih { s with _iterCurrent := s._iterCurrent + 1 } hinv' hsel
      (by simp only; omega)
    have hlt : s._iterCurrent < s._maxElements := by omega
    simp only [cellsUp, IterFrom, asDataStructure, iterMore, iterNext, iterElement,
      numElements, hinv, hsel, hlt]
    simp only [asDataStructure, hsel] at h
    simpa [SStack.numElements] using h

/-- The cells of the selected stack of a pair, the topmost first: `_top - 1, ..., 0` for
stack #0 and `_top1, ..., _size - 1` for stack #1. -/
theorem pair_isCollection (s : SStackPair T) (hinv : s.checkInvariants = true) :
    (s._selectedStack = 0 →
      IsCollection asDataStructure s (cellsDown s._elements s._numElements)) ∧
    (s._selectedStack = 1 →
      IsCollection asDataStructure s
        (cellsUp s._elements s._top1 (s._maxElements - s._top1))) := by
  obtain ⟨i1, i2, i3⟩ := (checkInvariants_iff s).1 hinv
  have ha : s.toSStack.assertInvariants = true := by
    simp only [checkInvariants, Bool.and_eq_true] at hinv
    exact hinv.1.1.1
  constructor
  · intro hsel
    have hinv' : ({ s with _iterCurrent := s._numElements } :
        SStackPair T).checkInvariants = true := by
      simpa [checkInvariants, SStack.assertInvariants] using hinv
    have h := pair_iterFrom_down s._numElements { s with _iterCurrent := s._numElements }
      hinv' hsel rfl
    refine ⟨hinv, ?_, ?_, ?_, ?_⟩
    · simp [asDataStructure, numElements, hsel, SStack.numElements, SStack.cellsDown_length]
    · simp [asDataStructure, iterStart, hinv, hsel, SStack.iterStart, ha]
    · simp [asDataStructure, iterStart, hinv, hsel, SStack.iterStart, ha, numElements,
        SStack.numElements]
    · simp only [hsel] at h
      simpa [asDataStructure, iterStart, hinv, hsel, SStack.iterStart, ha] using h
  · intro hsel
    have hinv' : ({ s with _iterCurrent := s._top1 } : SStackPair T).checkInvariants = true := by
      simpa [checkInvariants, SStack.assertInvariants] using hinv
    have h := pair_iterFrom_up (s._maxElements - s._top1) { s with _iterCurrent := s._top1 }
      hinv' hsel (by simp only; omega)
    refine ⟨hinv, ?_, ?_, ?_, ?_⟩
    · simp [asDataStructure, numElements, hsel, cellsUp_length]
    · simp [asDataStructure, iterStart, hinv, hsel]
    · simp [asDataStructure, iterStart, hinv, hsel, numElements]
    · simp only [hsel] at h
      simpa [asDataStructure, iterStart, hinv, hsel] using h

end SStackPair

/-! ## Assignment to the selected stack of an `SStackPair` -/

namespace SStack
variable {T : Type}

/-- A successful `try` block of `operator+=` writes only cells below the new count. -/
theorem appendBlock_cells {σ : Type} (env : Env T) (D : DataStructure T σ) (fuel : Nat)
    (r : SStack T) (src : σ) (ys : List T) (hr : r.assertInvariants = true)
    (hs : IsCollection D src ys)
    (hroom : D.numElements src ≤ r._maxElements - r._numElements)
    (hcopy : ∀ y ∈ ys, env.copyThrows y = false) (hf : ys.length < fuel) :
    ∃ g : Nat → T,
      (appendBlock env D fuel r src).1 = .ok () ∧
      (appendBlock env D fuel r src).2.1 =
        { r with _elements := g, _numElements := r._numElements + ys.length } ∧
      cellsDown g (r._numElements + ys.length) = ys ++ cellsDown r._elements r._numElements ∧
      ∀ i, r._numElements + ys.length ≤ i → g i = r._elements i := by
  have hcount := hs.count
  have hinv : r._numElements ≤ r._maxElements := by simpa [assertInvariants] using hr
  obtain ⟨g, h1, h2, h3⟩ := foldBody_copyDown env ys r (r._numElements + ys.length)
    (by omega) hcopy
  have hloop := forLoop_spec D (copyDown env) ys fuel src
    (r, r._numElements + ys.length) hs.iter hf
  rw [h1] at hloop
  obtain ⟨l1, l2, l3⟩ := hloop
  simp only [Nat.add_sub_cancel] at h2 l2
  refine ⟨g, ?_, ?_, h2, h3⟩
  all_goals
    rcases hfl : forLoop D (copyDown env) fuel src (r, r._numElements + ys.length)
      with ⟨o, src', r'⟩
    rw [hfl] at l1 l2 l3
    simp only at l1 l2 l3
    subst l1 l2
    have hle : r._numElements + ys.length ≤ r._maxElements := by omega
    simp [appendBlock, hcount, hfl, assertInvariants, l3, hle]

/-- A successful `operator=` of an `SStack`: the count becomes the number of elements
of the source, the cells below it hold the source's iteration sequence from the top,
and the cells at and above it are not written. -/
theorem operatorAssign_cells {σ : Type} (env : Env T) (D : DataStructure T σ) (fuel : Nat)
    (r : SStack T) (src : σ) (ys : List T) (hr : r.assertInvariants = true)
    (hs : IsCollection D src ys) (hroom : D.numElements src ≤ r._maxElements)
    (hcopy : ∀ y ∈ ys, env.copyThrows y = false) (hf : ys.length < fuel) :
    ∃ g : Nat → T,
      (operatorAssign env D fuel r src).1 = .ok () ∧
      (operatorAssign env D fuel r src).2.1 =
        { r with _elements := g, _numElements := ys.length } ∧
      cellsDown g ys.length = ys ∧ ∀ i, ys.length ≤ i → g i = r._elements i := by
  have hcount := hs.count
  have hr0 : ({ r with _numElements := 0 } : SStack T).assertInvariants = true := by
    simp [assertInvariants]
  have heq : operatorAssign env D fuel r src =
      operatorPlusEq env D fuel { r with _numElements := 0 } src := by
    simp [operatorAssign, hr]
  rw [heq]
  by_cases h0 : D.numElements src > 0
  · obtain ⟨g, h1, h2, h3, h4⟩ := appendBlock_cells env D fuel { r with _numElements := 0 }
      src ys hr0 hs (by simpa using hroom) hcopy hf
    simp only [Nat.zero_add, cellsDown, List.append_nil] at h2 h3 h4
    refine ⟨g, ?_, ?_, h3, h4⟩
    all_goals
      rcases hab : appendBlock env D fuel { r with _numElements := 0 } src with ⟨o, r', src'⟩
      rw [hab] at h1 h2
      simp only at h1 h2
      subst h1 h2
      have hnot : ¬ D.numElements src > r._maxElements := by omega
      simp [operatorPlusEq, hr0, hnot, h0, hab]
  · have hz : D.numElements src = 0 := by omega
    have hnil : ys = [] := by
      apply List.eq_nil_of_length_eq_zero; omega
    subst hnil
    exact ⟨r._elements, by simp [operatorPlusEq, hr0, hz], by simp [operatorPlusEq, hr0, hz],
      by simp [cellsDown], fun _ _ => rfl⟩

end SStack

namespace SStackPair
variable {T : Type}

/-- The copy loop of `operator=` on stack #1 with room for the elements: the cells from
`_top1` upwards receive the elements in order, `_top1` ends above the last of them,
and no other cell is written. -/
theorem foldBody_copyUp (env : Env T) (ys : List T) :
    ∀ s : SStackPair T, s._top1 + ys.length ≤ s._maxElements →
      (∀ y ∈ ys, env.copyThrows y = false) →
      ∃ g : Nat → T,
        foldBody (copyUp env) ys s =
          (.ok (), { s with _elements := g, _top1 := s._top1 + ys.length }) ∧
        cellsUp g s._top1 ys.length = ys ∧
        (∀ i, i < s._top1 → g i = s._elements i) ∧
        ∀ i, s._top1 + ys.length ≤ i → g i = s._elements i := by
  induction ys with
  | nil =>
    intro s _ _
    exact ⟨s._elements, by simp [foldBody], by simp [cellsUp], fun _ _ => rfl, fun _ _ => rfl⟩
  | cons y ys ih =>
    intro s hlen hc
    simp only [List.length_cons] at hlen
    have hy : env.copyThrows y = false := hc y (List.mem_cons_self _ _)
    obtain ⟨g, h1, h2, h3, h4⟩ := ih
      { s with _elements := Function.update s._elements s._top1 y, _top1 := s._top1 + 1 }
      (by simp only; omega) (fun w hw => hc w (List.mem_cons_of_mem _ hw))
    simp only at h1 h2 h3 h4
    refine ⟨g, ?_, ?_, ?_, ?_⟩
    · have hnot : ¬ s._maxElements ≤ s._top1 := by omega
      simp only [foldBody, copyUp, hnot, if_false, hy, Bool.false_eq_true]
      rw [h1]
      simp only [List.length_cons]
      congr 2
      omega
    · simp only [List.length_cons, cellsUp]
      rw [h2, h3 s._top1 (by omega)]
      simp
    · intro i hi
      rw [h3 i (by omega)]
      exact Function.update_noteq (by omega) _ _
    · intro i hi
      simp only [List.length_cons] at hi
      rw [h4 i (by omega)]
      exact Function.update_noteq (by omega) _ _

/-- The assignment to stack #0 of a pair when the source is not larger than `_top1`. -/
theorem pair_assign0_ok {σ : Type} (env : Env T) (D : DataStructure T σ) (fuel : Nat)
    (s : SStackPair T) (src : σ) (ys : List T) (hinv : s.checkInvariants = true)
    (hsel : s._selectedStack = 0) (hs : IsCollection D src ys)
    (hroom : D.numElements src ≤ s._top1)
    (hcopy : ∀ y ∈ ys, env.copyThrows y = false) (hf : ys.length < fuel) :
    ∃ g : Nat → T,
      (operatorAssign env D fuel s src).1 = .ok () ∧
      (operatorAssign env D fuel s src).2.1 =
        { s with _elements := g, _numElements := ys.length } ∧
      cellsDown g ys.length = ys ∧ ∀ i, ys.length ≤ i → g i = s._elements i := by
  obtain ⟨i1, i2, i3⟩ := (checkInvariants_iff s).1 hinv
  have ha : s.toSStack.assertInvariants = true := by
    simp only [checkInvariants, Bool.and_eq_true] at hinv
    exact hinv.1.1.1
  obtain ⟨g, h1, h2, h3, h4⟩ := SStack.operatorAssign_cells env D fuel s.toSStack src ys ha hs
    (by omega) hcopy hf
  have hnot : ¬ s._top1 < D.numElements src := by omega
  refine ⟨g, ?_, ?_, h3, h4⟩
  · simp [operatorAssign, hinv, hsel, hnot, h1]
  · simp [operatorAssign, hinv, hsel, hnot, h2]

/-- The assignment to stack #1 of a pair when the source is not larger than
`_size - _top`. -/
theorem pair_assign1_ok {σ : Type} (env : Env T) (D : DataStructure T σ) (fuel : Nat)
    (s : SStackPair T) (src : σ) (ys : List T) (hinv : s.checkInvariants = true)
    (hsel : s._selectedStack = 1) (hs : IsCollection D src ys)
    (hroom : D.numElements src ≤ s._maxElements - s._numElements)
    (hcopy : ∀ y ∈ ys, env.copyThrows y = false) (hf : ys.length < fuel) :
    ∃ g : Nat → T,
      (operatorAssign env D fuel s src).1 = .ok () ∧
      (operatorAssign env D fuel s src).2.1 =
        { s with _elements := g, _top1 := s._maxElements - ys.length } ∧
      cellsUp g (s._maxElements - ys.length) ys.length = ys ∧
      ∀ i, i < s._maxElements - ys.length → g i = s._elements i := by
  obtain ⟨i1, i2, i3⟩ := (checkInvariants_iff s).1 hinv
  have hcount := hs.count
  obtain ⟨g, h1, h2, h3, -⟩ := foldBody_copyUp env ys
    { s with _top1 := s._maxElements - ys.length } (by simp only; omega) hcopy
  simp only at h1 h2 h3
  have hloop := forLoop_spec D (copyUp env) ys fuel src
    { s with _top1 := s._maxElements - ys.length } hs.iter hf
  rw [h1] at hloop
  obtain ⟨l1, l2, l3⟩ := hloop
  have hnot : ¬ s._maxElements - s._numElements < ys.length := by omega
  refine ⟨g, ?_, ?_, h2, h3⟩
  all_goals
    rcases hfl : forLoop D (copyUp env) fuel src { s with _top1 := s._maxElements - ys.length }
      with ⟨o, src', r'⟩
    rw [hfl] at l1 l2 l3
    simp only at l1 l2 l3
    subst l1 l2
    simp only [hsel] at hfl
    simp [operatorAssign, hinv, hsel, hcount, hnot, hfl, l3]

/-- The assignment to the selected stack of the dual stack: in a state that
satisfies the assertions of the class, `operator=(s)` raises `Full`, before any
mutation, exactly when `s.numElements()` exceeds the capacity minus the number of
elements on the stack that is not selected; when `s.numElements()` is less than that
difference (and no copy throws) the call succeeds, the iteration sequence of the
selected stack becomes the iteration sequence of `s`, and the top and the cells of the
other stack are unchanged. -/
theorem pair_assign {σ : Type} (env : Env T) (D : DataStructure T σ) (fuel : Nat)
    (s : SStackPair T) (src : σ) (ys : List T) (hinv : s.checkInvariants = true)
    (hs : IsCollection D src ys) (hcopy : ∀ y ∈ ys, env.copyThrows y = false)
    (hf : ys.length < fuel) :
    ((operatorAssign env D fuel s src).1 = .fail (.raised .Full) ↔
      s._maxElements -
        (if s._selectedStack = 0 then s._maxElements - s._top1 else s._numElements) <
        D.numElements src) ∧
    ((operatorAssign env D fuel s src).1 = .fail (.raised .Full) →
      (operatorAssign env D fuel s src).2.1 = s ∧ (operatorAssign env D fuel s src).2.2 = src) ∧
    (D.numElements src < s._maxElements -
        (if s._selectedStack = 0 then s._maxElements - s._top1 else s._numElements) →
      (operatorAssign env D fuel s src).1 = .ok () ∧
      IsCollection asDataStructure (operatorAssign env D fuel s src).2.1 ys ∧
      (operatorAssign env D fuel s src).2.1._selectedStack = s._selectedStack ∧
      (operatorAssign env D fuel s src).2.1._maxElements = s._maxElements ∧
      (s._selectedStack = 0 →
        (operatorAssign env D fuel s src).2.1._top1 = s._top1 ∧
        ∀ i, s._top1 ≤ i → (operatorAssign env D fuel s src).2.1._elements i = s._elements i) ∧
      (s._selectedStack = 1 →
        (operatorAssign env D fuel s src).2.1._numElements = s._numElements ∧
        ∀ i, i < s._numElements →
          (operatorAssign env D fuel s src).2.1._elements i = s._elements i)) := by
  obtain ⟨i1, i2, i3⟩ := (checkInvariants_iff s).1 hinv
  have hcount := hs.count
  have hfull : s._maxElements -
        (if s._selectedStack = 0 then s._maxElements - s._top1 else s._numElements) <
        D.numElements src →
      operatorAssign env D fuel s src = (.fail (.raised .Full), s, src) := by
    intro h
    rcases i3 with hsel | hsel
    · have h' : s._top1 < D.numElements src := by
        simp only [hsel, if_true] at h; omega
      simp [operatorAssign, hinv, hsel, h']
    · have h' : s._maxElements - s._numElements < D.numElements src := by
        simpa [hsel] using h
      simp [operatorAssign, hinv, hsel, h']
  refine ⟨⟨fun h => ?_, fun h => by rw [hfull h]⟩, fun h => ?_, fun h => ?_⟩
  · by_contra hn
    rcases i3 with hsel | hsel
    · obtain ⟨g, h1, -⟩ := pair_assign0_ok env D fuel s src ys hinv hsel hs
        (by simp only [hsel, if_true] at hn; omega) hcopy hf
      rw [h1] at h
      simp at h
    · obtain ⟨g, h1, -⟩ := pair_assign1_ok env D fuel s src ys hinv hsel hs
        (by simp only [hsel] at hn; simp at hn; omega) hcopy hf
      rw [h1] at h
      simp at h
  · by_cases hover : s._maxElements -
        (if s._selectedStack = 0 then s._maxElements - s._top1 else s._numElements) <
        D.numElements src
    · rw [hfull hover]; exact ⟨rfl, rfl⟩
    · exfalso
      rcases i3 with hsel | hsel
      · obtain ⟨g, h1, -⟩ := pair_assign0_ok env D fuel s src ys hinv hsel hs
          (by simp only [hsel, if_true] at hover; omega) hcopy hf
        rw [h1] at h
        simp at h
      · obtain ⟨g, h1, -⟩ := pair_assign1_ok env D fuel s src ys hinv hsel hs
          (by simp only [hsel] at hover; simp at hover; omega) hcopy hf
        rw [h1] at h
        simp at h
  · rcases i3 with hsel | hsel
    · simp only [hsel, if_true] at h
      obtain ⟨g, h1, h2, h3, h4⟩ := pair_assign0_ok env D fuel s src ys hinv hsel hs
        (by omega) hcopy hf
      have hinv' : ({ s with _elements := g, _numElements := ys.length } :
          SStackPair T).checkInvariants = true :=
        (checkInvariants_iff _).2 ⟨by simp only; omega, i2, Or.inl hsel⟩
      have hcol := (pair_isCollection _ hinv').1 hsel
      simp only [h3] at hcol
      rw [h1, h2]
      refine ⟨rfl, hcol, rfl, rfl, fun _ => ⟨rfl, fun i hi => h4 i (by omega)⟩, fun h' => ?_⟩
      omega
    · have h' : D.numElements src < s._maxElements - s._numElements := by
        simpa [hsel] using h
      obtain ⟨g, h1, h2, h3, h4⟩ := pair_assign1_ok env D fuel s src ys hinv hsel hs
        (by omega) hcopy hf
      have hinv' : ({ s with _elements := g, _top1 := s._maxElements - ys.length } :
          SStackPair T).checkInvariants = true :=
        (checkInvariants_iff _).2 ⟨by simp only; omega, by simp only; omega, Or.inr hsel⟩
      have hcol := (pair_isCollection _ hinv').2 hsel
      have e : s._maxElements - (s._maxElements - ys.length) = ys.length := by omega
      simp only [e, h3] at hcol
      rw [h1, h2]
      refine ⟨rfl, hcol, rfl, rfl, fun h'' => ?_, fun _ => ⟨rfl, fun i hi => h4 i (by omega)⟩⟩
      omega

/-- The pair of capacity 5 with 1 on stack 0 and stack 1 selected receives a source
that iterates 8, 7: stack 1 then iterates 8, 7, and `_top` and cell 0 are unchanged. -/
theorem pair_assign_witness :
    ((runPairOps (Env.reliable Nat) [PairOp.push 1, .select 1] (fresh 5)).2.checkInvariants
        = true ∧
      IsCollection SStack.asDataStructure (SStack.built 2 [7, 8]) [8, 7]) ∧
    (operatorAssign (Env.reliable Nat) SStack.asDataStructure 3
      (runPairOps (Env.reliable Nat) [PairOp.push 1, .select 1] (fresh 5)).2
      (SStack.built 2 [7, 8])).1 = .ok () ∧
    IsCollection asDataStructure
      (operatorAssign (Env.reliable Nat) SStack.asDataStructure 3
        (runPairOps (Env.reliable Nat) [PairOp.push 1, .select 1] (fresh 5)).2
        (SStack.built 2 [7, 8])).2.1 [8, 7] ∧
    (operatorAssign (Env.reliable Nat) SStack.asDataStructure 3
      (runPairOps (Env.reliable Nat) [PairOp.push 1, .select 1] (fresh 5)).2
      (SStack.built 2 [7, 8])).2.1._numElements = 1 ∧
    (operatorAssign (Env.reliable Nat) SStack.asDataStructure 3
      (runPairOps (Env.reliable Nat) [PairOp.push 1, .select 1] (fresh 5)).2
      (SStack.built 2 [7, 8])).2.1._top1 = 3 :=
  have hs : IsCollection SStack.asDataStructure (SStack.built 2 [7, 8]) [8, 7] :=
    (SStack.isCollection_iff _ _).2 ⟨by decide, by decide⟩
  have h := pair_assign (Env.reliable Nat) SStack.asDataStructure 3
    (runPairOps (Env.reliable Nat) [PairOp.push 1, .select 1] (fresh 5)).2
    (SStack.built 2 [7, 8]) [8, 7] (by decide) hs (fun _ _ => rfl) (by decide)
  ⟨⟨by decide, hs⟩, (h.2.2 (by decide)).1, (h.2.2 (by decide)).2.1, by decide, by decide⟩

/-- C22 (the code at the failing input). Dual Stack assignment to the selected stack,
where the source fills the room exactly: the pair of capacity 3 with 1 on stack 0 and
stack 1 selected receives a source of two elements; the call does not raise `Full` and
returns, with `_top1 == _top == 1`, a state in which the assertion `_top < _top1` of
`checkInvariants` fails, so that the iteration of the selected stack stops at the
assertion in `iterStart` and does not yield the sequence of the source; the same with
stack 0 selected and 10 on stack 1.  The claim says that the iteration sequence of the
selected stack becomes that of the source. -/
theorem pair_assign_failing_input :
    (runPairOps (Env.reliable Nat) [PairOp.push 1, .select 1] (fresh 3)).2.checkInvariants
      = true ∧
    SStack.asDataStructure.numElements (SStack.built 2 [7, 8]) = 2 ∧
    (operatorAssign (Env.reliable Nat) SStack.asDataStructure 3
      (runPairOps (Env.reliable Nat) [PairOp.push 1, .select 1] (fresh 3)).2
      (SStack.built 2 [7, 8])).1 = .ok () ∧
    (operatorAssign (Env.reliable Nat) SStack.asDataStructure 3
      (runPairOps (Env.reliable Nat) [PairOp.push 1, .select 1] (fresh 3)).2
      (SStack.built 2 [7, 8])).2.1._top1 = 1 ∧
    (operatorAssign (Env.reliable Nat) SStack.asDataStructure 3
      (runPairOps (Env.reliable Nat) [PairOp.push 1, .select 1] (fresh 3)).2
      (SStack.built 2 [7, 8])).2.1._numElements = 1 ∧
    (iterStart (operatorAssign (Env.reliable Nat) SStack.asDataStructure 3
      (runPairOps (Env.reliable Nat) [PairOp.push 1, .select 1] (fresh 3)).2
      (SStack.built 2 [7, 8])).2.1).1 = .fail .aborted ∧
    ¬ Iterates asDataStructure
      (operatorAssign (Env.reliable Nat) SStack.asDataStructure 3
        (runPairOps (Env.reliable Nat) [PairOp.push 1, .select 1] (fresh 3)).2
        (SStack.built 2 [7, 8])).2.1 [8, 7] ∧
    (operatorAssign (Env.reliable Nat) SStack.asDataStructure 3
      (runPairOps (Env.reliable Nat) [PairOp.select 1, .push 10, .select 0] (fresh 3)).2
      (SStack.built 2 [7, 8])).1 = .ok () ∧
    (iterStart (operatorAssign (Env.reliable Nat) SStack.asDataStructure 3
      (runPairOps (Env.reliable Nat) [PairOp.select 1, .push 10, .select 0] (fresh 3)).2
      (SStack.built 2 [7, 8])).2.1).1 = .fail .aborted := by
  refine ⟨by decide, by decide, by decide, by decide, by decide, by decide, ?_, by decide,
    by decide⟩
  intro h
  have e := h.1
  revert e
  decide

end SStackPair

/-! ## `peek`, the iteration order and the cursor -/

section observers
variable {T : Type}

/-- Popping an `SStack` until it is empty returns its cells from the top, and leaves
the count 0. -/
theorem spopUntilEmpty_spec (env : Env T) (k : Nat) :
    ∀ (fuel : Nat) (s : SStack T), s._numElements = k → s._numElements ≤ s._maxElements →
      (∀ v ∈ cellsDown s._elements s._numElements, env.copyThrows v = false) → k < fuel →
      popUntilEmpty SStack.isEmpty (SStack.pop env) fuel s =
        (.ok (cellsDown s._elements s._numElements), { s with _numElements := 0 }) := by
  induction k with
  | zero =>
    intro fuel s hk hle _ hf
    obtain ⟨f, rfl⟩ : ∃ f, fuel = f + 1 := ⟨fuel - 1, by omega⟩
    have ha : s.assertInvariants = true := by simp [SStack.assertInvariants, hle]
    simp only [popUntilEmpty, SStack.isEmpty, ha, hk, cellsDown]
    simp only [Bool.true_eq_false, if_false, decide_True]
    congr 1
    cases s
    simp_all
  | succ k ih =>
    intro fuel s hk hle hc hf
    obtain ⟨f, rfl⟩ : ∃ f, fuel = f + 1 := ⟨fuel - 1, by omega⟩
    have ha : s.assertInvariants = true := by simp [SStack.assertInvariants, hle]
    have hc0 : env.copyThrows (s._elements (s._numElements - 1)) = false := by
      apply hc
      rw [hk]
      simp [cellsDown]
    have hpop := SStack.pop_ok env s (by omega) hle hc0
    have hrec := ih f { s with _numElements := s._numElements - 1 } (by simp only; omega)
      (by simp only; omega)
      (by
        intro v hv
        apply hc
        simp only [hk, Nat.add_sub_cancel] at hv
        rw [hk]
        simp only [cellsDown]
        exact List.mem_cons_of_mem _ hv)
      (by omega)
    simp only [popUntilEmpty, SStack.isEmpty, ha, hk, Stack.shiftOut, Outcome.throwSpec]
    simp only [Bool.true_eq_false, if_false, Nat.succ_ne_zero, decide_False]
    rw [hpop]
    simp only [hrec]
    simp only [hk, Nat.add_sub_cancel, cellsDown]

/-- Popping a `DStack` until it is empty returns the elements of its nodes from the
head, and leaves an empty stack. -/
theorem dpopUntilEmpty_spec (env : Env T) (nodes : List (Nat × T)) :
    ∀ (fuel : Nat) (s : DStack T), s.Holds nodes →
      (∀ v ∈ nodes.map Prod.snd, env.copyThrows v = false) → nodes.length < fuel →
      ∃ s' : DStack T,
        popUntilEmpty DLinearStructure.isEmpty (DStack.pop env) fuel s =
          (.ok (nodes.map Prod.snd), s') ∧ s'.Holds [] := by
  induction nodes with
  | nil =>
    intro fuel s h _ hf
    obtain ⟨f, rfl⟩ : ∃ f, fuel = f + 1 := ⟨fuel - 1, by omega⟩
    have hc := h.count
    simp only [List.length_nil] at hc
    exact ⟨s, by simp [popUntilEmpty, DLinearStructure.isEmpty, hc], h⟩
  | cons p rest ih =>
    intro fuel s h hc hf
    obtain ⟨a, x⟩ := p
    simp only [List.length_cons] at hf
    obtain ⟨f, rfl⟩ : ∃ f, fuel = f + 1 := ⟨fuel - 1, by omega⟩
    have hcnt := h.count
    simp only [List.length_cons] at hcnt
    obtain ⟨s₁, e1, h1, -⟩ := DStack.pop_spec env s a x rest h
      (hc x (by simp))
    obtain ⟨s', e2, h2⟩ := ih f s₁ h1
      (fun v hv => hc v (by simp only [List.map_cons]; exact List.mem_cons_of_mem _ hv))
      (by omega)
    refine ⟨s', ?_, h2⟩
    simp [popUntilEmpty, DLinearStructure.isEmpty, hcnt, Stack.shiftOut, Outcome.throwSpec, e1,
      e2]

/-- C23. `peek` is a non-mutating `pop`: on a non-empty `SStack` and on a non-empty
`DStack` (the copy of the top element not throwing), `peek` returns the element that
`pop` called in the same state returns, and leaves the state, hence the count and the
element sequence, as it was, so that any number of consecutive calls of `peek` return
that same element. -/
theorem peek_nonmutating (env : Env T) (s : SStack T) (d : DStack T) (a : Nat) (x : T)
    (rest : List (Nat × T)) (n : Nat)
    (hs : s.assertInvariants = true) (hpos : 0 < s._numElements)
    (hc : env.copyThrows (s._elements (s._numElements - 1)) = false)
    (hd : d.Holds ((a, x) :: rest)) (hx : env.copyThrows x = false) :
    (SStack.peek env s = (.ok (s._elements (s._numElements - 1)), s) ∧
      (SStack.pop env s).1 = (SStack.peek env s).1 ∧
      callRepeatedly (SStack.peek env) n s =
        (List.replicate n (.ok (s._elements (s._numElements - 1))), s)) ∧
    (DStack.peek env d = (.ok x, d) ∧
      (DStack.pop env d).1 = (DStack.peek env d).1 ∧
      callRepeatedly (DStack.peek env) n d = (List.replicate n (.ok x), d) ∧
      IsCollection DLinearStructure.asDataStructure (DStack.peek env d).2 (x :: rest.map Prod.snd))
    := by
  have hle : s._numElements ≤ s._maxElements := by simpa [SStack.assertInvariants] using hs
  have hp : SStack.peek env s = (.ok (s._elements (s._numElements - 1)), s) := by
    have h0 : s._numElements ≠ 0 := by omega
    simp [SStack.peek, hs, h0, hc]
  have hq : DStack.peek env d = (.ok x, d) := DStack.peek_spec env d a x rest hd hx
  obtain ⟨d', e1, -, -⟩ := DStack.pop_spec env d a x rest hd hx
  refine ⟨⟨hp, ?_, callRepeatedly_fixed _ _ _ hp n⟩, hq, ?_, callRepeatedly_fixed _ _ _ hq n, ?_⟩
  · rw [SStack.pop_ok env s hpos hle hc, hp]
  · rw [e1, hq]
  · rw [hq]
    simpa using DLinearStructure.Holds.isCollection d _ hd

/-- A stack of capacity 3 holding 1, 2 and a dynamic stack holding 1, 2: three calls of
`peek` return 2 each time, as `pop` does. -/
theorem peek_nonmutating_witness :
    ((SStack.built 3 [1, 2]).assertInvariants = true ∧ 0 < (SStack.built 3 [1, 2])._numElements) ∧
    (callRepeatedly (SStack.peek (Env.reliable Nat)) 3 (SStack.built 3 [1, 2])).1 =
      [.ok 2, .ok 2, .ok 2] ∧
    (SStack.pop (Env.reliable Nat) (SStack.built 3 [1, 2])).1 = .ok 2 ∧
    (callRepeatedly (DStack.peek (Env.reliable Nat)) 3 (DStack.built [1, 2])).1 =
      [.ok 2, .ok 2, .ok 2] ∧
    (DStack.pop (Env.reliable Nat) (DStack.built [1, 2])).1 = .ok 2 :=
  have hd : DLinearStructure.Holds (DStack.built [1, 2]) [(1, 2), (0, 1)] :=
    ⟨⟨rfl, rfl, rfl, rfl, rfl⟩, by decide, by decide, rfl, rfl⟩
  have h := peek_nonmutating (Env.reliable Nat) (SStack.built 3 [1, 2]) (DStack.built [1, 2])
    1 2 [(0, 1)] 3 (by decide) (by decide) rfl hd rfl
  ⟨⟨by decide, by decide⟩, by rw [h.1.2.2]; rfl, by decide, by rw [h.2.2.2.1]; rfl, by decide⟩

/-- C24. Iteration order equals pop order: for an `SStack` that satisfies its assertion
and for a `DStack` that holds a chain of nodes (the states that pushes and pops
reach), the iteration `iterStart; while iterMore: iterCurrent; iterNext` yields a
sequence whose length is the count and which is exactly the sequence of values that
popping the stack until it is empty returns (the copies not throwing); for the
`SStack` it is slot `count - 1` down to slot 0; a successful `push` puts its element
in front of that sequence, so the most recently pushed element is first. -/
theorem iteration_is_pop_order (env : Env T) (s : SStack T) (d : DStack T)
    (nodes : List (Nat × T)) (fuel : Nat)
    (hs : s.assertInvariants = true) (hd : d.Holds nodes)
    (hcs : ∀ v ∈ cellsDown s._elements s._numElements, env.copyThrows v = false)
    (hcd : ∀ v ∈ nodes.map Prod.snd, env.copyThrows v = false)
    (hfs : s._numElements < fuel) (hfd : nodes.length < fuel) :
    (∃ xs, IsCollection SStack.asDataStructure s xs ∧ xs.length = s._numElements ∧
      xs = cellsDown s._elements s._numElements ∧
      (forAll SStack.asDataStructure fuel s).1 = .ok () ∧
      (forAll SStack.asDataStructure fuel s).2.2 = xs ∧
      popUntilEmpty SStack.isEmpty (SStack.pop env) fuel s =
        (.ok xs, { s with _numElements := 0 }) ∧
      (popN (SStack.pop env) s._numElements s).1 = .ok xs ∧
      ∀ e, (SStack.push env s e).1 = .ok () →
        IsCollection SStack.asDataStructure (SStack.push env s e).2 (e :: xs)) ∧
    (∃ ys, IsCollection DLinearStructure.asDataStructure d ys ∧ ys.length = d._numElements ∧
      ys = nodes.map Prod.snd ∧
      (forAll DLinearStructure.asDataStructure fuel d).1 = .ok () ∧
      (forAll DLinearStructure.asDataStructure fuel d).2.2 = ys ∧
      (popUntilEmpty DLinearStructure.isEmpty (DStack.pop env) fuel d).1 = .ok ys ∧
      (popUntilEmpty DLinearStructure.isEmpty (DStack.pop env) fuel d).2._numElements = 0 ∧
      (popN (DStack.pop env) d._numElements d).1 = .ok ys ∧
      ∀ e, (DStack.push env d e).1 = .ok () →
        IsCollection DLinearStructure.asDataStructure (DStack.push env d e).2 (e :: ys)) := by
  have hle : s._numElements ≤ s._maxElements := by simpa [SStack.assertInvariants] using hs
  have hcol := SStack.isCollection_cells s hs
  have hlen : (cellsDown s._elements s._numElements).length = s._numElements :=
    SStack.cellsDown_length _ _
  have hfa := forAll_of_Iterates SStack.asDataStructure s _ fuel hcol.iter (by omega)
  have hcold := DLinearStructure.Holds.isCollection d nodes hd
  have hfad := forAll_of_Iterates DLinearStructure.asDataStructure d _ fuel hcold.iter
    (by simpa using hfd)
  constructor
  · refine ⟨_, hcol, hlen, rfl, hfa.1, hfa.2,
      spopUntilEmpty_spec env s._numElements fuel s rfl hle hcs hfs, ?_, ?_⟩
    · rw [SStack.popN_spec env s._numElements s (le_refl _) hle hcs]
      simp only
      rw [List.take_of_length_le (by omega)]
    · intro e he
      by_cases hfull : s._numElements = s._maxElements
      · simp [SStack.push, hs, hfull] at he
      · by_cases hc : env.copyThrows e = true
        · simp [SStack.push, hs, hfull, hc] at he
        · have hc' : env.copyThrows e = false := by simpa using hc
          rw [SStack.push_ok env s e (by omega) hc']
          refine (SStack.isCollection_iff _ _).2 ⟨?_, ?_⟩
          · simp only [SStack.assertInvariants, decide_eq_true_eq]; omega
          · simp only [cellsDown, Function.update_same]
            rw [SStack.cellsDown_update_ge _ _ _ _ (le_refl _)]
  · have hcnt := hd.count
    obtain ⟨s', e1, h1⟩ := dpopUntilEmpty_spec env nodes fuel d hd hcd hfd
    obtain ⟨s'', e2, -⟩ := DStack.dpopN_spec env nodes.length d nodes hd (le_refl _) hcd
    refine ⟨_, hcold, by rw [hcnt]; simp, rfl, hfad.1, hfad.2, by rw [e1], ?_, ?_, ?_⟩
    · rw [e1]; simpa using h1.count
    · rw [hcnt, e2]
      simp
    · intro e he
      have hinv := DLinearStructure.Holds.assertInvariants_eq d nodes hd
      cases hn : env.newNode d.nextAddress with
      | threw =>
        simp [DStack.push, hinv, DLinearStructure.newNode, hn, Fault.catchAll] at he
      | null =>
        simp [DStack.push, hinv, DLinearStructure.newNode, hn] at he
      | storage =>
        by_cases hc : env.copyThrows e = true
        · simp [DStack.push, hinv, DLinearStructure.newNode, hn, hc, Fault.catchAll] at he
        · have hc' : env.copyThrows e = false := by simpa using hc
          obtain ⟨s₁, p1, p2, -⟩ := DStack.push_spec env d nodes e hd hn hc'
          rw [p1]
          simpa using DLinearStructure.Holds.isCollection s₁ _ p2

/-- A stack of capacity 3 and a dynamic stack, each holding 1, 2: the iteration and the
pops until empty both give 2, 1. -/
theorem iteration_is_pop_order_witness :
    ((SStack.built 3 [1, 2]).assertInvariants = true ∧
      DLinearStructure.Holds (DStack.built [1, 2]) [(1, 2), (0, 1)]) ∧
    (forAll SStack.asDataStructure 3 (SStack.built 3 [1, 2])).2.2 = [2, 1] ∧
    (popUntilEmpty SStack.isEmpty (SStack.pop (Env.reliable Nat)) 3
      (SStack.built 3 [1, 2])).1 = .ok [2, 1] ∧
    (forAll DLinearStructure.asDataStructure 3 (DStack.built [1, 2])).2.2 = [2, 1] ∧
    (popUntilEmpty DLinearStructure.isEmpty (DStack.pop (Env.reliable Nat)) 3
      (DStack.built [1, 2])).1 = .ok [2, 1] :=
  have hd : DLinearStructure.Holds (DStack.built [1, 2]) [(1, 2), (0, 1)] :=
    ⟨⟨rfl, rfl, rfl, rfl, rfl⟩, by decide, by decide, rfl, rfl⟩
  have h := iteration_is_pop_order (Env.reliable Nat) (SStack.built 3 [1, 2])
    (DStack.built [1, 2]) [(1, 2), (0, 1)] 3 (by decide) hd (fun _ _ => rfl) (fun _ _ => rfl)
    (by decide) (by decide)
  ⟨⟨by decide, hd⟩, by decide, by decide, by decide, by decide⟩

/-- C25. Iteration cursor errors, Bounded Stack: on an `SStack` whose cursor is
exhausted (`iterMore()` is false, as it is right after `iterStart()` on an empty
stack) `iterNext()` and `iterCurrent()` fail with `OperationFailed` and the state,
cursor included, is what it was, however often they are called; while `iterMore()` is
true both succeed, `iterCurrent()` giving the cell below the cursor and `iterNext()`
lowering the cursor by one. -/
theorem sstack_cursor_errors (s : SStack T) (n : Nat) :
    (s.iterMore = .ok false →
      s.iterNext = (.fail (.raised .OperationFailed), s) ∧
      s.iterCurrent = .fail (.raised .OperationFailed) ∧
      callRepeatedly SStack.iterNext n s =
        (List.replicate n (.fail (.raised .OperationFailed)), s)) ∧
    (s.iterMore = .ok true →
      s.iterNext = (.ok (), { s with _iterCurrent := s._iterCurrent - 1 }) ∧
      s.iterCurrent = .ok (s._elements (s._iterCurrent - 1))) ∧
    (s.assertInvariants = true → s._numElements = 0 →
      s.iterStart.1 = .ok () ∧ s.iterStart.2.iterMore = .ok false ∧
      s.iterStart.2.iterNext = (.fail (.raised .OperationFailed), s.iterStart.2) ∧
      s.iterStart.2.iterCurrent = .fail (.raised .OperationFailed)) := by
  refine ⟨fun h => ?_, fun h => ?_, fun ha h0 => ?_⟩
  · by_cases ha : s.assertInvariants = true
    · have h0 : s._iterCurrent = 0 := by
        simpa [SStack.iterMore, ha] using h
      have hn : s.iterNext = (.fail (.raised .OperationFailed), s) := by
        simp [SStack.iterNext, ha, h0]
      exact ⟨hn, by simp [SStack.iterCurrent, ha, h0], callRepeatedly_fixed _ _ _ hn n⟩
    · have ha' : s.assertInvariants = false := by simpa using ha
      simp [SStack.iterMore, ha'] at h
  · by_cases ha : s.assertInvariants = true
    · have h0 : s._iterCurrent ≠ 0 := by
        have : 0 < s._iterCurrent := by simpa [SStack.iterMore, ha] using h
        omega
      exact ⟨by simp [SStack.iterNext, ha, h0], by simp [SStack.iterCurrent, ha, h0]⟩
    · have ha' : s.assertInvariants = false := by simpa using ha
      simp [SStack.iterMore, ha'] at h
  · have ha' : ({ s with _iterCurrent := s._numElements } : SStack T).assertInvariants
        = true := by simpa [SStack.assertInvariants] using ha
    simp only [h0] at ha'
    simp [SStack.iterStart, SStack.iterMore, SStack.iterNext, SStack.iterCurrent, ha, ha', h0]

/-- A new stack of capacity 2 after `iterStart`: `iterNext` and `iterCurrent` fail with
`OperationFailed`; the stack holding 1, 2 after `iterStart`: both succeed. -/
theorem sstack_cursor_errors_witness :
    (SStack.fresh 2).iterStart.2.iterMore = .ok false ∧
    ((SStack.fresh 2).iterStart.2.iterNext).1 = .fail (.raised .OperationFailed) ∧
    (SStack.fresh 2).iterStart.2.iterCurrent = .fail (.raised .OperationFailed) ∧
    (SStack.built 2 [1, 2]).iterStart.2.iterMore = .ok true ∧
    (SStack.built 2 [1, 2]).iterStart.2.iterCurrent = .ok 2 :=
  have h := sstack_cursor_errors (SStack.fresh 2).iterStart.2 1
  have h' := sstack_cursor_errors (SStack.built 2 [1, 2]).iterStart.2 1
  ⟨by decide, by rw [(h.1 (by decide)).1], (h.1 (by decide)).2.1, by decide,
    (h'.2.1 (by decide)).2⟩

end observers

/-! ## Failures of the cursor, of `push` and of the constructor -/

section failures
variable {T : Type}

/-- C26 (as amended). Iteration cursor, Dynamic Stack: on a dynamic collection whose
cursor is exhausted (`iterMore()` is false, as it is right after `iterStart()` on an
empty collection) `iterNext()` and `iterCurrent()` raise no exception, and in
particular not `OperationFailed`: each stops at its assertion
`*_iterCurrent != NULL`; while the cursor points to a node of the collection
`iterMore()` is true and both succeed, `iterCurrent()` giving the element of that node
and `iterNext()` moving the cursor to its successor. -/
theorem dynamic_cursor_errors (s : DLinearStructure T) :
    (s.iterMore = .ok false →
      s.iterNext = (.fail .aborted, s) ∧ s.iterCurrent = .fail .aborted) ∧
    (∀ a nd, s._iterCurrent = some a → s.store a = some nd →
      s.iterMore = .ok true ∧ s.iterCurrent = .ok nd._element ∧
      s.iterNext = (.ok (), { s with _iterCurrent := nd._next })) ∧
    s.iterNext.1 ≠ .fail (.raised .OperationFailed) ∧
    s.iterCurrent ≠ .fail (.raised .OperationFailed) ∧
    (s._first = none →
      s.iterStart.2.iterMore = .ok false ∧
      s.iterStart.2.iterNext = (.fail .aborted, s.iterStart.2) ∧
      s.iterStart.2.iterCurrent = .fail .aborted) := by
  refine ⟨fun h => ?_, fun a nd ha hnd => ?_, ?_, ?_, fun h => ?_⟩
  · have h0 : s._iterCurrent = none := by
      simpa [DLinearStructure.iterMore] using h
    simp [DLinearStructure.iterNext, DLinearStructure.iterCurrent, h0]
  · simp [DLinearStructure.iterMore, DLinearStructure.iterNext, DLinearStructure.iterCurrent,
      ha, hnd]
  · unfold DLinearStructure.iterNext
    split
    · simp
    · split <;> simp
  · unfold DLinearStructure.iterCurrent
    split
    · simp
    · split <;> simp
  · simp [DLinearStructure.iterStart, DLinearStructure.iterMore, DLinearStructure.iterNext,
      DLinearStructure.iterCurrent, h]

/-- The dynamic stack holding 1 after `iterStart`: `iterCurrent` gives 1 and `iterNext`
succeeds; after that step the cursor is exhausted and both stop at the assertion. -/
theorem dynamic_cursor_errors_witness :
    (DStack.built [1]).iterStart.2.iterCurrent = .ok 1 ∧
    (DStack.built [1]).iterStart.2.iterNext.1 = .ok () ∧
    (DStack.built [1]).iterStart.2.iterNext.2.iterMore = .ok false ∧
    (DStack.built [1]).iterStart.2.iterNext.2.iterNext.1 = .fail .aborted ∧
    (DStack.built [1]).iterStart.2.iterNext.2.iterCurrent = .fail .aborted :=
  have h := dynamic_cursor_errors (DStack.built [1]).iterStart.2.iterNext.2
  ⟨by decide, by decide, by decide, by rw [(h.1 (by decide)).1], (h.1 (by decide)).2⟩

/-- The claim C26 fails as it is stated: on a new dynamic stack, right after
`iterStart()`, `iterMore()` is false and `iterNext()` and `iterCurrent()` do not fail
with `OperationFailed`: they stop at the assertion. -/
theorem dynamic_cursor_errors_counterexample :
    DStack.fresh.iterStart.1 = .ok () ∧
    DStack.fresh.iterStart.2.iterMore = .ok false ∧
    DStack.fresh.iterStart.2.iterNext.1 = .fail .aborted ∧
    DStack.fresh.iterStart.2.iterNext.1 ≠ .fail (.raised .OperationFailed) ∧
    DStack.fresh.iterStart.2.iterCurrent = .fail .aborted ∧
    DStack.fresh.iterStart.2.iterCurrent ≠ .fail (.raised .OperationFailed) := by
  decide

/-- On an `SStack` that is not full, a `push` whose copy throws lets the exception of
the copy through and leaves the stack as it was. -/
theorem spush_copy_throws (env : Env T) (s : SStack T) (e : T)
    (hs : s.assertInvariants = true) (hroom : s._numElements ≠ s._maxElements)
    (hc : env.copyThrows e = true) :
    SStack.push env s e = (.fail (.raised .Foreign), s) := by
  simp [SStack.push, hs, hroom, hc]

/-- C27 (the code at the failing input). Bounded push under copy failure: the stack of
capacity 2 that holds 1 receives `push(7)`, and the copy of 7 throws.  The count stays
1 and the iteration sequence stays 1, as the claim says, but the call does not report
`OperationFailed`: `push` has no `try` block and the exception of the copy leaves it
as it is. -/
theorem spush_copy_failing_input :
    (SStack.built 2 [1]).assertInvariants = true ∧
    (SStack.built 2 [1])._numElements ≠ (SStack.built 2 [1])._maxElements ∧
    (Env.failingOn 7).copyThrows 7 = true ∧
    (SStack.push (Env.failingOn 7) (SStack.built 2 [1]) 7).1 = .fail (.raised .Foreign) ∧
    (SStack.push (Env.failingOn 7) (SStack.built 2 [1]) 7).1 ≠
      .fail (.raised .OperationFailed) ∧
    (SStack.push (Env.failingOn 7) (SStack.built 2 [1]) 7).2._numElements = 1 ∧
    (forAll SStack.asDataStructure 2
      (SStack.push (Env.failingOn 7) (SStack.built 2 [1]) 7).2).2.2 = [1] ∧
    (forAll SStack.asDataStructure 2 (SStack.built 2 [1])).2.2 = [1] := by
  decide

/-- C28 (as amended). Dynamic push under failure: on a `DStack` that satisfies its
assertions, `push(e)` reports `OperationFailed` when the allocation of the node or the
copy of `e` into it throws, and `Full` when the allocation yields null; in each of
these cases the stack is unmodified.  Otherwise it succeeds: the new node holds `e`,
its next is the old head, it becomes the head (and the tail of a stack that was
empty), no other node changes and the count increases by exactly 1, so that the
element sequence is `e` followed by the old sequence. -/
theorem dpush_outcome (env : Env T) (s : DStack T) (e : T)
    (hinv : s.assertInvariants = true) :
    (env.newNode s.nextAddress = .threw →
      DStack.push env s e = (.fail (.raised .OperationFailed), s)) ∧
    (env.newNode s.nextAddress = .null →
      DStack.push env s e = (.fail (.raised .Full), s)) ∧
    (env.newNode s.nextAddress = .storage → env.copyThrows e = true →
      DStack.push env s e = (.fail (.raised .OperationFailed), s)) ∧
    (env.newNode s.nextAddress = .storage → env.copyThrows e = false →
      (DStack.push env s e).1 = .ok () ∧
      (DStack.push env s e).2._first = some s.nextAddress ∧
      (DStack.push env s e).2.store s.nextAddress = some ⟨e, s._first⟩ ∧
      (∀ a, a ≠ s.nextAddress → (DStack.push env s e).2.store a = s.store a) ∧
      (DStack.push env s e).2._last = (if s._last = none then some s.nextAddress else s._last) ∧
      (DStack.push env s e).2._numElements = s._numElements + 1 ∧
      ∀ nodes, s.Holds nodes → (DStack.push env s e).2.Holds ((s.nextAddress, e) :: nodes)) := by
  refine ⟨fun h => ?_, fun h => ?_, fun h hc => ?_, fun h hc => ?_⟩
  · simp [DStack.push, hinv, DLinearStructure.newNode, h, Fault.catchAll]
  · simp [DStack.push, hinv, DLinearStructure.newNode, h]
  · simp [DStack.push, hinv, DLinearStructure.newNode, h, hc, Fault.catchAll]
  · refine ⟨?_, ?_, ?_, ?_, ?_, ?_, ?_⟩
    · simp [DStack.push, hinv, DLinearStructure.newNode, h, hc]
    · simp only [DStack.push, hinv, DLinearStructure.newNode, h, hc]
      simp only [Bool.true_eq_false, if_false, Bool.false_eq_true]
      split_ifs <;> rfl
    · simp only [DStack.push, hinv, DLinearStructure.newNode, h, hc]
      simp only [Bool.true_eq_false, if_false, Bool.false_eq_true]
      split_ifs <;> simp
    · intro a ha
      simp only [DStack.push, hinv, DLinearStructure.newNode, h, hc]
      simp only [Bool.true_eq_false, if_false, Bool.false_eq_true]
      split_ifs <;> simp [Function.update_noteq ha]
    · simp only [DStack.push, hinv, DLinearStructure.newNode, h, hc]
      simp only [Bool.true_eq_false, if_false, Bool.false_eq_true]
      split_ifs <;> simp_all
    · simp only [DStack.push, hinv, DLinearStructure.newNode, h, hc]
      simp only [Bool.true_eq_false, if_false, Bool.false_eq_true]
      split_ifs <;> rfl
    · intro nodes hn
      obtain ⟨s', p1, p2, -⟩ := DStack.push_spec env s nodes e hn h hc
      rw [p1]; exact p2

/-- The dynamic stack holding 1: a push of 7 succeeds with count 2 when the allocation
yields storage, and reports `OperationFailed` when the allocation throws. -/
theorem dpush_outcome_witness :
    (DStack.built [1]).assertInvariants = true ∧
    (DStack.push (Env.reliable Nat) (DStack.built [1]) 7).1 = .ok () ∧
    (DStack.push (Env.reliable Nat) (DStack.built [1]) 7).2._numElements = 2 ∧
    (DStack.push Env.throwingNew (DStack.built [1]) 7).1 = .fail (.raised .OperationFailed) :=
  have h := dpush_outcome (Env.reliable Nat) (DStack.built [1]) 7 (by decide)
  have h' := dpush_outcome Env.throwingNew (DStack.built [1]) 7 (by decide)
  ⟨by decide, (h.2.2.2 rfl rfl).1, by decide, by rw [h'.1 rfl]⟩

/-- The claim C28 fails as it is stated: when the allocation of the node yields null,
`push(7)` on a new dynamic stack reports `Full`, not `OperationFailed` (the stack is
unmodified). -/
theorem dpush_outcome_counterexample :
    Env.exhausted.newNode DStack.fresh.nextAddress = .null ∧
    (DStack.push Env.exhausted DStack.fresh 7).1 = .fail (.raised .Full) ∧
    (DStack.push Env.exhausted DStack.fresh 7).1 ≠ .fail (.raised .OperationFailed) ∧
    (DStack.push Env.exhausted DStack.fresh 7).2._numElements = 0 ∧
    (DStack.push Env.exhausted DStack.fresh 7).2._first = none := by
  decide

/-- C29 (as amended). `Full` on a Dynamic Stack: on a `DStack` that satisfies its
assertions `push(e)` raises `Full` exactly when the allocation of the node yields
null; `isFull()` returns false in every state; and for every list of elements, pushing
them one after another onto a new `DStack`, every allocation yielding storage and no
copy throwing, succeeds and leaves the count equal to their number. -/
theorem dpush_full_iff (env : Env T) (s : DStack T) (e : T) (vs : List T)
    (iterCell : Option (Option Nat)) (s₀ : DStack T)
    (hinv : s.assertInvariants = true) (hnew : DStack.construct iterCell = .ok s₀)
    (hcopy : ∀ v ∈ vs, env.copyThrows v = false)
    (halloc : ∀ i, i < vs.length → env.newNode i = .storage) :
    ((DStack.push env s e).1 = .fail (.raised .Full) ↔ env.newNode s.nextAddress = .null) ∧
    DLinearStructure.isFull s = false ∧
    (pushAll (DStack.push env) vs s₀).1 = .ok () ∧
    (pushAll (DStack.push env) vs s₀).2._numElements = vs.length ∧
    DLinearStructure.isFull (pushAll (DStack.push env) vs s₀).2 = false := by
  refine ⟨?_, rfl, ?_, ?_, rfl⟩
  · cases hn : env.newNode s.nextAddress with
    | threw => simp [DStack.push, hinv, DLinearStructure.newNode, hn, Fault.catchAll]
    | null => simp [DStack.push, hinv, DLinearStructure.newNode, hn]
    | storage =>
      by_cases hc : env.copyThrows e = true
      · simp [DStack.push, hinv, DLinearStructure.newNode, hn, hc, Fault.catchAll]
      · have hc' : env.copyThrows e = false := by simpa using hc
        obtain ⟨s₁, p1, -, -⟩ : ∃ s₁, DStack.push env s e = (.ok (), s₁) ∧ True ∧ True := by
          refine ⟨(DStack.push env s e).2, ?_, trivial, trivial⟩
          simp only [DStack.push, hinv, DLinearStructure.newNode, hn, hc']
          simp
        rw [p1]; simp
  all_goals
    obtain ⟨h0, ha⟩ := DStack.construct_holds iterCell s₀ hnew
    obtain ⟨s', nodes', q1, q2, q3⟩ := DStack.dpushAll_spec env vs s₀ [] h0 hcopy
      (fun i hi => by rw [ha, Nat.zero_add]; exact halloc i hi)
    rw [q1]
  · simp only
    rw [q2.count, ← List.length_map nodes' Prod.snd, q3]
    simp

/-- Three pushes onto a new dynamic stack succeed and leave the count 3. -/
theorem dpush_full_iff_witness :
    (DStack.fresh.assertInvariants = true ∧
      DStack.construct (some none) = .ok DStack.fresh) ∧
    (pushAll (DStack.push (Env.reliable Nat)) [1, 2, 3] DStack.fresh).1 = .ok () ∧
    (pushAll (DStack.push (Env.reliable Nat)) [1, 2, 3] DStack.fresh).2._numElements = 3 ∧
    DLinearStructure.isFull DStack.fresh = false :=
  have h := dpush_full_iff (Env.reliable Nat) DStack.fresh 7 [1, 2, 3] (some none)
    DStack.fresh (by decide) rfl (fun _ _ => rfl) (fun _ _ => rfl)
  ⟨⟨by decide, rfl⟩, h.2.2.1, by decide, h.2.1⟩

/-- The claim C29 fails as it is stated: on the dynamic stack that holds 1, for which
`isFull()` is false, `push(7)` raises `Full` when the allocation of the node yields
null. -/
theorem dpush_full_iff_counterexample :
    (DStack.built [1]).assertInvariants = true ∧
    DLinearStructure.isFull (DStack.built [1]) = false ∧
    Env.exhausted.newNode (DStack.built [1]).nextAddress = .null ∧
    (DStack.push Env.exhausted (DStack.built [1]) 7).1 = .fail (.raised .Full) := by
  decide

/-- The constructor `SStack(size)` with the guard of the `SLinearStruct<T>`
constructor: with the size 0 it raises `ExceptionErrno(EINVAL)` and yields no stack;
every stack that it yields has a capacity of at least 1 and is empty and not full; with
a capacity of at least 1 and successful allocations it succeeds. -/
theorem zero_capacity (c : Nat) (e : Nat → T) (i : Nat) (elements : Option (Nat → T))
    (iterCell : Option Nat) (hc : 1 ≤ c) :
    SStack.construct 0 elements iterCell = .fail (.raised (.ExceptionErrno .EINVAL)) ∧
    (∀ (k : Nat) (s : SStack T), SStack.construct k elements iterCell = .ok s →
      1 ≤ k ∧ s._maxElements = k ∧ s._numElements = 0 ∧ s.isEmpty = .ok true ∧
      s.isFull = .ok false) ∧
    ∃ s : SStack T, SStack.construct c (some e) (some i) = .ok s := by
  refine ⟨by simp [SStack.construct], fun k s hs => ?_, ?_⟩
  · obtain ⟨h1, h2⟩ := SStack.construct_eq k elements iterCell s hs
    have hk : 1 ≤ k := by
      rcases Nat.eq_zero_or_pos k with h0 | h0
      · subst h0; simp [SStack.construct] at hs
      · exact h0
    have ha : s.assertInvariants = true := by simp [SStack.assertInvariants, h1]
    have hne : ¬ (0 = s._maxElements) := by omega
    exact ⟨hk, h2, h1, by simp [SStack.isEmpty, ha, h1], by simp [SStack.isFull, ha, h1, hne]⟩
  · have h0 : c ≠ 0 := by omega
    exact ⟨{ _maxElements := c, _elements := e, _numElements := 0, _iterCurrent := i },
      by simp [SStack.construct, h0, SStack.assertInvariants]⟩

/-- The constructor with capacity 2 yields an empty stack that is not full. -/
theorem zero_capacity_witness :
    (1 : Nat) ≤ 2 ∧
    SStack.construct 2 (some fun _ => (0 : Nat)) (some 0) = .ok (SStack.fresh 2) ∧
    (SStack.fresh 2).isEmpty = .ok true ∧ (SStack.fresh 2).isFull = .ok false :=
  have h := zero_capacity 2 (fun _ => (0 : Nat)) 0 (some fun _ => (0 : Nat)) (some 0)
    (by decide)
  ⟨by decide, rfl, (h.2.1 2 (SStack.fresh 2) rfl).2.2.2.1, (h.2.1 2 (SStack.fresh 2) rfl).2.2.2.2⟩

end failures

/-! ## The guarantees and the invariant of `SStack`, and its constructor from an array -/

namespace SStack
variable {T : Type}

/-- The cells below the count, from the top, are the first cells of the array in
reverse order. -/
theorem cellsDown_eq_range (f : Nat → T) (n : Nat) :
    cellsDown f n = ((List.range n).map f).reverse := by
  induction n with
  | zero => rfl
  | succ k ih => simp [cellsDown, List.range_succ, ih]

/-- A failing `push`, `pop` or `peek` that raises an exception leaves the stack as it
was, and `empty` raises none. -/
theorem raised_unchanged (env : Env T) (s : SStack T) (e : T) (x : Exn) :
    ((push env s e).1 = .fail (.raised x) → (push env s e).2 = s) ∧
    ((pop env s).1 = .fail (.raised x) → (pop env s).2 = s) ∧
    ((peek env s).1 = .fail (.raised x) → (peek env s).2 = s) ∧
    (empty s).1 ≠ .fail (.raised x) := by
  refine ⟨fun h => ?_, fun h => ?_, fun h => ?_, ?_⟩
  · unfold push at h ⊢
    dsimp only at h ⊢
    split_ifs at h ⊢ <;> first | rfl | (simp at h)
  · unfold pop at h ⊢
    dsimp only at h ⊢
    split_ifs at h ⊢ <;> first | rfl | (simp at h)
  · unfold peek at h ⊢
    split_ifs at h ⊢ <;> rfl
  · unfold empty
    split_ifs <;> simp

/-- C31 (the code at the failing inputs). SStack strong guarantee and `operator=`: the
stack of capacity 2 that holds 1, 2 is assigned a source of three elements; the call
raises the overflow error, and the stack is left with the count 0 and an empty
iteration sequence instead of 2, 1.  The same happens when a copy throws: the stack
of capacity 3 that holds 1 is assigned a source that iterates 8, 7 and whose element 7
throws on copy.  `operator+=` with the same arguments leaves the stack as it was. -/
theorem sstack_assign_failing_input :
    (forAll asDataStructure 3 (built 2 [1, 2])).2.2 = [2, 1] ∧
    asDataStructure.numElements (built 3 [7, 8, 9]) = 3 ∧
    (operatorAssign (Env.reliable Nat) asDataStructure 4 (built 2 [1, 2])
      (built 3 [7, 8, 9])).1 = .fail (.raised .OperationFailed) ∧
    (operatorAssign (Env.reliable Nat) asDataStructure 4 (built 2 [1, 2])
      (built 3 [7, 8, 9])).2.1._numElements = 0 ∧
    (forAll asDataStructure 3 (operatorAssign (Env.reliable Nat) asDataStructure 4
      (built 2 [1, 2]) (built 3 [7, 8, 9])).2.1).2.2 = [] ∧
    (operatorPlusEq (Env.reliable Nat) asDataStructure 4 (built 2 [1, 2])
      (built 3 [7, 8, 9])).1 = .fail (.raised .OperationFailed) ∧
    (forAll asDataStructure 3 (operatorPlusEq (Env.reliable Nat) asDataStructure 4
      (built 2 [1, 2]) (built 3 [7, 8, 9])).2.1).2.2 = [2, 1] ∧
    (operatorAssign (Env.failingOn 7) asDataStructure 4 (built 3 [1])
      (built 2 [7, 8])).1 = .fail (.raised .OperationFailed) ∧
    (operatorAssign (Env.failingOn 7) asDataStructure 4 (built 3 [1])
      (built 2 [7, 8])).2.1._numElements = 0 ∧
    (forAll asDataStructure 3 (operatorAssign (Env.failingOn 7) asDataStructure 4
      (built 3 [1]) (built 2 [7, 8])).2.1).2.2 = [] ∧
    (forAll asDataStructure 3 (operatorPlusEq (Env.failingOn 7) asDataStructure 4
      (built 3 [1]) (built 2 [7, 8])).2.1).2.2 = [1] := by
  decide

/-- C32. SStack `operator+=` pop order as documented: when the source is not empty and
fits in the remaining capacity (no copy throwing), `r += s` succeeds; the first
element of the iteration order of `s` is then what `peek` and the first `pop` of `r`
return, and popping `r` until it is empty yields the elements of `s` in the iteration
order of `s`, followed by the elements that `r` held before in their previous pop
order. -/
theorem plusEq_pop_order {σ : Type} (env : Env T) (D : DataStructure T σ) (fuel : Nat)
    (r : SStack T) (src : σ) (y : T) (ys : List T) (hr : r.assertInvariants = true)
    (hs : IsCollection D src (y :: ys))
    (hroom : D.numElements src ≤ r._maxElements - r._numElements)
    (hcopy : ∀ v ∈ y :: ys, env.copyThrows v = false)
    (hold : ∀ v ∈ cellsDown r._elements r._numElements, env.copyThrows v = false)
    (hf : r._numElements + (y :: ys).length < fuel) :
    (operatorPlusEq env D fuel r src).1 = .ok () ∧
    (peek env (operatorPlusEq env D fuel r src).2.1).1 = .ok y ∧
    (pop env (operatorPlusEq env D fuel r src).2.1).1 = .ok y ∧
    (popUntilEmpty isEmpty (pop env) fuel r).1 = .ok (cellsDown r._elements r._numElements) ∧
    (popUntilEmpty isEmpty (pop env) fuel (operatorPlusEq env D fuel r src).2.1).1 =
      .ok ((y :: ys) ++ cellsDown r._elements r._numElements) := by
  have hle : r._numElements ≤ r._maxElements := by simpa [assertInvariants] using hr
  have hcount := hs.count
  obtain ⟨g, h1, h2, h3⟩ := operatorPlusEq_spec env D fuel r src (y :: ys) hr hs hroom hcopy
    (by omega)
  have hall : ∀ v ∈ cellsDown g (r._numElements + (y :: ys).length),
      env.copyThrows v = false := by
    intro v hv
    rw [h3] at hv
    rcases List.mem_append.1 hv with h | h
    · exact hcopy v h
    · exact hold v h
  have hle' : r._numElements + (y :: ys).length ≤ r._maxElements := by omega
  have htop : g (r._numElements + (y :: ys).length - 1) = y := by
    have e : r._numElements + (y :: ys).length = (r._numElements + ys.length) + 1 := by
      simp only [List.length_cons]; omega
    rw [e] at h3
    simp only [cellsDown, List.cons_append, List.cons.injEq] at h3
    rw [e]
    simpa using h3.1
  have hpos : 0 < r._numElements + (y :: ys).length := by
    simp only [List.length_cons]; omega
  have hne : r._numElements + (y :: ys).length ≠ 0 := by omega
  have hinv' : ({ r with _elements := g, _numElements := r._numElements + (y :: ys).length } :
      SStack T).assertInvariants = true := by
    simp only [assertInvariants, decide_eq_true_eq]; exact hle'
  have hcy : env.copyThrows y = false := hcopy y (List.mem_cons_self _ _)
  refine ⟨h1, ?_, ?_, ?_, ?_⟩
  · rw [h2]
    simp only [peek, hinv', hne, htop, hcy]
    simp
  · rw [h2, pop_ok env _ hpos hle' (by simp only; rw [htop]; exact hcy)]
    simp only
    exact congrArg _ htop
  · rw [spopUntilEmpty_spec env r._numElements fuel r rfl hle hold (by omega)]
  · rw [h2, spopUntilEmpty_spec env _ fuel _ rfl hle' hall hf]
    simp only
    rw [h3]

/-- The stack of capacity 3 that holds 1 receives a source that iterates 8, 7: `peek`
gives 8, and the pops give 8, 7, 1. -/
theorem plusEq_pop_order_witness :
    ((built 3 [1]).assertInvariants = true ∧
      IsCollection asDataStructure (built 2 [7, 8]) [8, 7]) ∧
    (peek (Env.reliable Nat)
      (operatorPlusEq (Env.reliable Nat) asDataStructure 4 (built 3 [1])
        (built 2 [7, 8])).2.1).1 = .ok 8 ∧
    (popUntilEmpty isEmpty (pop (Env.reliable Nat)) 4
      (operatorPlusEq (Env.reliable Nat) asDataStructure 4 (built 3 [1])
        (built 2 [7, 8])).2.1).1 = .ok [8, 7, 1] :=
  have hs : IsCollection asDataStructure (built 2 [7, 8]) [8, 7] :=
    (isCollection_iff _ _).2 ⟨by decide, by decide⟩
  have h := plusEq_pop_order (Env.reliable Nat) asDataStructure 4 (built 3 [1])
    (built 2 [7, 8]) 8 [7] (by decide) hs (by decide) (fun _ _ => rfl) (fun _ _ => rfl)
    (by decide)
  ⟨⟨by decide, hs⟩, h.2.1, by decide⟩

end SStack

namespace SStack
variable {T : Type}

/-- The loop of the constructor from an array, when no copy throws: the cells from the
count up to `numElements` receive the elements of the array with the same indices. -/
theorem fillLoop_spec (env : Env T) (arr : Nat → T) (n : Nat) (k : Nat) :
    ∀ (fuel : Nat) (s : SStack T), s._numElements + k = n → k < fuel →
      (∀ i, i < n → env.copyThrows (arr i) = false) →
      ∃ g : Nat → T,
        fillLoop env arr n fuel s = (.ok (), { s with _elements := g, _numElements := n }) ∧
        (∀ i, s._numElements ≤ i → i < n → g i = arr i) ∧
        (∀ i, i < s._numElements → g i = s._elements i) := by
  induction k with
  | zero =>
    intro fuel s hk hf _
    obtain ⟨f, rfl⟩ : ∃ f, fuel = f + 1 := ⟨fuel - 1, by omega⟩
    have hnot : ¬ s._numElements < n := by omega
    have hn : s._numElements = n := by omega
    refine ⟨s._elements, ?_, fun i h1 h2 => by omega, fun _ _ => rfl⟩
    simp only [fillLoop, hnot, if_false]
    rw [← hn]
  | succ k ih =>
    intro fuel s hk hf hc
    obtain ⟨f, rfl⟩ : ∃ f, fuel = f + 1 := ⟨fuel - 1, by omega⟩
    have hlt : s._numElements < n := by omega
    obtain ⟨g, h1, h2, h3⟩ := ih f
      { s with
        _elements := Function.update s._elements s._numElements (arr s._numElements)
        _numElements := s._numElements + 1 } (by simp only; omega) (by omega) hc
    simp only at h1 h2 h3
    refine ⟨g, ?_, ?_, ?_⟩
    · simp only [fillLoop, hlt, if_true, hc _ hlt, Bool.false_eq_true, if_false]
      rw [h1]
    · intro i hi1 hi2
      by_cases he : i = s._numElements
      · subst he
        rw [h3 _ (by omega)]
        simp
      · exact h2 i (by omega) hi2
    · intro i hi
      rw [h3 i (by omega)]
      exact Function.update_noteq (by omega) _ _

/-- The constructor `SStack(size, elements, numElements)` with the guard of the
`SLinearStruct<T>` constructor: for every size of at least 1 (the size 0 is refused
with the invalid-argument error, whatever the other arguments), successful
allocations, element array and element count
`numElements`, `SStack(size, elements, numElements)` fails with the invalid-argument
error `ExceptionErrno(EINVAL)` when `numElements > size`, and also when exactly one of
`numElements == 0` and `elements == NULL` holds; otherwise (no copy throwing) it
yields a stack with the count `numElements` whose pops return the elements of the
array in reverse order. -/
theorem construct_from_array (env : Env T) (fuel size : Nat) (storage : Nat → T)
    (iterCell : Nat) (elements : Option (Nat → T)) (arr : Nat → T) (numElements : Nat)
    (hsize : 1 ≤ size) :
    (numElements > size →
      constructFromArray env fuel size (some storage) (some iterCell) elements numElements =
        .fail (.raised (.ExceptionErrno .EINVAL))) ∧
    (decide (numElements = 0) ≠ elements.isNone →
      constructFromArray env fuel size (some storage) (some iterCell) elements numElements =
        .fail (.raised (.ExceptionErrno .EINVAL))) ∧
    (constructFromArray env fuel size (some storage) (some iterCell) none 0 =
        .ok { _maxElements := size, _elements := storage, _numElements := 0,
              _iterCurrent := iterCell }) ∧
    (0 < numElements → numElements ≤ size → numElements < fuel →
      (∀ i, i < numElements → env.copyThrows (arr i) = false) →
      ∃ s : SStack T,
        constructFromArray env fuel size (some storage) (some iterCell) (some arr) numElements
          = .ok s ∧
        s._numElements = numElements ∧ s._maxElements = size ∧
        cellsDown s._elements s._numElements = ((List.range numElements).map arr).reverse ∧
        (popN (pop env) numElements s).1 = .ok ((List.range numElements).map arr).reverse ∧
        (popUntilEmpty isEmpty (pop env) fuel s).1 =
          .ok ((List.range numElements).map arr).reverse) ∧
    (∀ (st : Option (Nat → T)) (ic : Option Nat),
      constructFromArray env fuel 0 st ic elements numElements =
        .fail (.raised (.ExceptionErrno .EINVAL))) := by
  have h0 : size ≠ 0 := by omega
  refine ⟨fun h => ?_, fun h => ?_, ?_, fun hpos hle hf hc => ?_, fun st ic => ?_⟩
  · simp [constructFromArray, SLinearStruct.construct, h0, h]
  · by_cases hgt : numElements > size
    · simp [constructFromArray, SLinearStruct.construct, h0, hgt]
    · simp only [constructFromArray, SLinearStruct.construct, h0, if_false, hgt]
      simp only [ne_eq] at h
      simp [h]
  · simp [constructFromArray, SLinearStruct.construct, h0, assertInvariants]
  · obtain ⟨g, h1, h2, -⟩ := fillLoop_spec env arr numElements numElements fuel
      { _maxElements := size, _elements := storage, _numElements := 0,
        _iterCurrent := iterCell } (by simp) hf hc
    simp only at h1 h2
    have hne : numElements ≠ 0 := by omega
    have hnot : ¬ numElements > size := by omega
    have hcells : cellsDown g numElements = ((List.range numElements).map arr).reverse := by
      rw [cellsDown_eq_range]
      congr 1
      apply List.map_congr_left
      intro i hi
      exact h2 i (Nat.zero_le _) (List.mem_range.1 hi)
    have hall : ∀ v ∈ cellsDown g numElements, env.copyThrows v = false := by
      intro v hv
      rw [hcells] at hv
      simp only [List.mem_reverse, List.mem_map, List.mem_range] at hv
      obtain ⟨i, hi, rfl⟩ := hv
      exact hc i hi
    refine ⟨{ _maxElements := size, _elements := g, _numElements := numElements,
              _iterCurrent := iterCell }, ?_, rfl, rfl, hcells, ?_, ?_⟩
    · simp [constructFromArray, SLinearStruct.construct, h0, hnot, hne, h1, assertInvariants,
        hle]
    · rw [popN_spec env numElements _ (le_refl _) hle hall]
      simp only
      rw [List.take_of_length_le (by rw [cellsDown_length]), hcells]
    · rw [spopUntilEmpty_spec env numElements fuel _ rfl hle hall hf]
      simp only
      rw [hcells]
  · simp [constructFromArray, SLinearStruct.construct]

/-- The stack of capacity 3 built from the array 1, 2: the pops give 2, 1. -/
theorem construct_from_array_witness :
    (1 : Nat) ≤ 3 ∧
    ∃ s : SStack Nat,
      constructFromArray (Env.reliable Nat) 3 3 (some fun _ => 0) (some 0)
        (some fun i => i + 1) 2 = .ok s ∧
      s._numElements = 2 ∧
      (popN (pop (Env.reliable Nat)) 2 s).1 = .ok [2, 1] :=
  have h := construct_from_array (Env.reliable Nat) 3 3 (fun _ => 0) 0
    (some fun i => i + 1) (fun i => i + 1) 2 (by decide)
  ⟨by decide,
    (h.2.2.2.1 (by decide) (by decide) (by decide) (fun _ _ => rfl)).imp
      fun _ hs => ⟨hs.1, hs.2.1, hs.2.2.2.2.1⟩⟩

/-- The invariant of the Bounded Stack holds exactly when the count is not above the
capacity. -/
theorem invariant_iff (s : SStack T) : s.Invariant ↔ s._numElements ≤ s._maxElements := by
  constructor
  · intro h; exact h.1
  · intro h
    have ha : s.assertInvariants = true := by simp [assertInvariants, h]
    exact ⟨h, _, iterates_cells s ha, cellsDown_length _ _⟩

/-- The state in which `operator+=` leaves the stack, whatever its outcome: the
capacity is unchanged and the count is not above it. -/
theorem operatorPlusEq_bounded {σ : Type} (env : Env T) (D : DataStructure T σ) (fuel : Nat)
    (r : SStack T) (src : σ) (ys : List T) (hr : r._numElements ≤ r._maxElements)
    (hs : IsCollection D src ys) (hf : ys.length < fuel) :
    (operatorPlusEq env D fuel r src).2.1._maxElements = r._maxElements ∧
    (operatorPlusEq env D fuel r src).2.1._numElements ≤ r._maxElements ∧
    (operatorPlusEq env D fuel r src).2.1._numElements ≤ r._numElements + D.numElements src ∧
    r._numElements ≤ (operatorPlusEq env D fuel r src).2.1._numElements := by
  have ha : r.assertInvariants = true := by simp [assertInvariants, hr]
  have hloop := forLoop_spec D (copyDown env) ys fuel src
    (r, r._numElements + D.numElements src) hs.iter hf
  obtain ⟨l1, l2, l3⟩ := hloop
  obtain ⟨f1, f2, -, -⟩ := foldBody_copyDown_frame env ys r (r._numElements + D.numElements src)
  rw [← l2] at f1 f2
  unfold operatorPlusEq
  simp only [ha, Bool.true_eq_false, if_false]
  split_ifs with h1 h2
  · exact ⟨rfl, hr, by simp only; omega, le_refl _⟩
  · unfold appendBlock
    rcases hfl : forLoop D (copyDown env) fuel src (r, r._numElements + D.numElements src)
      with ⟨o, src', r'⟩
    rw [hfl] at f1 f2 l3
    simp only at f1 f2 l3
    cases o with
    | fail f =>
      simp only
      exact ⟨f2, by rw [f1]; exact hr, by rw [f1]; omega, by rw [f1]⟩
    | ok u =>
      simp only
      split_ifs with h3 h4
      · simp only
        exact ⟨f2, by rw [f1]; exact hr, by rw [f1]; omega, by rw [f1]⟩
      · simp only
        exact ⟨f2, by rw [f1, l3]; omega, by rw [f1, l3], by rw [f1]; omega⟩
      · simp only
        exact ⟨f2, by rw [f1, l3]; omega, by rw [f1, l3], by rw [f1]; omega⟩
  · exact ⟨rfl, hr, by simp only; omega, le_refl _⟩

/-- C35. Bounded Stack invariant: `0 <= count <= capacity` together with "the
iteration from `iterStart` yields exactly `count` elements" holds for a newly
constructed `SStack`, whose count is 0, and in the state in which `push`, `pop`,
`peek`, `empty`, `operator=` and `operator+=` leave a stack for which it holds,
whether the call succeeds or fails. -/
theorem sstack_invariant {σ : Type} (env : Env T) (D : DataStructure T σ) (fuel : Nat)
    (s : SStack T) (src : σ) (ys : List T) (e : T) (hI : s.Invariant)
    (hs : IsCollection D src ys) (hf : ys.length < fuel) :
    (∀ (c : Nat) (storage : Option (Nat → T)) (iterCell : Option Nat) (s₀ : SStack T),
      construct c storage iterCell = .ok s₀ → s₀.Invariant ∧ s₀._numElements = 0) ∧
    (push env s e).2.Invariant ∧ (pop env s).2.Invariant ∧ (peek env s).2.Invariant ∧
    (empty s).2.Invariant ∧ (operatorAssign env D fuel s src).2.1.Invariant ∧
    (operatorPlusEq env D fuel s src).2.1.Invariant := by
  have hle : s._numElements ≤ s._maxElements := hI.1
  have ha : s.assertInvariants = true := by simp [assertInvariants, hle]
  refine ⟨fun c storage iterCell s₀ h0 => ?_, ?_, ?_, ?_, ?_, ?_, ?_⟩
  · obtain ⟨h1, h2⟩ := construct_eq c storage iterCell s₀ h0
    exact ⟨(invariant_iff _).2 (by omega), h1⟩
  · rw [invariant_iff]
    unfold push
    dsimp only
    split_ifs <;> simp only <;> omega
  · rw [invariant_iff]
    unfold pop
    dsimp only
    split_ifs <;> simp only <;> omega
  · rw [invariant_iff]
    unfold peek
    split_ifs <;> exact hle
  · rw [invariant_iff]
    unfold empty
    split_ifs
    · exact hle
    · simp
  · rw [invariant_iff]
    obtain ⟨b1, b2, -, -⟩ := operatorPlusEq_bounded env D fuel { s with _numElements := 0 } src
      ys (by simp) hs hf
    simp only [operatorAssign, ha, Bool.true_eq_false, if_false]
    rw [b1]
    exact b2
  · rw [invariant_iff]
    obtain ⟨b1, b2, -, -⟩ := operatorPlusEq_bounded env D fuel s src ys hle hs hf
    rw [b1]
    exact b2

/-- The stack of capacity 2 that holds 1, 2: a failing `push` of 3 and a failing
`operator=` of a source of three elements both leave a stack that satisfies the
invariant. -/
theorem sstack_invariant_witness :
    (built 2 [1, 2]).Invariant ∧
    (push (Env.reliable Nat) (built 2 [1, 2]) 3).1 = .fail (.raised .Full) ∧
    (push (Env.reliable Nat) (built 2 [1, 2]) 3).2.Invariant ∧
    (operatorAssign (Env.reliable Nat) asDataStructure 4 (built 2 [1, 2])
      (built 3 [7, 8, 9])).2.1.Invariant :=
  have hI : (built 2 [1, 2]).Invariant := (invariant_iff _).2 (by decide)
  have hs : IsCollection asDataStructure (built 3 [7, 8, 9]) [9, 8, 7] :=
    (isCollection_iff _ _).2 ⟨by decide, by decide⟩
  have h := sstack_invariant (Env.reliable Nat) asDataStructure 4 (built 2 [1, 2])
    (built 3 [7, 8, 9]) [9, 8, 7] 3 hI hs (by decide)
  ⟨hI, by decide, h.2.1, h.2.2.2.2.2.1⟩

end SStack

/-! ## The partition of an `SStackPair` -/

namespace SStackPair
variable {T : Type}

/-- The assertions of the class imply the partition of the array. -/
theorem partition_of_checkInvariants (s : SStackPair T) (h : s.checkInvariants = true) :
    s.Partition := by
  obtain ⟨i1, i2, i3⟩ := (checkInvariants_iff s).1 h
  exact ⟨by omega, i2, i3⟩

/-- The state in which `push` leaves a pair keeps the partition. -/
theorem push_partition (env : Env T) (s : SStackPair T) (e : T) (hP : s.Partition) :
    (s.push env e).2.Partition := by
  by_cases hinv : s.checkInvariants = true
  · obtain ⟨i1, i2, i3⟩ := (checkInvariants_iff s).1 hinv
    have hne : s._numElements ≠ s._top1 := by omega
    have ha : s.toSStack.assertInvariants = true := by
      simp only [SStack.assertInvariants, decide_eq_true_eq]; omega
    have hnm : s._numElements ≠ s._maxElements := by omega
    rcases i3 with hsel | hsel
    · by_cases hc : env.copyThrows e = true
      · have : (s.push env e).2 = s := by
          simp [push, hinv, isFull, hne, hsel, SStack.push, ha, hnm, hc]
          cases s
          simp_all
        rw [this]; exact hP
      · have hc' : env.copyThrows e = false := by simpa using hc
        have hpush := SStack.push_ok env s.toSStack e (by omega) hc'
        have : (s.push env e).2 = { s with
            _elements := Function.update s._elements s._numElements e
            _numElements := s._numElements + 1 } := by
          simp only [push, hinv, isFull, hne, hsel, hpush]
          simp only [Bool.true_eq_false, if_false, decide_False, ne_eq, not_true_eq_false]
          split_ifs <;> rfl
        rw [this]
        exact ⟨by simp only; omega, i2, Or.inl hsel⟩
    · by_cases hc : env.copyThrows e = true
      · have : (s.push env e).2 = { s with _top1 := s._top1 - 1 } := by
          simp [push, hinv, isFull, hne, hsel, hc]
        rw [this]
        exact ⟨by simp only; omega, by simp only; omega, Or.inr hsel⟩
      · have hc' : env.copyThrows e = false := by simpa using hc
        have : (s.push env e).2 = { s with
            _elements := Function.update s._elements (s._top1 - 1) e
            _top1 := s._top1 - 1 } := by
          simp only [push, hinv, isFull, hne, hsel, hc']
          simp only [Bool.true_eq_false, if_false, decide_False, ne_eq, one_ne_zero,
            not_false_eq_true, if_true, Bool.false_eq_true]
          split_ifs <;> rfl
        rw [this]
        exact ⟨by simp only; omega, by simp only; omega, Or.inr hsel⟩
  · have hf : s.checkInvariants = false := by simpa using hinv
    have : (s.push env e).2 = s := by simp [push, hf]
    rw [this]; exact hP

/-- The state in which `pop` leaves a pair keeps the partition. -/
theorem pop_partition (env : Env T) (s : SStackPair T) (hP : s.Partition) :
    (s.pop env).2.Partition := by
  by_cases hinv : s.checkInvariants = true
  · obtain ⟨i1, i2, i3⟩ := (checkInvariants_iff s).1 hinv
    obtain ⟨p0, p1⟩ := pop_outcome env s hinv
    rcases i3 with hsel | hsel
    · rw [p0 hsel]
      split_ifs
      · exact hP
      · exact hP
      · exact ⟨by simp only; omega, i2, Or.inl hsel⟩
    · rw [p1 hsel]
      split_ifs
      · exact hP
      · exact ⟨by simp only; omega, by simp only; omega, Or.inr hsel⟩
      · exact ⟨by simp only; omega, by simp only; omega, Or.inr hsel⟩
  · have hf : s.checkInvariants = false := by simpa using hinv
    have : (s.pop env).2 = s := by simp [pop, hf]
    rw [this]; exact hP

/-- The state in which `select(0)` or `select(1)` leaves a pair keeps the partition. -/
theorem select_partition (s : SStackPair T) (n : Nat) (hn : n = 0 ∨ n = 1)
    (hP : s.Partition) : (s.select n).2.Partition := by
  by_cases hinv : s.checkInvariants = true
  · rw [select_ok s n hinv hn]
    exact ⟨hP.1, hP.2.1, hn⟩
  · have hf : s.checkInvariants = false := by simpa using hinv
    have : (s.select n).2 = s := by simp [select, hf]
    rw [this]; exact hP

/-- The copy loop of `operator=` on stack #1, whatever its outcome, changes neither
`_top` nor the capacity nor the selection, and leaves `_top1` between its value at the
start and the capacity. -/
theorem foldBody_copyUp_frame (env : Env T) (ys : List T) :
    ∀ s : SStackPair T, s._top1 ≤ s._maxElements →
      (foldBody (copyUp env) ys s).2._numElements = s._numElements ∧
      (foldBody (copyUp env) ys s).2._maxElements = s._maxElements ∧
      (foldBody (copyUp env) ys s).2._selectedStack = s._selectedStack ∧
      s._top1 ≤ (foldBody (copyUp env) ys s).2._top1 ∧
      (foldBody (copyUp env) ys s).2._top1 ≤ s._maxElements := by
  induction ys with
  | nil => intro s h; exact ⟨rfl, rfl, rfl, le_refl _, h⟩
  | cons y ys ih =>
    intro s h
    by_cases hfull : s._maxElements ≤ s._top1
    · have e : foldBody (copyUp env) (y :: ys) s = (.fail .undefined, s) := by
        simp [foldBody, copyUp, hfull]
      rw [e]
      exact ⟨rfl, rfl, rfl, le_refl _, h⟩
    · by_cases hc : env.copyThrows y = true
      · have e : foldBody (copyUp env) (y :: ys) s =
            (.fail (.raised .Foreign), { s with _top1 := s._top1 + 1 }) := by
          simp [foldBody, copyUp, hfull, hc]
        rw [e]
        exact ⟨rfl, rfl, rfl, by simp only; omega, by simp only; omega⟩
      · have hc' : env.copyThrows y = false := by simpa using hc
        obtain ⟨h1, h2, h3, h4, h5⟩ := ih
          { s with _elements := Function.update s._elements s._top1 y, _top1 := s._top1 + 1 }
          (by simp only; omega)
        simp only at h1 h2 h3 h4 h5
        have e : foldBody (copyUp env) (y :: ys) s = foldBody (copyUp env) ys
            { s with _elements := Function.update s._elements s._top1 y,
                     _top1 := s._top1 + 1 } := by
          simp [foldBody, copyUp, hfull, hc']
        rw [e]
        exact ⟨h1, h2, h3, by omega, h5⟩

/-- The state in which `operator=` leaves a pair keeps the partition. -/
theorem assign_partition {σ : Type} (env : Env T) (D : DataStructure T σ) (fuel : Nat)
    (s : SStackPair T) (src : σ) (ys : List T) (hP : s.Partition)
    (hs : IsCollection D src ys) (hf : ys.length < fuel) :
    (operatorAssign env D fuel s src).2.1.Partition := by
  by_cases hinv : s.checkInvariants = true
  · obtain ⟨i1, i2, i3⟩ := (checkInvariants_iff s).1 hinv
    rcases i3 with hsel | hsel
    · by_cases hfull : s._top1 < D.numElements src
      · have : (operatorAssign env D fuel s src).2.1 = s := by
          simp [operatorAssign, hinv, hsel, hfull]
        rw [this]; exact hP
      · have ha : s.toSStack.assertInvariants = true := by
          simp only [SStack.assertInvariants, decide_eq_true_eq]; omega
        obtain ⟨b1, -, b3, -⟩ := SStack.operatorPlusEq_bounded env D fuel
          { s.toSStack with _numElements := 0 } src ys (by simp) hs hf
        simp only [Nat.zero_add] at b3
        have : (operatorAssign env D fuel s src).2.1 =
            { s with toSStack := (SStack.operatorPlusEq env D fuel
              { s.toSStack with _numElements := 0 } src).2.1 } := by
          simp [operatorAssign, hinv, hsel, hfull, SStack.operatorAssign, ha]
        rw [this]
        exact ⟨by simp only; omega, by simp only; rw [b1]; exact i2, Or.inl hsel⟩
    · by_cases hfull : s._maxElements - s._numElements < D.numElements src
      · have : (operatorAssign env D fuel s src).2.1 = s := by
          simp [operatorAssign, hinv, hsel, hfull]
        rw [this]; exact hP
      · have hloop := forLoop_spec D (copyUp env) ys fuel src
          { s with _top1 := s._maxElements - D.numElements src } hs.iter hf
        obtain ⟨-, l2, l3⟩ := hloop
        obtain ⟨f1, f2, f3, f4, f5⟩ := foldBody_copyUp_frame env ys
          { s with _top1 := s._maxElements - D.numElements src } (by simp only; omega)
        rw [← l2] at f1 f2 f3 f4 f5
        simp only at f1 f2 f3 f4 f5
        rcases hfl : forLoop D (copyUp env) fuel src
          { s with _top1 := s._maxElements - D.numElements src } with ⟨o, src', r'⟩
        rw [hfl] at f1 f2 f3 f4 f5 l3
        simp only at f1 f2 f3 f4 f5 l3
        simp only [hsel] at hfl
        cases o with
        | fail f =>
          have : (operatorAssign env D fuel s src).2.1 = r' := by
            simp [operatorAssign, hinv, hsel, hfull, hfl]
          rw [this]
          exact ⟨by omega, by omega, (by rw [f3]; exact Or.inr hsel)⟩
        | ok u =>
          have : (operatorAssign env D fuel s src).2.1 =
              { r' with _top1 := r'._maxElements - D.numElements src' } := by
            simp [operatorAssign, hinv, hsel, hfull, hfl]
          rw [this]
          exact ⟨by simp only; omega, by simp only; omega,
            (by simp only; rw [f3]; exact Or.inr hsel)⟩
  · have hf' : s.checkInvariants = false := by simpa using hinv
    have : (operatorAssign env D fuel s src).2.1 = s := by simp [operatorAssign, hf']
    rw [this]; exact hP

/-- C34. Dual Stack partition invariant: `0 <= top0 <= top1 <= capacity` together with
"stack 0 or stack 1 is selected" holds for a newly constructed `SStackPair`, and in
the state in which `push`, `pop`, `select(0)`, `select(1)` and `operator=` leave a
pair for which it holds, whether the call succeeds or fails; hence the element counts
of the two stacks sum to at most the capacity. -/
theorem pair_partition_invariant {σ : Type} (env : Env T) (D : DataStructure T σ)
    (fuel : Nat) (s : SStackPair T) (src : σ) (ys : List T) (e : T) (hP : s.Partition)
    (hs : IsCollection D src ys) (hf : ys.length < fuel) :
    (∀ (c : Nat) (storage : Option (Nat → T)) (iterCell : Option Nat) (s₀ : SStackPair T),
      construct c storage iterCell = .ok s₀ → s₀.Partition) ∧
    (s.push env e).2.Partition ∧ (s.pop env).2.Partition ∧ (s.select 0).2.Partition ∧
    (s.select 1).2.Partition ∧ (operatorAssign env D fuel s src).2.1.Partition ∧
    s._numElements + (s._maxElements - s._top1) ≤ s._maxElements := by
  refine ⟨fun c storage iterCell s₀ h0 => ?_, push_partition env s e hP, pop_partition env s hP,
    select_partition s 0 (Or.inl rfl) hP, select_partition s 1 (Or.inr rfl) hP,
    assign_partition env D fuel s src ys hP hs hf, ?_⟩
  · exact partition_of_checkInvariants s₀ (pair_construct_eq c storage iterCell s₀ h0).1
  · obtain ⟨h1, h2, -⟩ := hP
    omega

/-- The pair of capacity 1: the push that stops at the assertion leaves
`_top == _top1 == 1`, a state in which the partition still holds. -/
theorem pair_partition_invariant_witness :
    (fresh 1).Partition ∧
    (push (Env.reliable Nat) (fresh 1) 7).1 = .fail .aborted ∧
    (push (Env.reliable Nat) (fresh 1) 7).2.Partition ∧
    (push (Env.reliable Nat) (fresh 1) 7).2._numElements = 1 ∧
    (push (Env.reliable Nat) (fresh 1) 7).2._top1 = 1 :=
  have hP : (fresh 1).Partition := partition_of_checkInvariants _ (by decide)
  have hs : IsCollection SStack.asDataStructure (SStack.built 2 [7, 8]) [8, 7] :=
    (SStack.isCollection_iff _ _).2 ⟨by decide, by decide⟩
  have h := pair_partition_invariant (Env.reliable Nat) SStack.asDataStructure 3 (fresh 1)
    (SStack.built 2 [7, 8]) [8, 7] 7 hP hs (by decide)
  ⟨hP, by decide, h.2.1, by decide, by decide⟩

/-- C37 (the code at the failing input). Dual Stack concatenation: the pair of capacity
3 with 1 on stack 0 and 10 on stack 1 (`_top == 1`, `_top1 == 2`, cell 2 holding 10),
stack 0 selected, receives `+=` of a source that iterates 8, 7.  The inherited
`SStack<T>::operator+=` tests the room against the whole array and succeeds: it writes
the cells 1 and 2 and leaves `_top == 3 > _top1 == 2`; cell 2, the element of stack 1,
now holds 8, the partition does not hold and the assertions of the class fail.  The
same happens with stack 1 selected. -/
theorem pair_plusEq_failing_input :
    (runPairOps (Env.reliable Nat) [PairOp.push 1, .select 1, .push 10, .select 0]
      (fresh 3)).2.checkInvariants = true ∧
    (runPairOps (Env.reliable Nat) [PairOp.push 1, .select 1, .push 10, .select 0]
      (fresh 3)).2._elements 2 = 10 ∧
    (operatorPlusEq (Env.reliable Nat) SStack.asDataStructure 3
      (runPairOps (Env.reliable Nat) [PairOp.push 1, .select 1, .push 10, .select 0]
        (fresh 3)).2 (SStack.built 2 [7, 8])).1 = .ok () ∧
    (operatorPlusEq (Env.reliable Nat) SStack.asDataStructure 3
      (runPairOps (Env.reliable Nat) [PairOp.push 1, .select 1, .push 10, .select 0]
        (fresh 3)).2 (SStack.built 2 [7, 8])).2.1._numElements = 3 ∧
    (operatorPlusEq (Env.reliable Nat) SStack.asDataStructure 3
      (runPairOps (Env.reliable Nat) [PairOp.push 1, .select 1, .push 10, .select 0]
        (fresh 3)).2 (SStack.built 2 [7, 8])).2.1._top1 = 2 ∧
    (operatorPlusEq (Env.reliable Nat) SStack.asDataStructure 3
      (runPairOps (Env.reliable Nat) [PairOp.push 1, .select 1, .push 10, .select 0]
        (fresh 3)).2 (SStack.built 2 [7, 8])).2.1._elements 2 = 8 ∧
    ¬ (operatorPlusEq (Env.reliable Nat) SStack.asDataStructure 3
      (runPairOps (Env.reliable Nat) [PairOp.push 1, .select 1, .push 10, .select 0]
        (fresh 3)).2 (SStack.built 2 [7, 8])).2.1.Partition ∧
    (operatorPlusEq (Env.reliable Nat) SStack.asDataStructure 3
      (runPairOps (Env.reliable Nat) [PairOp.push 1, .select 1, .push 10, .select 0]
        (fresh 3)).2 (SStack.built 2 [7, 8])).2.1.checkInvariants = false ∧
    (operatorPlusEq (Env.reliable Nat) SStack.asDataStructure 3
      (runPairOps (Env.reliable Nat) [PairOp.push 1, .select 1, .push 10]
        (fresh 3)).2 (SStack.built 2 [7, 8])).1 = .ok () ∧
    (operatorPlusEq (Env.reliable Nat) SStack.asDataStructure 3
      (runPairOps (Env.reliable Nat) [PairOp.push 1, .select 1, .push 10]
        (fresh 3)).2 (SStack.built 2 [7, 8])).2.1._numElements = 3 ∧
    (operatorPlusEq (Env.reliable Nat) SStack.asDataStructure 3
      (runPairOps (Env.reliable Nat) [PairOp.push 1, .select 1, .push 10]
        (fresh 3)).2 (SStack.built 2 [7, 8])).2.1._elements 2 = 8 := by
  refine ⟨by decide, by decide, by decide, by decide, by decide, by decide, ?_, by decide,
    by decide, by decide, by decide⟩
  intro h
  have e := h.1
  revert e
  decide

end SStackPair

/-! ## The invariant of `DStack`, and `empty` -/

namespace DLinearStructure
variable {T : Type}

/-- The state in which `empty` leaves a collection that held a chain of nodes: the
nodes are released, `_first` and `_last` are null and the count is 0. -/
theorem empty_state (fuel : Nat) (s : DLinearStructure T) (nodes : List (Nat × T))
    (h : s.Holds nodes) (hf : nodes.length < fuel) :
    (emptyLoop fuel s).1 = .ok () ∧
    (empty fuel s).2.Holds [] ∧
    (∀ a ∈ nodes.map Prod.fst, (empty fuel s).2.store a = none) ∧
    (∀ a, a ∉ nodes.map Prod.fst → (empty fuel s).2.store a = s.store a) := by
  have hinv := Holds.assertInvariants_eq s nodes h
  obtain ⟨i1, i2, -, -, -, i6, i7⟩ := emptyLoop_spec nodes fuel s h.chain h.nodup hf
  rcases hl : emptyLoop fuel s with ⟨o, s'⟩
  rw [hl] at i1 i2 i6 i7
  simp only at i1 i2 i6 i7
  subst i1
  have e : (empty fuel s).2 = { s' with _last := none, _numElements := 0 } := by
    simp [empty, hinv, hl]
  rw [e]
  refine ⟨rfl, ⟨?_, by simp, by simp, rfl, rfl⟩, i6, i7⟩
  simp only [Chain]
  exact i2

/-- The state in which a successful `concatenate` leaves a collection that held a chain
of nodes holds a chain of nodes again. -/
theorem concatenate_holds {σ : Type} (env : Env T) (D : DataStructure T σ) (fuel : Nat)
    (r : DLinearStructure T) (src : σ) (nodes : List (Nat × T)) (ys : List T)
    (hr : r.Holds nodes) (hs : IsCollection D src ys) (hf : ys.length < fuel)
    (hok : (concatenate env D fuel r src).1 = .ok ()) :
    ∃ nodes' : List (Nat × T), (concatenate env D fuel r src).2.1.Holds nodes' ∧
      nodes'.map Prod.snd = nodes.map Prod.snd ++ ys := by
  have hinv := Holds.assertInvariants_eq r nodes hr
  obtain ⟨l1, l2, -⟩ := forLoop_spec D (appendNode env) ys fuel src r hs.iter hf
  rcases hfl : forLoop D (appendNode env) fuel src r with ⟨o, src', r'⟩
  rw [hfl] at l1 l2
  simp only at l1 l2
  cases o with
  | fail f => simp [concatenate, hinv, hfl] at hok
  | ok u =>
    obtain ⟨nodes', h1, h2⟩ := foldBody_appendNode env ys r nodes hr l1.symm
    rw [← l2] at h1
    have hinv' := Holds.assertInvariants_eq r' nodes' h1
    have e : (concatenate env D fuel r src).2.1 = r' := by
      simp [concatenate, hinv, hfl, hinv']
    rw [e]
    exact ⟨nodes', h1, h2⟩

end DLinearStructure

namespace DStack
variable {T : Type}

/-- A `push` that succeeds on a stack that satisfies its assertions found storage for
the node and copied the element. -/
theorem push_of_ok_dynamic (env : Env T) (s : DStack T) (e : T)
    (hinv : s.assertInvariants = true) (h : (push env s e).1 = .ok ()) :
    env.newNode s.nextAddress = .storage ∧ env.copyThrows e = false := by
  cases hn : env.newNode s.nextAddress with
  | threw => simp [push, hinv, DLinearStructure.newNode, hn, Fault.catchAll] at h
  | null => simp [push, hinv, DLinearStructure.newNode, hn] at h
  | storage =>
    by_cases hc : env.copyThrows e = true
    · simp [push, hinv, DLinearStructure.newNode, hn, hc, Fault.catchAll] at h
    · exact ⟨rfl, by simpa using hc⟩

/-- C36. Dynamic Stack invariant: "`_first` is null iff the count is 0; the chain from
`_first` is acyclic, ends in null and has exactly count nodes; `_last` is the final
node of that chain, null when there is none" holds for a newly constructed `DStack`,
and in the state in which a successful `push`, a successful `pop`, a successful
`concatenate` and `empty` leave a stack for which it holds; the conditions of
`assertInvariants` hold in every such state. -/
theorem dstack_invariant {σ : Type} (env : Env T) (D : DataStructure T σ) (fuel : Nat)
    (s : DStack T) (nodes : List (Nat × T)) (src : σ) (ys : List T) (e : T)
    (h : s.Holds nodes) (hs : IsCollection D src ys) (hf : ys.length < fuel)
    (hfe : nodes.length < fuel) :
    (∀ (iterCell : Option (Option Nat)) (s₀ : DStack T),
      construct iterCell = .ok s₀ → s₀.Holds []) ∧
    (s.assertInvariants = true ∧ (s._first = none ↔ s._numElements = 0) ∧
      Chain s.store s._first nodes ∧ (nodes.map Prod.fst).Nodup ∧
      s._numElements = nodes.length ∧ s._last = nodes.getLast?.map Prod.fst) ∧
    ((push env s e).1 = .ok () → (push env s e).2.Holds ((s.nextAddress, e) :: nodes)) ∧
    (∀ v, (pop env s).1 = .ok v →
      ∃ a rest, nodes = (a, v) :: rest ∧ (pop env s).2.Holds rest) ∧
    (DLinearStructure.empty fuel s).2.Holds [] ∧
    ((DLinearStructure.concatenate env D fuel s src).1 = .ok () →
      ∃ nodes', (DLinearStructure.concatenate env D fuel s src).2.1.Holds nodes' ∧
        nodes'.map Prod.snd = nodes.map Prod.snd ++ ys) := by
  have hinv := DLinearStructure.Holds.assertInvariants_eq s nodes h
  refine ⟨fun iterCell s₀ h0 => (construct_holds iterCell s₀ h0).1,
    ⟨hinv, ?_, h.chain, h.nodup, h.count, h.last⟩, fun hok => ?_, fun v hv => ?_,
    (DLinearStructure.empty_state fuel s nodes h hfe).2.1,
    fun hok => DLinearStructure.concatenate_holds env D fuel s src nodes ys h hs hf hok⟩
  · have hfirst := DLinearStructure.Holds.first s nodes h
    have hcount := h.count
    cases nodes with
    | nil => simp_all
    | cons n rest => simp_all
  · obtain ⟨h1, h2⟩ := push_of_ok_dynamic env s e hinv hok
    obtain ⟨s', p1, p2, -⟩ := push_spec env s nodes e h h1 h2
    rw [p1]; exact p2
  · cases nodes with
    | nil =>
      rw [(pop_peek_empty env s h).1] at hv
      simp at hv
    | cons n rest =>
      obtain ⟨a, x⟩ := n
      by_cases hc : env.copyThrows x = true
      · exfalso
        have hfirst := DLinearStructure.Holds.first s _ h
        have hch := h.chain
        simp only [Chain] at hch
        simp [pop, hinv, hch.1, hch.2.1, hc] at hv
      · have hc' : env.copyThrows x = false := by simpa using hc
        obtain ⟨s', p1, p2, -⟩ := pop_spec env s a x rest h hc'
        rw [p1] at hv ⊢
        simp only [Outcome.ok.injEq] at hv
        subst hv
        exact ⟨a, rest, rfl, p2⟩

/-- The dynamic stack that holds 1, 2: a push of 3 and a pop succeed and leave chains of
three nodes and of one node. -/
theorem dstack_invariant_witness :
    DLinearStructure.Holds (built [1, 2]) [(1, 2), (0, 1)] ∧
    (push (Env.reliable Nat) (built [1, 2]) 3).1 = .ok () ∧
    DLinearStructure.Holds (push (Env.reliable Nat) (built [1, 2]) 3).2
      [(2, 3), (1, 2), (0, 1)] ∧
    (pop (Env.reliable Nat) (built [1, 2])).1 = .ok 2 ∧
    DLinearStructure.Holds (DLinearStructure.empty 3 (built [1, 2])).2 [] :=
  have hd : DLinearStructure.Holds (built [1, 2]) [(1, 2), (0, 1)] :=
    ⟨⟨rfl, rfl, rfl, rfl, rfl⟩, by decide, by decide, rfl, rfl⟩
  have hs : IsCollection SStack.asDataStructure (SStack.built 2 [7, 8]) [8, 7] :=
    (SStack.isCollection_iff _ _).2 ⟨by decide, by decide⟩
  have h := dstack_invariant (Env.reliable Nat) SStack.asDataStructure 3 (built [1, 2])
    [(1, 2), (0, 1)] (SStack.built 2 [7, 8]) [8, 7] 3 hd hs (by decide) (by decide)
  ⟨hd, by decide, h.2.2.1 (by decide), by decide, h.2.2.2.2.1⟩

/-- C38 (the code at the failing inputs). Dynamic `empty()`: on a new, already empty
dynamic stack and on the dynamic stack that holds 1, 2, both satisfying the
assertions, the loop of `empty` terminates and releases the nodes, `_first` and
`_last` become null and the count 0, as the claim says; but `empty` then executes
`assert(_numElements = 0U)`, an assignment whose value is 0, and stops there: one of
the assertions that it executes fails on every call. -/
theorem dempty_failing_input :
    fresh.assertInvariants = true ∧ (built [1, 2]).assertInvariants = true ∧
    (DLinearStructure.emptyLoop 1 fresh).1 = .ok () ∧
    (DLinearStructure.empty 1 fresh).1 = .fail .aborted ∧
    (DLinearStructure.emptyLoop 3 (built [1, 2])).1 = .ok () ∧
    (DLinearStructure.empty 3 (built [1, 2])).1 = .fail .aborted ∧
    (DLinearStructure.empty 3 (built [1, 2])).2._numElements = 0 ∧
    (DLinearStructure.empty 3 (built [1, 2])).2._first = none ∧
    (DLinearStructure.empty 3 (built [1, 2])).2._last = none ∧
    ((DLinearStructure.empty 3 (built [1, 2])).2.store 0).isNone = true ∧
    ((DLinearStructure.empty 3 (built [1, 2])).2.store 1).isNone = true := by
  decide

end DStack

/-! ## `insert` and `append` of `DLinkedList` -/

namespace DLinkedList
variable {T : Type}

/-- Where two nodes point to each other, no chain of nodes that ends in null starts at
either of them. -/
theorem two_cycle_no_chain (store : Nat → Option (Node T)) (a b : Nat) (x y : T)
    (ha : store a = some ⟨x, some b⟩) (hb : store b = some ⟨y, some a⟩) :
    ∀ (nodes : List (Nat × T)) (p : Option Nat), p = some a ∨ p = some b →
      ¬ Chain store p nodes := by
  intro nodes
  induction nodes with
  | nil =>
    intro p hp h
    simp only [Chain] at h
    rcases hp with hp | hp <;> simp [hp] at h
  | cons n rest ih =>
    intro p hp h
    obtain ⟨c, z⟩ := n
    simp only [Chain] at h
    obtain ⟨h1, h2, h3⟩ := h
    rcases hp with hp | hp
    · have hc : c = a := by rw [hp] at h1; exact (Option.some.inj h1).symm
      subst hc
      rw [ha] at h2
      have hn : rest.head?.map Prod.fst = some b := by
        have := Option.some.inj h2
        exact (congrArg Node._next this).symm
      exact ih _ (Or.inr hn) h3
    · have hc : c = b := by rw [hp] at h1; exact (Option.some.inj h1).symm
      subst hc
      rw [hb] at h2
      have hn : rest.head?.map Prod.fst = some a := by
        have := Option.some.inj h2
        exact (congrArg Node._next this).symm
      exact ih _ (Or.inl hn) h3

/-- Where two nodes point to each other, the iteration loop with the cursor on either
of them does not end: whatever the number of steps that it is given, it is cut off. -/
theorem iterLoop_two_cycle (store : Nat → Option (Node T)) (a b : Nat) (x y : T)
    (ha : store a = some ⟨x, some b⟩) (hb : store b = some ⟨y, some a⟩) :
    ∀ (fuel : Nat) (s : DLinearStructure T) (acc : List T), s.store = store →
      s._iterCurrent = some a ∨ s._iterCurrent = some b →
      (iterLoop DLinearStructure.asDataStructure (fun acc x => (.ok (), acc ++ [x]))
        fuel s acc).1 = .fail .timeout := by
  intro fuel
  induction fuel with
  | zero => intro s acc _ _; rfl
  | succ fuel ih =>
    intro s acc hs hc
    rcases hc with hc | hc
    · have h := ih { s with _iterCurrent := some b } (acc ++ [x]) hs (Or.inr rfl)
      simpa [iterLoop, DLinearStructure.asDataStructure, DLinearStructure.iterMore,
        DLinearStructure.iterCurrent, DLinearStructure.iterNext, hc, hs, ha] using h
    · have h := ih { s with _iterCurrent := some a } (acc ++ [y]) hs (Or.inl rfl)
      simpa [iterLoop, DLinearStructure.asDataStructure, DLinearStructure.iterMore,
        DLinearStructure.iterCurrent, DLinearStructure.iterNext, hc, hs, hb] using h

/-- C39 (the code at the failing input). Linked-list insert with the cursor on the
first element: on the list that holds 1 with the cursor on that element (the state
after `insert(1)` on a new list), `insert(7)` returns normally with the count 2, but
`_first` still points to the node of 1: the sequence reachable from the first node is
1, not 7, 1; the new node is not reachable, the count is not the number of reachable
nodes, and `_prev == NULL` with `_current != _first`, so that the assertions of the
class fail at the next call.  On a new list, and with the cursor past the end or on a
later element, `insert` does what the claim says. -/
theorem insert_failing_input :
    (insert (Env.reliable Nat) fresh 1).1 = .ok () ∧
    (insert (Env.reliable Nat) fresh 1).2._prev = none ∧
    (insert (Env.reliable Nat) fresh 1).2._current = some 0 ∧
    (insert (Env.reliable Nat) fresh 1).2._first = some 0 ∧
    (forAll DLinearStructure.asDataStructure 5
      (insert (Env.reliable Nat) fresh 1).2.toDLinearStructure).2.2 = [1] ∧
    (insert (Env.reliable Nat) (insert (Env.reliable Nat) fresh 1).2 7).1 = .ok () ∧
    (insert (Env.reliable Nat) (insert (Env.reliable Nat) fresh 1).2 7).2._numElements = 2 ∧
    (insert (Env.reliable Nat) (insert (Env.reliable Nat) fresh 1).2 7).2._first = some 0 ∧
    (insert (Env.reliable Nat) (insert (Env.reliable Nat) fresh 1).2 7).2._current = some 1 ∧
    (insert (Env.reliable Nat) (insert (Env.reliable Nat) fresh 1).2 7).2._prev = none ∧
    (forAll DLinearStructure.asDataStructure 5
      (insert (Env.reliable Nat)
        (insert (Env.reliable Nat) fresh 1).2 7).2.toDLinearStructure).1 = .ok () ∧
    (forAll DLinearStructure.asDataStructure 5
      (insert (Env.reliable Nat)
        (insert (Env.reliable Nat) fresh 1).2 7).2.toDLinearStructure).2.2 = [1] ∧
    Chain (insert (Env.reliable Nat) (insert (Env.reliable Nat) fresh 1).2 7).2.store
      (insert (Env.reliable Nat) (insert (Env.reliable Nat) fresh 1).2 7).2._first [(0, 1)] ∧
    assertInvariants (insert (Env.reliable Nat) (insert (Env.reliable Nat) fresh 1).2 7).2 =
      .fail .aborted ∧
    (forAll DLinearStructure.asDataStructure 5
      (insert (Env.reliable Nat)
        (findNext (insert (Env.reliable Nat) fresh 1).2).2 2).2.toDLinearStructure).2.2
      = [1, 2] ∧
    (forAll DLinearStructure.asDataStructure 5
      (insert (Env.reliable Nat) (insert (Env.reliable Nat)
        (findNext (insert (Env.reliable Nat) fresh 1).2).2 2).2 5).2.toDLinearStructure).2.2
      = [1, 5, 2] :=
  ⟨by decide, by decide, by decide, by decide, by decide, by decide, by decide, by decide,
    by decide, by decide, by decide, by decide, ⟨rfl, rfl, rfl⟩, by decide, by decide,
    by decide⟩

/-- C40 (the code at the failing input). Linked-list append with the cursor on an
existing element: on the list that holds 1 with the cursor on that element (the state
after `append(1)` on a new list), `append(2)` returns normally with the count 2, but
the new node is created with `_current` as its next: the node of 1 points to the node
of 2 and the node of 2 points back to the node of 1.  No chain that ends in null
starts at `_first`, and the iteration from the first node does not terminate: it is
cut off whatever the number of steps, after 1, 2, 1, 2, ...  With the cursor past the
end, `append` does what the claim says. -/
theorem append_failing_input :
    (append (Env.reliable Nat) fresh 1).1 = .ok () ∧
    (append (Env.reliable Nat) fresh 1).2._current = some 0 ∧
    (forAll DLinearStructure.asDataStructure 5
      (append (Env.reliable Nat) fresh 1).2.toDLinearStructure).2.2 = [1] ∧
    (append (Env.reliable Nat) (append (Env.reliable Nat) fresh 1).2 2).1 = .ok () ∧
    (append (Env.reliable Nat) (append (Env.reliable Nat) fresh 1).2 2).2._numElements = 2 ∧
    (append (Env.reliable Nat) (append (Env.reliable Nat) fresh 1).2 2).2._first = some 0 ∧
    (append (Env.reliable Nat) (append (Env.reliable Nat) fresh 1).2 2).2.store 0 =
      some ⟨1, some 1⟩ ∧
    (append (Env.reliable Nat) (append (Env.reliable Nat) fresh 1).2 2).2.store 1 =
      some ⟨2, some 0⟩ ∧
    (∀ nodes, ¬ Chain (append (Env.reliable Nat) (append (Env.reliable Nat) fresh 1).2 2).2.store
      (append (Env.reliable Nat) (append (Env.reliable Nat) fresh 1).2 2).2._first nodes) ∧
    (∀ fuel, (forAll DLinearStructure.asDataStructure fuel
      (append (Env.reliable Nat)
        (append (Env.reliable Nat) fresh 1).2 2).2.toDLinearStructure).1 = .fail .timeout) ∧
    (forAll DLinearStructure.asDataStructure 7
      (append (Env.reliable Nat)
        (append (Env.reliable Nat) fresh 1).2 2).2.toDLinearStructure).2.2
      = [1, 2, 1, 2, 1, 2, 1] ∧
    (forAll DLinearStructure.asDataStructure 5
      (append (Env.reliable Nat)
        (findNext (append (Env.reliable Nat) fresh 1).2).2 2).2.toDLinearStructure).1
      = .ok () ∧
    (forAll DLinearStructure.asDataStructure 5
      (append (Env.reliable Nat)
        (findNext (append (Env.reliable Nat) fresh 1).2).2 2).2.toDLinearStructure).2.2
      = [1, 2] := by
  refine ⟨by decide, by decide, by decide, by decide, by decide, by decide, rfl, rfl, ?_, ?_,
    by decide, by decide, by decide⟩
  · intro nodes
    exact two_cycle_no_chain _ 0 1 1 2 rfl rfl nodes _ (Or.inl rfl)
  · intro fuel
    exact iterLoop_two_cycle _ 0 1 1 2 rfl rfl fuel _ [] rfl (Or.inl rfl)

end DLinkedList

end DStructs
